import Mathlib

/-!
# Vehicle controller: differential-drive PD controller and 3D path smoother

A shallow embedding of `src/differential_drive_controller.cpp` and `src/ps3d.cpp`.

Modelling conventions.

* C++ `float`/`double` values are elements of a linearly ordered field `α`
  (exact arithmetic); `std::max`, `std::min`, `fabs`, `std::abs` are `max`, `min`, `|·|`.
  Where a conversion to `float` or a zero divisor changes what the program does (the number
  of resampled times, a weight that is exactly `0`, an arc-length table that stops
  increasing, a derivative that is not a number), a second definition with the suffix `F`
  resp. `derivativeTerms` makes it explicit; see the section on floating point.
* `M_PI` comes from `<cmath>` and is a parameter of the functions that use it;
  `M_PI_2` is `M_PI / 2` (exact for the `double` constants as well as for the reals).
* The function-local `static` variables of `executePDControlledMotionCommand` are an
  explicit state `Option (PDStatics α)`: `none` before the first call.
* ROS publishing and logging carry no state that is read back; a published message is
  returned as a value.
* `std::vector` and `std::deque` are lists. The resampling loop of the smoother is a total
  recursive function: its termination measure is the ceiling of the remaining distance
  divided by the step, which is why the smoother asks for a `FloorRing` (the rationals and
  the reals are instances).
* Closed examples about the smoother are stated over the reals with `Real.sqrt` and
  `Real.exp`; the value chosen there for `setFromTwoVectors` is never inspected.
-/

namespace VehicleController

variable {α : Type} [LinearOrderedField α]

/-! ## Drive controller: data model -/

/-- The two fields of `geometry_msgs::Twist` the controller reads and writes. -/
structure Twist (α : Type) where
  linear_x : α
  angular_z : α

/-- The fields of `MotionParameters` used by the controller. -/
structure MotionParameters (α : Type) where
  max_controller_speed_ : α
  max_unlimited_speed_ : α
  max_controller_angular_rate_ : α
  max_unlimited_angular_rate_ : α
  commanded_speed : α
  y_symmetric : Bool

/-- Accessor `MotionParameters::isYSymmetric()`. -/
def MotionParameters.isYSymmetric (mp : MotionParameters α) : Bool :=
  mp.y_symmetric

/-- Members of `DifferentialDriveController` that take part in the control law. -/
structure DifferentialDriveController (α : Type) where
  mp_ : MotionParameters α
  KP_ANGLE_ : α
  KD_ANGLE_ : α
  KP_POSITION_ : α
  KD_POSITION_ : α
  SPEED_REDUCTION_GAIN_ : α
  twist : Twist α

/-- The message `monstertruck_msgs::Pdout` without its header. -/
structure Pdout (α : Type) where
  dt : α
  e_position : α
  e_angle : α
  de_position_dt : α
  de_angle_dt : α
  speed : α
  z_twist : α
  z_twist_real : α
  z_twist_deg : α
  speed_real : α
  z_twist_deg_real : α

/-- The `static` locals of `executePDControlledMotionCommand`. -/
structure PDStatics (α : Type) where
  previous_e_angle : α
  previous_e_position : α

/-- What one call of `executePDControlledMotionCommand` leaves behind: the controller
(member `twist` updated), the statics, the published twist and the published `Pdout`. -/
structure PDResult (α : Type) where
  controller : DifferentialDriveController α
  statics : Option (PDStatics α)
  cmd_vel_raw : Twist α
  pdout : Pdout α

/-! ## Drive controller: operations -/

/-- The local `speedAbsUL` of `limitTwist` (lines 168-170), for the angular rate
`angular_rate` that line 166 has clamped to the unlimited bound. -/
def speedAbsUL (c : DifferentialDriveController α) (angular_rate max_speed : α) : α :=
  let m := -c.mp_.max_controller_speed_ / c.mp_.max_controller_angular_rate_
  let t := c.mp_.max_controller_speed_
  min (max 0 (m * |angular_rate| * c.SPEED_REDUCTION_GAIN_ + t)) max_speed

/-- Method `DifferentialDriveController::limitTwist` (lines 160-174); the twist passed by
reference is returned. -/
def limitTwist (c : DifferentialDriveController α) (twist : Twist α)
    (max_speed max_angular_rate : α) : Twist α :=
  let speed := twist.linear_x
  let angular_rate := twist.angular_z
  let speed := max (-c.mp_.max_unlimited_speed_) (min c.mp_.max_unlimited_speed_ speed)
  let angular_rate :=
    max (-c.mp_.max_unlimited_angular_rate_) (min c.mp_.max_unlimited_angular_rate_ angular_rate)
  let speedAbsUL := speedAbsUL c angular_rate max_speed
  { linear_x := max (-speedAbsUL) (min speed speedAbsUL)
    angular_z := max (-max_angular_rate) (min max_angular_rate angular_rate) }

/-- Method `DifferentialDriveController::executeUnlimitedTwist` (lines 46-54): the published twist. -/
def executeUnlimitedTwist (c : DifferentialDriveController α) (inc_twist : Twist α) : Twist α :=
  { linear_x := max (-c.mp_.max_unlimited_speed_) (min c.mp_.max_unlimited_speed_ inc_twist.linear_x)
    angular_z := max (-c.mp_.max_unlimited_angular_rate_)
      (min c.mp_.max_unlimited_angular_rate_ inc_twist.angular_z) }

/-- Method `DifferentialDriveController::executeTwist` (lines 56-61): the published twist. -/
def executeTwist (c : DifferentialDriveController α) (inc_twist : Twist α) : Twist α :=
  limitTwist c inc_twist c.mp_.max_controller_speed_ c.mp_.max_controller_angular_rate_

/-- The y-symmetric folding of lines 74-80: two successive `if`s, the second one testing
the value the first one may have changed. -/
def foldAngle (M_PI : α) (ySymmetric : Bool) (e_angle : α) : α :=
  if ySymmetric then
    let e1 := if e_angle > M_PI / 2 then e_angle - M_PI else e_angle
    if e1 < -(M_PI / 2) then M_PI + e1 else e1
  else e_angle

/-- Method `DifferentialDriveController::executePDControlledMotionCommand` (lines 69-114). -/
def executePDControlledMotionCommand (M_PI : α) (c : DifferentialDriveController α)
    (statics : Option (PDStatics α)) (e_angle e_position dt cmded_speed : α) : PDResult α :=
  -- `static double previous_e_angle = e_angle;` runs on the first call only
  let previous_e_angle := match statics with
    | none => e_angle
    | some s => s.previous_e_angle
  let previous_e_position := match statics with
    | none => e_position
    | some s => s.previous_e_position
  let e_angle := foldAngle M_PI c.mp_.isYSymmetric e_angle
  let de_angle_dt := (e_angle - previous_e_angle) / dt
  let de_position_dt := (e_position - previous_e_position) / dt
  let speed := c.KP_POSITION_ * e_position + c.KD_POSITION_ * de_position_dt
  let z_angular_rate := c.KP_ANGLE_ * e_angle + c.KD_ANGLE_ * de_angle_dt
  let speed :=
    if |speed| > |cmded_speed| then (if speed < 0 then -1 else 1) * |c.mp_.commanded_speed|
    else speed
  let twist := limitTwist c { linear_x := speed, angular_z := z_angular_rate }
    c.mp_.max_controller_speed_ c.mp_.max_controller_angular_rate_
  { controller := { c with twist := twist }
    statics := some { previous_e_angle := e_angle, previous_e_position := e_position }
    cmd_vel_raw := twist
    pdout :=
      { dt := dt
        e_position := e_position
        e_angle := e_angle
        de_position_dt := de_position_dt
        de_angle_dt := de_angle_dt
        speed := speed
        z_twist := z_angular_rate
        z_twist_real := twist.angular_z
        z_twist_deg := z_angular_rate / M_PI * 180
        speed_real := twist.linear_x
        z_twist_deg_real := twist.angular_z / M_PI * 180 } }

/-- The six-argument `DifferentialDriveController::executeMotionCommand` (lines 116-135). -/
def executeMotionCommand (M_PI : α) (c : DifferentialDriveController α)
    (statics : Option (PDStatics α))
    (carrot_relative_angle _carrot_orientation_error _carrot_distance speed
      signed_carrot_distance_2_robot dt : α) : PDResult α :=
  let e_angle := carrot_relative_angle
  let speed := if speed = 0 then 0 else speed
  executePDControlledMotionCommand M_PI c statics e_angle signed_carrot_distance_2_robot dt speed

/-- The speed envelope as the specification words it, a function of an angular rate `a`:
`min (max 0 (mcs - (mcs / mcar) * |a| * gain)) maxSpeed`. -/
def specEnvelope (c : DifferentialDriveController α) (maxSpeed a : α) : α :=
  min (max 0 (c.mp_.max_controller_speed_
    - (c.mp_.max_controller_speed_ / c.mp_.max_controller_angular_rate_) * |a|
      * c.SPEED_REDUCTION_GAIN_)) maxSpeed

/-- The `double` constant `M_PI` of `<cmath>`, as the rational number it denotes. -/
def M_PI_double : ℚ := 884279719003555 / 281474976710656

/-- A controller over `ℚ` with the gains `configure` sets (lines 28-32) and the given
motion parameters. -/
def configured (mp : MotionParameters ℚ) : DifferentialDriveController ℚ :=
  { mp_ := mp
    KP_ANGLE_ := 2.0
    KD_ANGLE_ := 0.5
    KP_POSITION_ := 0.5
    KD_POSITION_ := 0.0
    SPEED_REDUCTION_GAIN_ := 2.0
    twist := ⟨0, 0⟩ }


/-! ## Path smoother: geometry

`vec3` and `quat` are Eigen types. Their arithmetic is embedded below; the functions that
leave the ordered field (`sqrt`, `exp`) and Eigen's `setFromTwoVectors` are collected in
`Numerics` and passed as a parameter. -/

/-- Eigen `vec3`. -/
structure Vec3 (α : Type) where
  x : α
  y : α
  z : α

/-- Eigen `quat` with coefficients `w`, `x`, `y`, `z`. -/
structure Quat (α : Type) where
  w : α
  x : α
  y : α
  z : α

/-- Library functions used by the smoother: `sqrt` (inside `norm`), `exp` and
`Eigen::Quaternion::setFromTwoVectors`. -/
structure Numerics (α : Type) where
  sqrt : α → α
  exp : α → α
  setFromTwoVectors : Vec3 α → Vec3 α → Quat α

namespace Vec3

/-- The vector `vec3::Zero()`. -/
def zero : Vec3 α := ⟨0, 0, 0⟩

/-- Componentwise sum. -/
def add (a b : Vec3 α) : Vec3 α := ⟨a.x + b.x, a.y + b.y, a.z + b.z⟩

/-- Componentwise difference. -/
def sub (a b : Vec3 α) : Vec3 α := ⟨a.x - b.x, a.y - b.y, a.z - b.z⟩

/-- Vector times scalar. -/
def smul (a : Vec3 α) (s : α) : Vec3 α := ⟨a.x * s, a.y * s, a.z * s⟩

/-- Vector divided by scalar. -/
def sdiv (a : Vec3 α) (s : α) : Vec3 α := ⟨a.x / s, a.y / s, a.z / s⟩

/-- Eigen `dot`. -/
def dot (a b : Vec3 α) : α := a.x * b.x + a.y * b.y + a.z * b.z

/-- Eigen `cross`. -/
def cross (a b : Vec3 α) : Vec3 α :=
  ⟨a.y * b.z - a.z * b.y, a.z * b.x - a.x * b.z, a.x * b.y - a.y * b.x⟩

/-- Eigen `squaredNorm`. -/
def squaredNorm (a : Vec3 α) : α := dot a a

/-- Eigen `norm`: the square root of `squaredNorm`. -/
def norm (N : Numerics α) (a : Vec3 α) : α := N.sqrt (squaredNorm a)

/-- Eigen `normalized`: the vector divided by its norm, the vector itself when its squared
norm is not positive. -/
def normalized (N : Numerics α) (a : Vec3 α) : Vec3 α :=
  if squaredNorm a > 0 then sdiv a (N.sqrt (squaredNorm a)) else a

end Vec3

/-- Eigen `quat * vec3` (`_transformVector`): `v + w * uv + vec × uv` with `uv = 2 (vec × v)`. -/
def Quat.rotate (q : Quat α) (v : Vec3 α) : Vec3 α :=
  let qv : Vec3 α := ⟨q.x, q.y, q.z⟩
  let uv := Vec3.cross qv v
  let uv := Vec3.add uv uv
  Vec3.add (Vec3.add v (Vec3.smul uv q.w)) (Vec3.cross qv uv)

/-! ## Path smoother: operations

The constructor `Pathsmoother3D::Pathsmoother3D` (lines 9-18) fixes
`SMOOTHED_PATH_DISCRETIZATION = 0.05`, `PATH_SMOOTHNESS = 0.125` and
`local_robot_direction = (1,0,0)`; the one member it takes from its caller is
`allow_reverse_paths`.

Reads through an index or iterator that is out of range (undefined behaviour in C++) yield
`0` resp. the zero vector. -/

/-- Member constant set by the constructor. -/
def SMOOTHED_PATH_DISCRETIZATION : α := 0.05

/-- Member constant set by the constructor. -/
def PATH_SMOOTHNESS : α := 0.125

/-- Member constant set by the constructor. -/
def local_robot_direction : Vec3 α := ⟨1, 0, 0⟩

/-- The configurable state of `Pathsmoother3D`. -/
structure Pathsmoother3D where
  allow_reverse_paths : Bool

/-- Method `Pathsmoother3D::gaussianWeight` (lines 21-24), in exact arithmetic;
`gaussianWeightF` has the `float` return value. -/
def gaussianWeight (N : Numerics α) (t0 t1 : α) : α :=
  N.exp (-(t0 - t1) ^ 2 / (2.0 * PATH_SMOOTHNESS ^ 2))

/-- The loop of `computeAccumulatedDistances` from index `i` on: `acc` is `result[i - 1]`,
`prev` is `positions[i - 1]`. -/
def accumulateDistances (N : Numerics α) : α → Vec3 α → List (Vec3 α) → List α
  | _, _, [] => []
  | acc, prev, p :: ps =>
    (acc + Vec3.norm N (Vec3.sub p prev))
      :: accumulateDistances N (acc + Vec3.norm N (Vec3.sub p prev)) p ps

/-- Method `Pathsmoother3D::computeAccumulatedDistances` (lines 27-33), in exact arithmetic;
`computeAccumulatedDistancesF` has the `vector<float>` result. -/
def computeAccumulatedDistances (N : Numerics α) : List (Vec3 α) → List α
  | [] => []
  | p :: ps => 0 :: accumulateDistances N 0 p ps

/-- The resampling loop of `computeSmoothedPositions` (lines 114-123) from virtual time `d`
on, with the iterators `itT`, `itX` both at offset `k`: the pairs pushed onto `samples`
and `samplesX`, in order. The loop variable is exact; `resampleLoopF` has the `float` loop
variable. -/
def resampleLoop [FloorRing α] (distances : List α) (positions : List (Vec3 α))
    (d : α) (k : Nat) : List (α × Vec3 α) :=
  if h : d < distances.getLastD 0 then
    let k1 := if d > distances.getD (k + 1) 0 then k + 1 else k
    (d, Vec3.add (positions.getD k1 Vec3.zero)
          (Vec3.sdiv
            (Vec3.smul (Vec3.sub (positions.getD (k1 + 1) Vec3.zero) (positions.getD k1 Vec3.zero))
              (d - distances.getD k1 0))
            (distances.getD (k1 + 1) 0 - distances.getD k1 0)))
      :: resampleLoop distances positions (d + SMOOTHED_PATH_DISCRETIZATION) k1
  else []
termination_by ⌈(distances.getLastD 0 - d) / SMOOTHED_PATH_DISCRETIZATION⌉.toNat
decreasing_by
  have hS : (0 : α) < SMOOTHED_PATH_DISCRETIZATION := by norm_num [SMOOTHED_PATH_DISCRETIZATION]
  have h1 : (distances.getLastD 0 - (d + SMOOTHED_PATH_DISCRETIZATION)) / SMOOTHED_PATH_DISCRETIZATION
      = (distances.getLastD 0 - d) / SMOOTHED_PATH_DISCRETIZATION - 1 := by
    field_simp
    ring
  have h2 : 0 < ⌈(distances.getLastD 0 - d) / SMOOTHED_PATH_DISCRETIZATION⌉ :=
    Int.ceil_pos.mpr (div_pos (sub_pos.mpr h) hS)
  rw [h1, Int.ceil_sub_one]
  omega

/-- The body of the smoothing loop (lines 131-142) for index `i`: the point `p`, in exact
arithmetic; `smoothedPointF` has the `float` weights. -/
def smoothedPoint (N : Numerics α) (samples : List α) (samplesX : List (Vec3 α))
    (i : Nat) : Vec3 α :=
  let weight := samples.foldl (fun acc sj => acc + gaussianWeight N (samples.getD i 0) sj) 0
  (List.range samples.length).foldl
    (fun (p : Vec3 α) j =>
      let w_ij := gaussianWeight N (samples.getD i 0) (samples.getD j 0)
      ⟨p.x + (w_ij / weight) * (samplesX.getD j Vec3.zero).x,
       p.y + (w_ij / weight) * (samplesX.getD j Vec3.zero).y,
       p.z + (w_ij / weight) * (samplesX.getD j Vec3.zero).z⟩)
    Vec3.zero

/-- Method `Pathsmoother3D::computeSmoothedPositions` (lines 95-146), in exact arithmetic;
`computeSmoothedPositionsF` has the `float` loop variable and weights. -/
def computeSmoothedPositions [FloorRing α] (N : Numerics α) (distances : List α)
    (positions : List (Vec3 α)) : List (Vec3 α) :=
  let resampled := resampleLoop distances positions 0 0
  let samples := resampled.map Prod.fst ++ [distances.getLastD 0]
  let samplesX := resampled.map Prod.snd ++ [positions.getLastD Vec3.zero]
  [positions.headD Vec3.zero]
    ++ (List.range' 1 (samples.length - 1 - 1)).map (smoothedPoint N samples samplesX)
    ++ [positions.getLastD Vec3.zero]

/-- Method `Pathsmoother3D::computeSmoothedOrientations` (lines 149-220). The parameters
`distances` and `original_positions` are not read by the body. -/
def computeSmoothedOrientations (N : Numerics α) (_distances : List α)
    (_original_positions : List (Vec3 α)) (smoothed_positions : List (Vec3 α))
    (start_orientation end_orientation : Quat α) (reverse : Bool) : List (Quat α) :=
  if !reverse then
    (List.range smoothed_positions.length).map fun i =>
      if 0 < i ∧ i < smoothed_positions.length - 1 then
        N.setFromTwoVectors local_robot_direction
          (Vec3.sub (smoothed_positions.getD (i + 1) Vec3.zero) (smoothed_positions.getD i Vec3.zero))
      else if i = smoothed_positions.length - 1 then end_orientation
      else start_orientation
  else
    (List.range smoothed_positions.length).map fun i =>
      if 0 < i ∧ i < smoothed_positions.length - 1 then
        N.setFromTwoVectors ⟨1, 0, 0⟩
          (Vec3.sub (smoothed_positions.getD i Vec3.zero) (smoothed_positions.getD (i + 1) Vec3.zero))
      else if i = smoothed_positions.length - 1 then end_orientation
      else start_orientation

/-- The local `reverse` of `Pathsmoother3D::smooth` (lines 48-86). -/
def reverseDecision (N : Numerics α) (ps : Pathsmoother3D) (in_path : List (Vec3 α))
    (distances : List α) (smoothed_positions : List (Vec3 α))
    (in_start_orientation in_end_orientation : Quat α) (forbid_reverse_path : Bool) : Bool :=
  if ps.allow_reverse_paths && !forbid_reverse_path then
    if in_path.length ≥ 2 ∧ smoothed_positions.length ≥ in_path.length then
      let distC : Bool := decide (distances.getLastD 0 < 1.5)
      let start_vec : Vec3 α := ⟨1, 0, 0⟩
      let start_path_delta := Vec3.normalized N
        (Vec3.sub (smoothed_positions.getD 0 Vec3.zero) (smoothed_positions.getD 1 Vec3.zero))
      let start_path_projection := Vec3.dot start_path_delta (in_start_orientation.rotate start_vec)
      let end_path_delta := Vec3.normalized N
        (Vec3.sub (smoothed_positions.getD (smoothed_positions.length - 2) Vec3.zero)
          (smoothed_positions.getLastD Vec3.zero))
      let end_vec := Vec3.normalized N (in_end_orientation.rotate start_vec)
      let end_path_projection := Vec3.dot end_path_delta end_vec
      let startC : Bool := decide (start_path_projection > 0)
      let endC : Bool := decide (end_path_projection > 0)
      distC && startC && endC
    else false
  else false

/-- The outputs of `Pathsmoother3D::smooth`, and its local `reverse`. -/
structure SmoothResult (α : Type) where
  out_smooth_positions : List (Vec3 α)
  out_smooth_orientations : List (Quat α)
  reverse : Bool

/-- Method `Pathsmoother3D::smooth` (lines 36-92). The call of `computeSmoothedOrientations`
passes `in_end_orientation` before `in_start_orientation`, as line 88 does. -/
def smooth [FloorRing α] (N : Numerics α) (ps : Pathsmoother3D) (in_path : List (Vec3 α))
    (in_start_orientation in_end_orientation : Quat α) (forbid_reverse_path : Bool) :
    SmoothResult α :=
  let distances := computeAccumulatedDistances N in_path
  let smoothed_positions := computeSmoothedPositions N distances in_path
  let reverse := reverseDecision N ps in_path distances smoothed_positions
    in_start_orientation in_end_orientation forbid_reverse_path
  let smoothed_orientations := computeSmoothedOrientations N distances in_path smoothed_positions
    in_end_orientation in_start_orientation reverse
  { out_smooth_positions := smoothed_positions
    out_smooth_orientations := smoothed_orientations
    reverse := reverse }


/-- The total path distance as the specification words it: the sum of the lengths of the
segments between consecutive waypoints. -/
def specTotalDistance (N : Numerics α) : List (Vec3 α) → α
  | [] => 0
  | [_] => 0
  | a :: b :: t => Vec3.norm N (Vec3.sub b a) + specTotalDistance N (b :: t)

/-- The expression pushed onto `samplesX` on line 122, for the iterators at offset `k` and
the virtual time `d`. -/
def interpolate (distances : List α) (positions : List (Vec3 α)) (k : Nat) (d : α) : Vec3 α :=
  Vec3.add (positions.getD k Vec3.zero)
    (Vec3.sdiv
      (Vec3.smul (Vec3.sub (positions.getD (k + 1) Vec3.zero) (positions.getD k Vec3.zero))
        (d - distances.getD k 0))
      (distances.getD (k + 1) 0 - distances.getD k 0))

/-- The resampling loop of `computeSmoothedPositions` (lines 114-123) with the cursor made
visible: for every iteration the virtual time `d` and the offset of `itT`, `itX` that line
122 reads (after the conditional advance of lines 116-120). The loop variable is exact;
`resampleStepsF` has the `float` loop variable. -/
def resampleCursor [FloorRing α] (distances : List α) (d : α) (k : Nat) : List (α × Nat) :=
  if h : d < distances.getLastD 0 then
    let k1 := if d > distances.getD (k + 1) 0 then k + 1 else k
    (d, k1) :: resampleCursor distances (d + SMOOTHED_PATH_DISCRETIZATION) k1
  else []
termination_by ⌈(distances.getLastD 0 - d) / SMOOTHED_PATH_DISCRETIZATION⌉.toNat
decreasing_by
  have hS : (0 : α) < SMOOTHED_PATH_DISCRETIZATION := by norm_num [SMOOTHED_PATH_DISCRETIZATION]
  have h1 : (distances.getLastD 0 - (d + SMOOTHED_PATH_DISCRETIZATION)) / SMOOTHED_PATH_DISCRETIZATION
      = (distances.getLastD 0 - d) / SMOOTHED_PATH_DISCRETIZATION - 1 := by
    field_simp
    ring
  have h2 : 0 < ⌈(distances.getLastD 0 - d) / SMOOTHED_PATH_DISCRETIZATION⌉ :=
    Int.ceil_pos.mpr (div_pos (sub_pos.mpr h) hS)
  rw [h1, Int.ceil_sub_one]
  omega

/-! ## Floating point

The definitions above compute in exact arithmetic. Three narrowing conversions to `float` of
`ps3d.cpp` change more than the last digits of a result, and a division by zero has no
value in a field. The definitions below make them explicit:

* the loop variable `float d` of `computeSmoothedPositions` (line 114) is rounded after
  every `d += SMOOTHED_PATH_DISCRETIZATION`, which changes the number of iterations;
* the return value of `float gaussianWeight` (lines 21-24) is rounded, and a weight below
  the smallest positive `float` becomes exactly `0`;
* the entries of the `vector<float>` of `computeAccumulatedDistances` (line 29) are rounded,
  and a segment much shorter than the running sum leaves the sum unchanged;
* `ieeeDiv` tells a quotient with a zero divisor from a finite quotient.

The conversion is a parameter `toFloat`; `roundFloat32` is the conversion of IEEE-754
binary32 (round to nearest, ties to even, gradual underflow; overflow is not modelled).
All other operations stay exact: the sum `d + SMOOTHED_PATH_DISCRETIZATION` is formed exactly
and rounded once, the weights are added and divided exactly. A loop that may not end takes
a bound `fuel` on the number of iterations. -/

/-- Round to the nearest integer, ties to the even one. -/
def roundHalfEven [FloorRing α] (x : α) : ℤ :=
  if Int.fract x < 1 / 2 then ⌊x⌋
  else if 1 / 2 < Int.fract x then ⌊x⌋ + 1
  else if ⌊x⌋ % 2 = 0 then ⌊x⌋ else ⌊x⌋ + 1

/-- The spacing of binary32 numbers around `x`: `2 ^ (e - 23)` for `2 ^ e ≤ |x| < 2 ^ (e + 1)`,
with `e` not below the smallest normal exponent `-126`. -/
def float32Quantum [FloorRing α] (x : α) : α :=
  (2 : α) ^ (max (Int.log 2 |x|) (-126) - 23)

/-- Conversion to `float` (IEEE-754 binary32): the multiple of the spacing nearest to `x`,
ties to even. -/
def roundFloat32 [FloorRing α] (x : α) : α :=
  (roundHalfEven (x / float32Quantum x) : α) * float32Quantum x

/-- The quotient `a / b` of IEEE-754 arithmetic as far as the model tells results apart:
`none` stands for a result that is not a finite number (a NaN or an infinity), which is
what a zero divisor gives. -/
def ieeeDiv (a b : α) : Option α :=
  if b = 0 then none else some (a / b)

/-- Lines 71-83 of `executePDControlledMotionCommand` with the quotients of lines 82-83 as
`ieeeDiv`: the pair (`de_angle_dt`, `de_position_dt`). -/
def derivativeTerms (M_PI : α) (c : DifferentialDriveController α)
    (statics : Option (PDStatics α)) (e_angle e_position dt : α) : Option α × Option α :=
  let previous_e_angle := match statics with
    | none => e_angle
    | some s => s.previous_e_angle
  let previous_e_position := match statics with
    | none => e_position
    | some s => s.previous_e_position
  let e_angle := foldAngle M_PI c.mp_.isYSymmetric e_angle
  (ieeeDiv (e_angle - previous_e_angle) dt, ieeeDiv (e_position - previous_e_position) dt)

/-- The loop of `computeAccumulatedDistances` with every stored entry converted to `float`. -/
def accumulateDistancesF (toFloat : α → α) (N : Numerics α) :
    α → Vec3 α → List (Vec3 α) → List α
  | _, _, [] => []
  | acc, prev, p :: ps =>
    toFloat (acc + Vec3.norm N (Vec3.sub p prev))
      :: accumulateDistancesF toFloat N (toFloat (acc + Vec3.norm N (Vec3.sub p prev))) p ps

/-- Method `Pathsmoother3D::computeAccumulatedDistances` (lines 27-33) with its
`vector<float>` result. -/
def computeAccumulatedDistancesF (toFloat : α → α) (N : Numerics α) : List (Vec3 α) → List α
  | [] => []
  | p :: ps => 0 :: accumulateDistancesF toFloat N 0 p ps

/-- Method `Pathsmoother3D::gaussianWeight` (lines 21-24) with its `float` return value. -/
def gaussianWeightF (toFloat : α → α) (N : Numerics α) (t0 t1 : α) : α :=
  toFloat (N.exp (-(t0 - t1) ^ 2 / (2.0 * PATH_SMOOTHNESS ^ 2)))

/-- The local `weight` of the smoothing loop after lines 132-134, for index `i`, with the
`float` weights. -/
def gaussianDenominatorF (toFloat : α → α) (N : Numerics α) (samples : List α) (i : Nat) : α :=
  samples.foldl (fun acc sj => acc + gaussianWeightF toFloat N (samples.getD i 0) sj) 0

/-- The body of the smoothing loop (lines 131-142) for index `i`, with the `float` weights:
the point `p`. -/
def smoothedPointF (toFloat : α → α) (N : Numerics α) (samples : List α)
    (samplesX : List (Vec3 α)) (i : Nat) : Vec3 α :=
  let weight := samples.foldl
    (fun acc sj => acc + gaussianWeightF toFloat N (samples.getD i 0) sj) 0
  (List.range samples.length).foldl
    (fun (p : Vec3 α) j =>
      let w_ij := gaussianWeightF toFloat N (samples.getD i 0) (samples.getD j 0)
      ⟨p.x + (w_ij / weight) * (samplesX.getD j Vec3.zero).x,
       p.y + (w_ij / weight) * (samplesX.getD j Vec3.zero).y,
       p.z + (w_ij / weight) * (samplesX.getD j Vec3.zero).z⟩)
    Vec3.zero

/-- The first `fuel` iterations of the resampling loop of `computeSmoothedPositions`
(lines 114-123) with the `float` loop variable, from virtual time `d` and iterator offset
`k`: for every iteration the time `d` pushed onto `samples` and the offset that line 122
reads. -/
def resampleStepsF (toFloat : α → α) (distances : List α) : Nat → α → Nat → List (α × Nat)
  | 0, _, _ => []
  | fuel + 1, d, k =>
    if d < distances.getLastD 0 then
      (d, if d > distances.getD (k + 1) 0 then k + 1 else k)
        :: resampleStepsF toFloat distances fuel (toFloat (d + SMOOTHED_PATH_DISCRETIZATION))
            (if d > distances.getD (k + 1) 0 then k + 1 else k)
    else []

/-- The resampling loop of `computeSmoothedPositions` (lines 114-123) with the `float` loop
variable: the pairs pushed onto `samples` and `samplesX`; `none` when the loop has not
ended after `fuel` iterations. -/
def resampleLoopF (toFloat : α → α) (distances : List α) (positions : List (Vec3 α))
    (fuel : Nat) : Option (List (α × Vec3 α)) :=
  if (resampleStepsF toFloat distances fuel 0 0).length < fuel then
    some ((resampleStepsF toFloat distances fuel 0 0).map
      (fun s => (s.1, interpolate distances positions s.2 s.1)))
  else none

/-- The local `samples` of `computeSmoothedPositions` after line 124, with the `float` loop
variable. -/
def resampledSamplesF (toFloat : α → α) (distances : List α) (positions : List (Vec3 α))
    (fuel : Nat) : Option (List α) :=
  (resampleLoopF toFloat distances positions fuel).map
    (fun resampled => resampled.map Prod.fst ++ [distances.getLastD 0])

/-- The local `samplesX` of `computeSmoothedPositions` after line 125, with the `float` loop
variable. -/
def resampledSamplesXF (toFloat : α → α) (distances : List α) (positions : List (Vec3 α))
    (fuel : Nat) : Option (List (Vec3 α)) :=
  (resampleLoopF toFloat distances positions fuel).map
    (fun resampled => resampled.map Prod.snd ++ [positions.getLastD Vec3.zero])

/-- Method `Pathsmoother3D::computeSmoothedPositions` (lines 95-146) with the `float` loop
variable and the `float` weights; `none` when the resampling loop has not ended after
`fuel` iterations. -/
def computeSmoothedPositionsF (toFloat : α → α) (N : Numerics α) (fuel : Nat)
    (distances : List α) (positions : List (Vec3 α)) : Option (List (Vec3 α)) :=
  (resampleLoopF toFloat distances positions fuel).map fun resampled =>
    let samples := resampled.map Prod.fst ++ [distances.getLastD 0]
    let samplesX := resampled.map Prod.snd ++ [positions.getLastD Vec3.zero]
    [positions.headD Vec3.zero]
      ++ (List.range' 1 (samples.length - 1 - 1)).map (smoothedPointF toFloat N samples samplesX)
      ++ [positions.getLastD Vec3.zero]

/-- Method `Pathsmoother3D::smooth` (lines 36-92) with the `float` table, loop variable and
weights; `none` when the resampling loop has not ended after `fuel` iterations. -/
def smoothF (toFloat : α → α) (N : Numerics α) (ps : Pathsmoother3D) (fuel : Nat)
    (in_path : List (Vec3 α)) (in_start_orientation in_end_orientation : Quat α)
    (forbid_reverse_path : Bool) : Option (SmoothResult α) :=
  let distances := computeAccumulatedDistancesF toFloat N in_path
  (computeSmoothedPositionsF toFloat N fuel distances in_path).map fun smoothed_positions =>
    let reverse := reverseDecision N ps in_path distances smoothed_positions
      in_start_orientation in_end_orientation forbid_reverse_path
    let smoothed_orientations := computeSmoothedOrientations N distances in_path
      smoothed_positions in_end_orientation in_start_orientation reverse
    { out_smooth_positions := smoothed_positions
      out_smooth_orientations := smoothed_orientations
      reverse := reverse }

/-! ## Theorems: drive controller -/

theorem abs_clamp_le {b : α} (hb : 0 ≤ b) (x : α) : |max (-b) (min b x)| ≤ b := by
  rw [abs_le]
  exact ⟨le_max_left _ _, max_le (by linarith) (min_le_left _ _)⟩

theorem abs_clamp_le_abs {b : α} (hb : 0 ≤ b) (x : α) : |max (-b) (min b x)| ≤ |x| := by
  rw [abs_le]
  constructor
  · rcases le_total x 0 with hx | hx
    · rw [abs_of_nonpos hx, neg_neg]
      exact le_trans (le_min (by linarith) le_rfl) (le_max_right _ _)
    · rw [abs_of_nonneg hx]
      exact le_trans (le_min (by linarith) (by linarith)) (le_max_right _ _)
  · exact max_le (by linarith [abs_nonneg x]) (le_trans (min_le_right _ _) (le_abs_self x))

theorem speedAbsUL_le_specEnvelope (c : DifferentialDriveController α) (maxSpeed a b : α)
    (hmcs : 0 ≤ c.mp_.max_controller_speed_) (hmcar : 0 < c.mp_.max_controller_angular_rate_)
    (hG : 0 ≤ c.SPEED_REDUCTION_GAIN_) (hab : |b| ≤ |a|) :
    speedAbsUL c a maxSpeed ≤ specEnvelope c maxSpeed b := by
  unfold speedAbsUL specEnvelope
  have hq : 0 ≤ c.mp_.max_controller_speed_ / c.mp_.max_controller_angular_rate_ :=
    div_nonneg hmcs hmcar.le
  have h1 : c.mp_.max_controller_speed_ / c.mp_.max_controller_angular_rate_ * |b|
      * c.SPEED_REDUCTION_GAIN_
      ≤ c.mp_.max_controller_speed_ / c.mp_.max_controller_angular_rate_ * |a|
      * c.SPEED_REDUCTION_GAIN_ :=
    mul_le_mul_of_nonneg_right (mul_le_mul_of_nonneg_left hab hq) hG
  apply min_le_min _ le_rfl
  apply max_le_max le_rfl
  rw [neg_div]
  linarith

/-- C1 (amended): for non-negative `maxSpeed`, `maxAngularRate`, `max_controller_speed`,
`SPEED_REDUCTION_GAIN`, `max_unlimited_speed` and positive `max_controller_angular_rate`,
the twist produced by `limitTwist` satisfies `|angular| ≤ maxAngularRate`,
`|linear| ≤ envelope(angular) ≤ maxSpeed` for the output angular rate, and
`|linear| ≤ max_unlimited_speed`. -/
theorem limitTwist_bounds (c : DifferentialDriveController α) (twist : Twist α)
    (maxSpeed maxAngularRate : α) (hS : 0 ≤ maxSpeed) (hA : 0 ≤ maxAngularRate)
    (hmcs : 0 ≤ c.mp_.max_controller_speed_) (hmcar : 0 < c.mp_.max_controller_angular_rate_)
    (hG : 0 ≤ c.SPEED_REDUCTION_GAIN_) (hmus : 0 ≤ c.mp_.max_unlimited_speed_) :
    |(limitTwist c twist maxSpeed maxAngularRate).angular_z| ≤ maxAngularRate
    ∧ |(limitTwist c twist maxSpeed maxAngularRate).linear_x|
        ≤ specEnvelope c maxSpeed (limitTwist c twist maxSpeed maxAngularRate).angular_z
    ∧ specEnvelope c maxSpeed (limitTwist c twist maxSpeed maxAngularRate).angular_z ≤ maxSpeed
    ∧ |(limitTwist c twist maxSpeed maxAngularRate).linear_x| ≤ c.mp_.max_unlimited_speed_ := by
  have hU : ∀ a : α, 0 ≤ speedAbsUL c a maxSpeed := fun a => le_min (le_max_left _ _) hS
  refine ⟨abs_clamp_le hA _, ?_, min_le_right _ _, ?_⟩
  · simp only [limitTwist]
    refine le_trans ?_ (speedAbsUL_le_specEnvelope c maxSpeed _ _ hmcs hmcar hG
      (abs_clamp_le_abs hA _))
    rw [min_comm _ (speedAbsUL c _ maxSpeed)]
    exact abs_clamp_le (hU _) _
  · simp only [limitTwist]
    rw [min_comm _ (speedAbsUL c _ maxSpeed)]
    exact le_trans (abs_clamp_le_abs (hU _) _) (abs_clamp_le hmus _)

/-- C1 (witness): the amended bounds at the default gains, limits `1` and the twist `(3, 2)`. -/
theorem limitTwist_bounds_witness :
    |(limitTwist (configured ⟨1, 1, 1, 1, 1, false⟩) ⟨3, 2⟩ 1 1).angular_z| ≤ 1
    ∧ |(limitTwist (configured ⟨1, 1, 1, 1, 1, false⟩) ⟨3, 2⟩ 1 1).linear_x|
        ≤ specEnvelope (configured ⟨1, 1, 1, 1, 1, false⟩) 1
            (limitTwist (configured ⟨1, 1, 1, 1, 1, false⟩) ⟨3, 2⟩ 1 1).angular_z
    ∧ specEnvelope (configured ⟨1, 1, 1, 1, 1, false⟩) 1
        (limitTwist (configured ⟨1, 1, 1, 1, 1, false⟩) ⟨3, 2⟩ 1 1).angular_z ≤ 1
    ∧ |(limitTwist (configured ⟨1, 1, 1, 1, 1, false⟩) ⟨3, 2⟩ 1 1).linear_x| ≤ 1 :=
  limitTwist_bounds (configured ⟨1, 1, 1, 1, 1, false⟩) ⟨3, 2⟩ 1 1 (by norm_num) (by norm_num)
    (by norm_num [configured]) (by norm_num [configured]) (by norm_num [configured])
    (by norm_num [configured])

/-- C1 (counterexample): the chain as stated fails. With `max_controller_speed = 1` passed as
`maxSpeed` and `max_unlimited_speed = 1/2`, `maxSpeed ≤ max_unlimited_speed` is false; with
`maxAngularRate = -1` the output angular rate is `1`, of magnitude above `maxAngularRate`. -/
theorem limitTwist_chain_counterexample :
    ¬ (|(limitTwist (configured ⟨1, 1/2, 1, 1, 1, false⟩) ⟨0, 0⟩ 1 1).angular_z| ≤ 1
        ∧ |(limitTwist (configured ⟨1, 1/2, 1, 1, 1, false⟩) ⟨0, 0⟩ 1 1).linear_x|
            ≤ specEnvelope (configured ⟨1, 1/2, 1, 1, 1, false⟩) 1
                (limitTwist (configured ⟨1, 1/2, 1, 1, 1, false⟩) ⟨0, 0⟩ 1 1).angular_z
        ∧ specEnvelope (configured ⟨1, 1/2, 1, 1, 1, false⟩) 1
            (limitTwist (configured ⟨1, 1/2, 1, 1, 1, false⟩) ⟨0, 0⟩ 1 1).angular_z ≤ 1
        ∧ (1 : ℚ) ≤ (configured ⟨1, 1/2, 1, 1, 1, false⟩).mp_.max_unlimited_speed_)
    ∧ (limitTwist (configured ⟨1, 1, 1, 1, 1, false⟩) ⟨0, 0⟩ 1 (-1)).angular_z = 1
    ∧ ¬ |(limitTwist (configured ⟨1, 1, 1, 1, 1, false⟩) ⟨0, 0⟩ 1 (-1)).angular_z| ≤ -1 := by
  refine ⟨?_, ?_, ?_⟩
  · rintro ⟨-, -, -, h⟩
    norm_num [configured] at h
  · norm_num [limitTwist, configured]
  · norm_num [limitTwist, configured]

/-- C4 (code at the failing input): with the gains of `configure`,
`mp_->commanded_speed = 1` and the call `executePDControlledMotionCommand(0, 10, 1, 0)`,
the PD speed is `5`, above `|cmded_speed| = 0`; the pre-saturation speed reported in
`pdout.speed` is `1 = |mp_->commanded_speed|`, not `0 = |cmded_speed|`, and the published
linear speed is `1`. -/
theorem executePD_rescales_to_member_speed :
    (executePDControlledMotionCommand M_PI_double (configured ⟨1, 1, 1, 1, 1, false⟩)
        none 0 10 1 0).pdout.speed = 1
    ∧ ¬ |(executePDControlledMotionCommand M_PI_double (configured ⟨1, 1, 1, 1, 1, false⟩)
        none 0 10 1 0).pdout.speed| ≤ |(0 : ℚ)|
    ∧ (executePDControlledMotionCommand M_PI_double (configured ⟨1, 1, 1, 1, 1, false⟩)
        none 0 10 1 0).cmd_vel_raw.linear_x = 1
    ∧ (executeMotionCommand M_PI_double (configured ⟨1, 1, 1, 1, 1, false⟩)
        none 0 0 1 0 10 1).cmd_vel_raw.linear_x = 1 := by
  have h : (executePDControlledMotionCommand M_PI_double (configured ⟨1, 1, 1, 1, 1, false⟩)
      none 0 10 1 0).pdout.speed = 1 := by
    norm_num [executePDControlledMotionCommand, configured]
  refine ⟨h, ?_, ?_, ?_⟩
  · rw [h]
    norm_num
  · norm_num [executePDControlledMotionCommand, configured, limitTwist, speedAbsUL, foldAngle,
      MotionParameters.isYSymmetric]
  · norm_num [executeMotionCommand, executePDControlledMotionCommand, configured, limitTwist,
      speedAbsUL, foldAngle, MotionParameters.isYSymmetric]

/-- C5: two successive calls of `executePDControlledMotionCommand` with the same
`angleError`, `positionError` and `dt = 1`, from any prior state of the statics (also the
uninitialised one) and for either setting of the y-symmetric flag: on the second call
`de_angle_dt = 0` and `de_position_dt = 0`. -/
theorem executePD_twice_zero_derivatives (M_PI : α) (c : DifferentialDriveController α)
    (statics : Option (PDStatics α)) (angleError positionError speed1 speed2 : α) :
    (executePDControlledMotionCommand M_PI
        (executePDControlledMotionCommand M_PI c statics angleError positionError 1 speed1).controller
        (executePDControlledMotionCommand M_PI c statics angleError positionError 1 speed1).statics
        angleError positionError 1 speed2).pdout.de_angle_dt = 0
    ∧ (executePDControlledMotionCommand M_PI
        (executePDControlledMotionCommand M_PI c statics angleError positionError 1 speed1).controller
        (executePDControlledMotionCommand M_PI c statics angleError positionError 1 speed1).statics
        angleError positionError 1 speed2).pdout.de_position_dt = 0 := by
  simp [executePDControlledMotionCommand]

/-- C6: with `max_controller_speed = 1`, `max_controller_angular_rate = 1`,
`SPEED_REDUCTION_GAIN = 2` and input angular rate `0.5` not reduced by the unlimited
bound, the envelope `speedAbsUL` is `0` and the output linear speed is `0`, for every
requested linear speed, every `maxSpeed ≥ 0` and every `maxAngularRate`. -/
theorem limitTwist_example_zero_envelope (c : DifferentialDriveController α)
    (linear maxSpeed maxAngularRate : α)
    (hmcs : c.mp_.max_controller_speed_ = 1.0)
    (hmcar : c.mp_.max_controller_angular_rate_ = 1.0)
    (hG : c.SPEED_REDUCTION_GAIN_ = 2.0)
    (hmuar : 0.5 ≤ c.mp_.max_unlimited_angular_rate_)
    (hS : 0 ≤ maxSpeed) :
    max (-c.mp_.max_unlimited_angular_rate_) (min c.mp_.max_unlimited_angular_rate_ 0.5) = 0.5
    ∧ speedAbsUL c 0.5 maxSpeed = 0
    ∧ specEnvelope c maxSpeed 0.5 = 0
    ∧ (limitTwist c ⟨linear, 0.5⟩ maxSpeed maxAngularRate).linear_x = 0 := by
  have hclamp : max (-c.mp_.max_unlimited_angular_rate_)
      (min c.mp_.max_unlimited_angular_rate_ 0.5) = 0.5 := by
    rw [min_eq_right hmuar, max_eq_right]
    have : (0 : α) ≤ 0.5 := by norm_num
    linarith
  have habs : |(0.5 : α)| = 0.5 := abs_of_pos (by norm_num)
  have hU : speedAbsUL c 0.5 maxSpeed = 0 := by
    simp only [speedAbsUL, hmcs, hmcar, hG, habs]
    norm_num
    exact hS
  refine ⟨hclamp, hU, ?_, ?_⟩
  · simp only [specEnvelope, hmcs, hmcar, hG, habs]
    norm_num
    exact hS
  · simp only [limitTwist, hclamp, hU]
    simp

/-- C6 (witness): the example at `max_unlimited_*` = 1, requested speed 3 and `maxSpeed = 1`. -/
theorem limitTwist_example_zero_envelope_witness :
    max (-(configured ⟨1.0, 1, 1.0, 1, 1, false⟩).mp_.max_unlimited_angular_rate_)
      (min (configured ⟨1.0, 1, 1.0, 1, 1, false⟩).mp_.max_unlimited_angular_rate_ 0.5) = 0.5
    ∧ speedAbsUL (configured ⟨1.0, 1, 1.0, 1, 1, false⟩) 0.5 1 = 0
    ∧ specEnvelope (configured ⟨1.0, 1, 1.0, 1, 1, false⟩) 1 0.5 = 0
    ∧ (limitTwist (configured ⟨1.0, 1, 1.0, 1, 1, false⟩) ⟨3, 0.5⟩ 1 1).linear_x = 0 :=
  limitTwist_example_zero_envelope (configured ⟨1.0, 1, 1.0, 1, 1, false⟩) 3 1 1
    rfl rfl rfl (by norm_num [configured]) (by norm_num)

/-- C9: for `angleError` in `[-M_PI, M_PI]`, on a y-symmetric chassis the angle error
reported as `pdout.e_angle` lies in `[-M_PI/2, M_PI/2]` and equals the input, the input
minus `M_PI` or the input plus `M_PI`; on a chassis that is not y-symmetric it is the
input. -/
theorem executePD_folded_angle (M_PI : α) (c : DifferentialDriveController α)
    (statics : Option (PDStatics α)) (angleError positionError dt speed : α)
    (hlo : -M_PI ≤ angleError) (hhi : angleError ≤ M_PI) :
    (c.mp_.isYSymmetric = true →
      -(M_PI / 2) ≤ (executePDControlledMotionCommand M_PI c statics angleError positionError
          dt speed).pdout.e_angle
      ∧ (executePDControlledMotionCommand M_PI c statics angleError positionError
          dt speed).pdout.e_angle ≤ M_PI / 2
      ∧ ((executePDControlledMotionCommand M_PI c statics angleError positionError
            dt speed).pdout.e_angle = angleError
          ∨ (executePDControlledMotionCommand M_PI c statics angleError positionError
            dt speed).pdout.e_angle = angleError - M_PI
          ∨ (executePDControlledMotionCommand M_PI c statics angleError positionError
            dt speed).pdout.e_angle = angleError + M_PI))
    ∧ (c.mp_.isYSymmetric = false →
      (executePDControlledMotionCommand M_PI c statics angleError positionError
          dt speed).pdout.e_angle = angleError) := by
  constructor
  · intro hy
    simp only [executePDControlledMotionCommand, foldAngle, hy, if_true]
    by_cases h1 : angleError > M_PI / 2
    · have h2 : ¬ angleError - M_PI < -(M_PI / 2) := by
        rw [not_lt]
        linarith
      rw [if_pos h1, if_neg h2]
      exact ⟨by linarith, by linarith, Or.inr (Or.inl rfl)⟩
    · rw [if_neg h1]
      by_cases h3 : angleError < -(M_PI / 2)
      · rw [if_pos h3]
        exact ⟨by linarith, by linarith, Or.inr (Or.inr (add_comm _ _))⟩
      · rw [if_neg h3]
        exact ⟨by linarith, by linarith, Or.inl rfl⟩
  · intro hy
    simp [executePDControlledMotionCommand, foldAngle, hy]

/-- C9 (witness): `angleError = 3` with the `double` value of `M_PI` on a y-symmetric
chassis. -/
theorem executePD_folded_angle_witness :
    (-M_PI_double ≤ 3 ∧ (3 : ℚ) ≤ M_PI_double)
    ∧ ((configured ⟨1, 1, 1, 1, 1, true⟩).mp_.isYSymmetric = true →
      -(M_PI_double / 2) ≤ (executePDControlledMotionCommand M_PI_double
          (configured ⟨1, 1, 1, 1, 1, true⟩) none 3 0 1 1).pdout.e_angle
      ∧ (executePDControlledMotionCommand M_PI_double
          (configured ⟨1, 1, 1, 1, 1, true⟩) none 3 0 1 1).pdout.e_angle ≤ M_PI_double / 2
      ∧ ((executePDControlledMotionCommand M_PI_double
            (configured ⟨1, 1, 1, 1, 1, true⟩) none 3 0 1 1).pdout.e_angle = 3
          ∨ (executePDControlledMotionCommand M_PI_double
            (configured ⟨1, 1, 1, 1, 1, true⟩) none 3 0 1 1).pdout.e_angle = 3 - M_PI_double
          ∨ (executePDControlledMotionCommand M_PI_double
            (configured ⟨1, 1, 1, 1, 1, true⟩) none 3 0 1 1).pdout.e_angle = 3 + M_PI_double)) :=
  ⟨⟨by norm_num [M_PI_double], by norm_num [M_PI_double]⟩,
    (executePD_folded_angle M_PI_double (configured ⟨1, 1, 1, 1, 1, true⟩) none 3 0 1 1
      (by norm_num [M_PI_double]) (by norm_num [M_PI_double])).1⟩

/-! ## Theorems: path smoother -/

theorem resampleLoop_of_not_lt [FloorRing α] (distances : List α) (positions : List (Vec3 α))
    (d : α) (k : Nat) (h : ¬ d < distances.getLastD 0) :
    resampleLoop distances positions d k = [] := by
  rw [resampleLoop, dif_neg h]

theorem resampleLoop_length_of_lt [FloorRing α] (distances : List α) (positions : List (Vec3 α))
    (d : α) (k : Nat) (h : d < distances.getLastD 0) :
    (resampleLoop distances positions d k).length
      = (resampleLoop distances positions (d + SMOOTHED_PATH_DISCRETIZATION)
          (if d > distances.getD (k + 1) 0 then k + 1 else k)).length + 1 := by
  rw [resampleLoop, dif_pos h]
  simp

theorem computeSmoothedPositions_length [FloorRing α] (N : Numerics α) (distances : List α)
    (positions : List (Vec3 α)) :
    (computeSmoothedPositions N distances positions).length
      = (resampleLoop distances positions 0 0).length - 1 + 2 := by
  simp [computeSmoothedPositions]

theorem computeSmoothedPositions_head [FloorRing α] (N : Numerics α) (distances : List α)
    (positions : List (Vec3 α)) :
    (computeSmoothedPositions N distances positions).head? = some (positions.headD Vec3.zero) := by
  simp [computeSmoothedPositions]

theorem computeSmoothedPositions_getLast [FloorRing α] (N : Numerics α) (distances : List α)
    (positions : List (Vec3 α)) :
    (computeSmoothedPositions N distances positions).getLast?
      = some (positions.getLastD Vec3.zero) := by
  simp only [computeSmoothedPositions, List.getLast?_concat]

theorem computeSmoothedOrientations_length (N : Numerics α) (distances : List α)
    (original_positions smoothed_positions : List (Vec3 α)) (q0 q1 : Quat α) (reverse : Bool) :
    (computeSmoothedOrientations N distances original_positions smoothed_positions q0 q1
      reverse).length = smoothed_positions.length := by
  cases reverse <;> simp [computeSmoothedOrientations]

theorem computeSmoothedOrientations_head (N : Numerics α) (distances : List α)
    (original_positions smoothed_positions : List (Vec3 α)) (q0 q1 : Quat α) (reverse : Bool)
    (h : 2 ≤ smoothed_positions.length) :
    (computeSmoothedOrientations N distances original_positions smoothed_positions q0 q1
      reverse).head? = some q0 := by
  obtain ⟨n, hn⟩ : ∃ n, smoothed_positions.length = n + 2 := ⟨_, (Nat.sub_add_cancel h).symm⟩
  cases reverse <;>
    simp [computeSmoothedOrientations, hn, List.range_succ_eq_map, List.head?_map]

theorem computeSmoothedOrientations_getLast (N : Numerics α) (distances : List α)
    (original_positions smoothed_positions : List (Vec3 α)) (q0 q1 : Quat α) (reverse : Bool)
    (h : 2 ≤ smoothed_positions.length) :
    (computeSmoothedOrientations N distances original_positions smoothed_positions q0 q1
      reverse).getLast? = some q1 := by
  obtain ⟨n, hn⟩ : ∃ n, smoothed_positions.length = n + 2 := ⟨_, (Nat.sub_add_cancel h).symm⟩
  cases reverse <;>
    simp [computeSmoothedOrientations, hn, List.range_succ]

theorem computeSmoothedPositions_of_length_le_one [FloorRing α] (N : Numerics α)
    (distances : List α) (positions : List (Vec3 α))
    (h : (resampleLoop distances positions 0 0).length ≤ 1) :
    computeSmoothedPositions N distances positions
      = [positions.headD Vec3.zero, positions.getLastD Vec3.zero] := by
  have h0 : (resampleLoop distances positions 0 0).length - 1 = 0 := by omega
  simp [computeSmoothedPositions, h0]

theorem resampleLoop_length_short [FloorRing α] (distances : List α) (positions : List (Vec3 α))
    (hpos : 0 < distances.getLastD 0)
    (hle : distances.getLastD 0 ≤ SMOOTHED_PATH_DISCRETIZATION) :
    (resampleLoop distances positions 0 0).length = 1 := by
  rw [resampleLoop_length_of_lt distances positions 0 0 hpos, resampleLoop_of_not_lt]
  · rfl
  · rw [zero_add]
    exact not_lt.mpr hle

theorem smooth_orientations_boundary [FloorRing α] (N : Numerics α) (ps : Pathsmoother3D)
    (in_path : List (Vec3 α)) (in_start_orientation in_end_orientation : Quat α)
    (forbid_reverse_path : Bool) :
    (smooth N ps in_path in_start_orientation in_end_orientation
        forbid_reverse_path).out_smooth_orientations.head? = some in_end_orientation
    ∧ (smooth N ps in_path in_start_orientation in_end_orientation
        forbid_reverse_path).out_smooth_orientations.getLast? = some in_start_orientation := by
  have hlen : 2 ≤ (computeSmoothedPositions N (computeAccumulatedDistances N in_path)
      in_path).length := by
    rw [computeSmoothedPositions_length]
    omega
  simp only [smooth]
  exact ⟨computeSmoothedOrientations_head N _ _ _ _ _ _ hlen,
    computeSmoothedOrientations_getLast N _ _ _ _ _ _ hlen⟩

/-- C2 (code at the failing input): for the path `(0,0,0), (1,0,0)` with start orientation
the identity `(w,x,y,z) = (1,0,0,0)` and end orientation `(0,0,0,1)`, whatever the library
functions compute, the first element of `out_smooth_orientations` is the END orientation
and the last element is the START orientation: line 88 passes the two in swapped order. -/
theorem smooth_swaps_boundary_orientations (N : Numerics ℝ) (allow forbid : Bool) :
    (smooth N ⟨allow⟩ [⟨0, 0, 0⟩, ⟨1, 0, 0⟩] ⟨1, 0, 0, 0⟩ ⟨0, 0, 0, 1⟩
        forbid).out_smooth_orientations.head? = some ⟨0, 0, 0, 1⟩
    ∧ (smooth N ⟨allow⟩ [⟨0, 0, 0⟩, ⟨1, 0, 0⟩] ⟨1, 0, 0, 0⟩ ⟨0, 0, 0, 1⟩
        forbid).out_smooth_orientations.getLast? = some ⟨1, 0, 0, 0⟩
    ∧ (smooth N ⟨allow⟩ [⟨0, 0, 0⟩, ⟨1, 0, 0⟩] ⟨1, 0, 0, 0⟩ ⟨0, 0, 0, 1⟩
        forbid).out_smooth_orientations.head? ≠ some ⟨1, 0, 0, 0⟩ := by
  have h := smooth_orientations_boundary N ⟨allow⟩ [⟨0, 0, 0⟩, ⟨1, 0, 0⟩]
    ⟨1, 0, 0, 0⟩ ⟨0, 0, 0, 1⟩ forbid
  refine ⟨h.1, h.2, ?_⟩
  rw [h.1]
  simp

/-- C3: for every path with at least 2 points and positive total arc length, the first
element of `out_smooth_positions` is the first waypoint and the last element is the last
waypoint. -/
theorem smooth_positions_pinned [FloorRing α] (N : Numerics α) (ps : Pathsmoother3D)
    (in_path : List (Vec3 α)) (in_start_orientation in_end_orientation : Quat α)
    (forbid_reverse_path : Bool) (h2 : 2 ≤ in_path.length)
    (_hL : 0 < (computeAccumulatedDistances N in_path).getLastD 0) :
    (smooth N ps in_path in_start_orientation in_end_orientation
        forbid_reverse_path).out_smooth_positions.head? = in_path.head?
    ∧ (smooth N ps in_path in_start_orientation in_end_orientation
        forbid_reverse_path).out_smooth_positions.getLast? = in_path.getLast? := by
  constructor
  · show (computeSmoothedPositions N _ in_path).head? = _
    rw [computeSmoothedPositions_head]
    cases in_path with
    | nil => simp at h2
    | cons a t => simp
  · show (computeSmoothedPositions N _ in_path).getLast? = _
    rw [computeSmoothedPositions_getLast]
    cases in_path with
    | nil => simp at h2
    | cons a t => simp [List.getLastD, List.getLast?_eq_getLast]

/-- C3 (witness): the path `(0,0,0), (1,0,0)` over the reals. -/
theorem smooth_positions_pinned_witness :
    (smooth (⟨Real.sqrt, Real.exp, fun _ _ => ⟨1, 0, 0, 0⟩⟩ : Numerics ℝ) ⟨true⟩
        [⟨0, 0, 0⟩, ⟨1, 0, 0⟩] ⟨1, 0, 0, 0⟩ ⟨1, 0, 0, 0⟩ false).out_smooth_positions.head?
      = some ⟨0, 0, 0⟩
    ∧ (smooth (⟨Real.sqrt, Real.exp, fun _ _ => ⟨1, 0, 0, 0⟩⟩ : Numerics ℝ) ⟨true⟩
        [⟨0, 0, 0⟩, ⟨1, 0, 0⟩] ⟨1, 0, 0, 0⟩ ⟨1, 0, 0, 0⟩ false).out_smooth_positions.getLast?
      = some ⟨1, 0, 0⟩ :=
  smooth_positions_pinned (⟨Real.sqrt, Real.exp, fun _ _ => ⟨1, 0, 0, 0⟩⟩ : Numerics ℝ) ⟨true⟩
    [⟨0, 0, 0⟩, ⟨1, 0, 0⟩] ⟨1, 0, 0, 0⟩ ⟨1, 0, 0, 0⟩ false (by simp)
    (by simp [computeAccumulatedDistances, accumulateDistances, Vec3.norm, Vec3.sub,
      Vec3.squaredNorm, Vec3.dot])

/-- C10: for a path of exactly 2 points whose total distance `d` satisfies
`0 < d < SMOOTHED_PATH_DISCRETIZATION`, `computeSmoothedPositions` returns exactly the two
waypoints and `smooth` returns exactly two positions and two orientations. -/
theorem short_two_point_path [FloorRing α] (N : Numerics α) (ps : Pathsmoother3D)
    (p0 p1 : Vec3 α) (in_start_orientation in_end_orientation : Quat α)
    (forbid_reverse_path : Bool)
    (hpos : 0 < (computeAccumulatedDistances N [p0, p1]).getLastD 0)
    (hlt : (computeAccumulatedDistances N [p0, p1]).getLastD 0 < SMOOTHED_PATH_DISCRETIZATION) :
    computeSmoothedPositions N (computeAccumulatedDistances N [p0, p1]) [p0, p1] = [p0, p1]
    ∧ (smooth N ps [p0, p1] in_start_orientation in_end_orientation
        forbid_reverse_path).out_smooth_positions = [p0, p1]
    ∧ (smooth N ps [p0, p1] in_start_orientation in_end_orientation
        forbid_reverse_path).out_smooth_orientations.length = 2 := by
  have h : computeSmoothedPositions N (computeAccumulatedDistances N [p0, p1]) [p0, p1]
      = [p0, p1] := by
    rw [computeSmoothedPositions_of_length_le_one N _ _
      (le_of_eq (resampleLoop_length_short _ _ hpos hlt.le))]
    rfl
  refine ⟨h, h, ?_⟩
  simp only [smooth]
  rw [computeSmoothedOrientations_length, h]
  rfl

/-- C10 (witness): the path `(0,0,0), (1/100,0,0)` over the reals, of length `1/100`. -/
theorem short_two_point_path_witness :
    computeSmoothedPositions (⟨Real.sqrt, Real.exp, fun _ _ => ⟨1, 0, 0, 0⟩⟩ : Numerics ℝ)
        (computeAccumulatedDistances (⟨Real.sqrt, Real.exp, fun _ _ => ⟨1, 0, 0, 0⟩⟩ : Numerics ℝ)
          [⟨0, 0, 0⟩, ⟨1 / 100, 0, 0⟩]) [⟨0, 0, 0⟩, ⟨1 / 100, 0, 0⟩]
      = [⟨0, 0, 0⟩, ⟨1 / 100, 0, 0⟩]
    ∧ (smooth (⟨Real.sqrt, Real.exp, fun _ _ => ⟨1, 0, 0, 0⟩⟩ : Numerics ℝ) ⟨true⟩
        [⟨0, 0, 0⟩, ⟨1 / 100, 0, 0⟩] ⟨1, 0, 0, 0⟩ ⟨1, 0, 0, 0⟩ false).out_smooth_positions
      = [⟨0, 0, 0⟩, ⟨1 / 100, 0, 0⟩]
    ∧ (smooth (⟨Real.sqrt, Real.exp, fun _ _ => ⟨1, 0, 0, 0⟩⟩ : Numerics ℝ) ⟨true⟩
        [⟨0, 0, 0⟩, ⟨1 / 100, 0, 0⟩] ⟨1, 0, 0, 0⟩ ⟨1, 0, 0, 0⟩
        false).out_smooth_orientations.length = 2 :=
  short_two_point_path (⟨Real.sqrt, Real.exp, fun _ _ => ⟨1, 0, 0, 0⟩⟩ : Numerics ℝ) ⟨true⟩
    ⟨0, 0, 0⟩ ⟨1 / 100, 0, 0⟩ ⟨1, 0, 0, 0⟩ ⟨1, 0, 0, 0⟩ false
    (by simp [computeAccumulatedDistances, accumulateDistances, Vec3.norm, Vec3.sub,
      Vec3.squaredNorm, Vec3.dot])
    (by
      have h : Real.sqrt (100⁻¹ * 100⁻¹) = 100⁻¹ := Real.sqrt_mul_self (by norm_num)
      simp [computeAccumulatedDistances, accumulateDistances, Vec3.norm, Vec3.sub,
        Vec3.squaredNorm, Vec3.dot, SMOOTHED_PATH_DISCRETIZATION, h]
      norm_num)

theorem dot_sdiv_pos_iff (a b : Vec3 α) {s : α} (hs : 0 < s) :
    0 < Vec3.dot a (Vec3.sdiv b s) ↔ 0 < Vec3.dot a b := by
  have h : Vec3.dot a (Vec3.sdiv b s) = Vec3.dot a b / s := by
    simp only [Vec3.dot, Vec3.sdiv]
    field_simp
  rw [h]
  exact ⟨fun hp => by
    have := mul_pos hp hs
    rwa [div_mul_cancel₀ _ hs.ne'] at this, fun hp => div_pos hp hs⟩

theorem dot_normalized_pos_iff (N : Numerics α) (hsqrt : ∀ x : α, 0 < x → 0 < N.sqrt x)
    (a b : Vec3 α) : 0 < Vec3.dot a (Vec3.normalized N b) ↔ 0 < Vec3.dot a b := by
  unfold Vec3.normalized
  by_cases h : Vec3.squaredNorm b > 0
  · rw [if_pos h]
    exact dot_sdiv_pos_iff a b (hsqrt _ h)
  · rw [if_neg h]

theorem computeSmoothedOrientations_forward_interior (N : Numerics α) (distances : List α)
    (original_positions smoothed_positions : List (Vec3 α)) (q0 q1 : Quat α) (i : Nat)
    (h0 : 0 < i) (h1 : i + 1 < smoothed_positions.length) :
    (computeSmoothedOrientations N distances original_positions smoothed_positions q0 q1
        false)[i]?
      = some (N.setFromTwoVectors local_robot_direction
          (Vec3.sub (smoothed_positions.getD (i + 1) Vec3.zero)
            (smoothed_positions.getD i Vec3.zero))) := by
  have h2 : i < smoothed_positions.length := by omega
  have h3 : i < smoothed_positions.length - 1 := by omega
  simp [computeSmoothedOrientations, List.getElem?_map, List.getElem?_range h2, h0, h3]

/-- C8: if the smoother was constructed with `allow_reverse_paths = false`, or `smooth` is
called with `forbid_reverse_path = true`, then `reverse` is false and every interior
orientation (index `i` with `0 < i < size - 1`) is
`setFromTwoVectors(local_robot_direction, position[i+1] - position[i])`, for every path and
every pair of boundary orientations. -/
theorem reverse_disabled_forward_mode [FloorRing α] (N : Numerics α) (ps : Pathsmoother3D)
    (in_path : List (Vec3 α)) (in_start_orientation in_end_orientation : Quat α)
    (forbid_reverse_path : Bool)
    (h : ps.allow_reverse_paths = false ∨ forbid_reverse_path = true) :
    (smooth N ps in_path in_start_orientation in_end_orientation
        forbid_reverse_path).reverse = false
    ∧ ∀ i : Nat, 0 < i →
        i + 1 < (smooth N ps in_path in_start_orientation in_end_orientation
          forbid_reverse_path).out_smooth_positions.length →
        (smooth N ps in_path in_start_orientation in_end_orientation
          forbid_reverse_path).out_smooth_orientations[i]?
          = some (N.setFromTwoVectors local_robot_direction
              (Vec3.sub
                ((smooth N ps in_path in_start_orientation in_end_orientation
                  forbid_reverse_path).out_smooth_positions.getD (i + 1) Vec3.zero)
                ((smooth N ps in_path in_start_orientation in_end_orientation
                  forbid_reverse_path).out_smooth_positions.getD i Vec3.zero))) := by
  have hrev : reverseDecision N ps in_path (computeAccumulatedDistances N in_path)
      (computeSmoothedPositions N (computeAccumulatedDistances N in_path) in_path)
      in_start_orientation in_end_orientation forbid_reverse_path = false := by
    rcases h with h | h <;> simp [reverseDecision, h]
  refine ⟨hrev, ?_⟩
  intro i h0 h1
  simp only [smooth] at h1 ⊢
  rw [hrev]
  exact computeSmoothedOrientations_forward_interior N _ _ _ _ _ i h0 h1

/-- C8 (witness): reverse traversal forbidden by the caller, on the path
`(0,0,0), (1,0,0)` over the reals. -/
theorem reverse_disabled_forward_mode_witness :
    (smooth (⟨Real.sqrt, Real.exp, fun _ _ => ⟨1, 0, 0, 0⟩⟩ : Numerics ℝ) ⟨true⟩
        [⟨0, 0, 0⟩, ⟨1, 0, 0⟩] ⟨1, 0, 0, 0⟩ ⟨1, 0, 0, 0⟩ true).reverse = false :=
  (reverse_disabled_forward_mode (⟨Real.sqrt, Real.exp, fun _ _ => ⟨1, 0, 0, 0⟩⟩ : Numerics ℝ)
    ⟨true⟩ [⟨0, 0, 0⟩, ⟨1, 0, 0⟩] ⟨1, 0, 0, 0⟩ ⟨1, 0, 0, 0⟩ true (Or.inr rfl)).1

/-- C7 (amended): when reverse traversal is permitted by configuration and not forbidden
for the call, `reverse` is true if and only if the path has at least 2 waypoints, the
smoothed sequence has at least as many points as the path, the total arc length is
`< 1.5`, and both dot products are positive: (unit vector from smoothed[1] to
smoothed[0]) · (start_orientation * (1,0,0)) and (unit vector from smoothed[last] to
smoothed[last-1]) · (end_orientation * (1,0,0)). The square root is assumed positive on
positive arguments. -/
theorem reverse_iff_guard_and_geometry [FloorRing α] (N : Numerics α)
    (hsqrt : ∀ x : α, 0 < x → 0 < N.sqrt x) (ps : Pathsmoother3D)
    (in_path : List (Vec3 α)) (in_start_orientation in_end_orientation : Quat α)
    (hallow : ps.allow_reverse_paths = true) :
    (smooth N ps in_path in_start_orientation in_end_orientation false).reverse = true ↔
      (2 ≤ in_path.length
      ∧ in_path.length ≤ (smooth N ps in_path in_start_orientation in_end_orientation
          false).out_smooth_positions.length
      ∧ (computeAccumulatedDistances N in_path).getLastD 0 < 1.5
      ∧ 0 < Vec3.dot
          (Vec3.normalized N (Vec3.sub
            ((smooth N ps in_path in_start_orientation in_end_orientation
              false).out_smooth_positions.getD 0 Vec3.zero)
            ((smooth N ps in_path in_start_orientation in_end_orientation
              false).out_smooth_positions.getD 1 Vec3.zero)))
          (in_start_orientation.rotate ⟨1, 0, 0⟩)
      ∧ 0 < Vec3.dot
          (Vec3.normalized N (Vec3.sub
            ((smooth N ps in_path in_start_orientation in_end_orientation
              false).out_smooth_positions.getD
              ((smooth N ps in_path in_start_orientation in_end_orientation
                false).out_smooth_positions.length - 2) Vec3.zero)
            ((smooth N ps in_path in_start_orientation in_end_orientation
              false).out_smooth_positions.getLastD Vec3.zero)))
          (in_end_orientation.rotate ⟨1, 0, 0⟩)) := by
  simp only [smooth, reverseDecision, hallow, Bool.not_false, Bool.and_self, if_true, ge_iff_le,
    gt_iff_lt]
  split_ifs with hg
  · simp only [Bool.and_eq_true, decide_eq_true_eq, dot_normalized_pos_iff N hsqrt]
    tauto
  · simp only [Bool.false_eq_true, false_iff]
    tauto

theorem smooth_positions_of_short [FloorRing α] (N : Numerics α) (ps : Pathsmoother3D)
    (in_path : List (Vec3 α)) (in_start_orientation in_end_orientation : Quat α)
    (forbid_reverse_path : Bool)
    (hpos : 0 < (computeAccumulatedDistances N in_path).getLastD 0)
    (hle : (computeAccumulatedDistances N in_path).getLastD 0 ≤ SMOOTHED_PATH_DISCRETIZATION) :
    (smooth N ps in_path in_start_orientation in_end_orientation
        forbid_reverse_path).out_smooth_positions
      = [in_path.headD Vec3.zero, in_path.getLastD Vec3.zero] := by
  simp only [smooth]
  exact computeSmoothedPositions_of_length_le_one N _ _
    (le_of_eq (resampleLoop_length_short _ _ hpos hle))

theorem norm_along_x (e : ℝ → ℝ) (f : Vec3 ℝ → Vec3 ℝ → Quat ℝ) (a b : ℝ) :
    Vec3.norm ⟨Real.sqrt, e, f⟩ (Vec3.sub ⟨a, 0, 0⟩ ⟨b, 0, 0⟩) = |a - b| := by
  simp [Vec3.norm, Vec3.sub, Vec3.squaredNorm, Vec3.dot, Real.sqrt_mul_self_eq_abs]

theorem dot_normalized_along_x (e : ℝ → ℝ) (f : Vec3 ℝ → Vec3 ℝ → Quat ℝ) (a b : ℝ)
    (h : b < a) :
    0 < Vec3.dot (Vec3.normalized ⟨Real.sqrt, e, f⟩ (Vec3.sub ⟨a, 0, 0⟩ ⟨b, 0, 0⟩))
      (Quat.rotate ⟨1, 0, 0, 0⟩ ⟨1, 0, 0⟩) := by
  have hsq : 0 < (a - b) * (a - b) := mul_pos (sub_pos.mpr h) (sub_pos.mpr h)
  have hr : Real.sqrt ((a - b) * (a - b)) = a - b := Real.sqrt_mul_self (sub_pos.mpr h).le
  have hd : (a - b) / (a - b) = 1 := div_self (sub_pos.mpr h).ne'
  simp [Vec3.normalized, Vec3.sub, Vec3.squaredNorm, Vec3.dot, Vec3.sdiv, Quat.rotate,
    Vec3.cross, Vec3.add, Vec3.smul, hsq, hr, hd]

/-- C7 (witness): on the two-point path `(0,0,0), (-1/100,0,0)` over the reals, with both
boundary orientations the identity, reverse traversal is decided. -/
theorem reverse_iff_guard_and_geometry_witness :
    (smooth (⟨Real.sqrt, Real.exp, fun _ _ => ⟨1, 0, 0, 0⟩⟩ : Numerics ℝ) ⟨true⟩
        [⟨0, 0, 0⟩, ⟨-1 / 100, 0, 0⟩] ⟨1, 0, 0, 0⟩ ⟨1, 0, 0, 0⟩ false).reverse = true := by
  have hdist : (computeAccumulatedDistances (⟨Real.sqrt, Real.exp, fun _ _ => ⟨1, 0, 0, 0⟩⟩ : Numerics ℝ)
      [⟨0, 0, 0⟩, ⟨-1 / 100, 0, 0⟩]).getLastD 0 = 1 / 100 := by
    simp only [computeAccumulatedDistances, accumulateDistances, norm_along_x, List.getLastD]
    rw [abs_of_neg (by norm_num)]
    norm_num
  have hS : (smooth (⟨Real.sqrt, Real.exp, fun _ _ => ⟨1, 0, 0, 0⟩⟩ : Numerics ℝ) ⟨true⟩
        [⟨0, 0, 0⟩, ⟨-1 / 100, 0, 0⟩] ⟨1, 0, 0, 0⟩ ⟨1, 0, 0, 0⟩ false).out_smooth_positions = [⟨0, 0, 0⟩, ⟨-1 / 100, 0, 0⟩] :=
    smooth_positions_of_short _ _ _ _ _ _ (by rw [hdist]; norm_num)
      (by rw [hdist]; norm_num [SMOOTHED_PATH_DISCRETIZATION])
  refine (reverse_iff_guard_and_geometry (⟨Real.sqrt, Real.exp, fun _ _ => ⟨1, 0, 0, 0⟩⟩ : Numerics ℝ)
    (fun x hx => Real.sqrt_pos.mpr hx) ⟨true⟩ [⟨0, 0, 0⟩, ⟨-1 / 100, 0, 0⟩]
    ⟨1, 0, 0, 0⟩ ⟨1, 0, 0, 0⟩ rfl).mpr ?_
  rw [hS, hdist]
  exact ⟨by simp, by simp, by norm_num,
    dot_normalized_along_x _ _ _ _ (by norm_num), dot_normalized_along_x _ _ _ _ (by norm_num)⟩

/-- C7 (counterexample): on the three-point path `(0,0,0), (-1/100,0,0), (-2/100,0,0)` over
the reals, with both boundary orientations the identity, reverse traversal permitted and
not forbidden: the smoothed sequence has 2 points, the total arc length is `< 1.5` and
both dot products are positive, yet `reverse` is false. -/
theorem reverse_guard_counterexample :
    2 ≤ (smooth (⟨Real.sqrt, Real.exp, fun _ _ => ⟨1, 0, 0, 0⟩⟩ : Numerics ℝ) ⟨true⟩
        [⟨0, 0, 0⟩, ⟨-1 / 100, 0, 0⟩, ⟨-2 / 100, 0, 0⟩] ⟨1, 0, 0, 0⟩ ⟨1, 0, 0, 0⟩ false).out_smooth_positions.length
    ∧ (smooth (⟨Real.sqrt, Real.exp, fun _ _ => ⟨1, 0, 0, 0⟩⟩ : Numerics ℝ) ⟨true⟩
        [⟨0, 0, 0⟩, ⟨-1 / 100, 0, 0⟩, ⟨-2 / 100, 0, 0⟩] ⟨1, 0, 0, 0⟩ ⟨1, 0, 0, 0⟩ false).reverse = false
    ∧ (computeAccumulatedDistances (⟨Real.sqrt, Real.exp, fun _ _ => ⟨1, 0, 0, 0⟩⟩ : Numerics ℝ)
        [⟨0, 0, 0⟩, ⟨-1 / 100, 0, 0⟩, ⟨-2 / 100, 0, 0⟩]).getLastD 0 < 1.5
    ∧ 0 < Vec3.dot
        (Vec3.normalized (⟨Real.sqrt, Real.exp, fun _ _ => ⟨1, 0, 0, 0⟩⟩ : Numerics ℝ)
          (Vec3.sub ((smooth (⟨Real.sqrt, Real.exp, fun _ _ => ⟨1, 0, 0, 0⟩⟩ : Numerics ℝ) ⟨true⟩
        [⟨0, 0, 0⟩, ⟨-1 / 100, 0, 0⟩, ⟨-2 / 100, 0, 0⟩] ⟨1, 0, 0, 0⟩ ⟨1, 0, 0, 0⟩ false).out_smooth_positions.getD 0 Vec3.zero)
            ((smooth (⟨Real.sqrt, Real.exp, fun _ _ => ⟨1, 0, 0, 0⟩⟩ : Numerics ℝ) ⟨true⟩
        [⟨0, 0, 0⟩, ⟨-1 / 100, 0, 0⟩, ⟨-2 / 100, 0, 0⟩] ⟨1, 0, 0, 0⟩ ⟨1, 0, 0, 0⟩ false).out_smooth_positions.getD 1 Vec3.zero)))
        (Quat.rotate ⟨1, 0, 0, 0⟩ ⟨1, 0, 0⟩)
    ∧ 0 < Vec3.dot
        (Vec3.normalized (⟨Real.sqrt, Real.exp, fun _ _ => ⟨1, 0, 0, 0⟩⟩ : Numerics ℝ)
          (Vec3.sub ((smooth (⟨Real.sqrt, Real.exp, fun _ _ => ⟨1, 0, 0, 0⟩⟩ : Numerics ℝ) ⟨true⟩
        [⟨0, 0, 0⟩, ⟨-1 / 100, 0, 0⟩, ⟨-2 / 100, 0, 0⟩] ⟨1, 0, 0, 0⟩ ⟨1, 0, 0, 0⟩ false).out_smooth_positions.getD
            ((smooth (⟨Real.sqrt, Real.exp, fun _ _ => ⟨1, 0, 0, 0⟩⟩ : Numerics ℝ) ⟨true⟩
        [⟨0, 0, 0⟩, ⟨-1 / 100, 0, 0⟩, ⟨-2 / 100, 0, 0⟩] ⟨1, 0, 0, 0⟩ ⟨1, 0, 0, 0⟩ false).out_smooth_positions.length - 2) Vec3.zero)
            ((smooth (⟨Real.sqrt, Real.exp, fun _ _ => ⟨1, 0, 0, 0⟩⟩ : Numerics ℝ) ⟨true⟩
        [⟨0, 0, 0⟩, ⟨-1 / 100, 0, 0⟩, ⟨-2 / 100, 0, 0⟩] ⟨1, 0, 0, 0⟩ ⟨1, 0, 0, 0⟩ false).out_smooth_positions.getLastD Vec3.zero)))
        (Quat.rotate ⟨1, 0, 0, 0⟩ ⟨1, 0, 0⟩) := by
  have hdist : (computeAccumulatedDistances (⟨Real.sqrt, Real.exp, fun _ _ => ⟨1, 0, 0, 0⟩⟩ : Numerics ℝ)
      [⟨0, 0, 0⟩, ⟨-1 / 100, 0, 0⟩, ⟨-2 / 100, 0, 0⟩]).getLastD 0 = 2 / 100 := by
    simp only [computeAccumulatedDistances, accumulateDistances, norm_along_x, List.getLastD]
    rw [abs_of_neg (by norm_num), abs_of_neg (by norm_num)]
    norm_num
  have hS : (smooth (⟨Real.sqrt, Real.exp, fun _ _ => ⟨1, 0, 0, 0⟩⟩ : Numerics ℝ) ⟨true⟩
        [⟨0, 0, 0⟩, ⟨-1 / 100, 0, 0⟩, ⟨-2 / 100, 0, 0⟩] ⟨1, 0, 0, 0⟩ ⟨1, 0, 0, 0⟩ false).out_smooth_positions = [⟨0, 0, 0⟩, ⟨-2 / 100, 0, 0⟩] :=
    smooth_positions_of_short _ _ _ _ _ _ (by rw [hdist]; norm_num)
      (by rw [hdist]; norm_num [SMOOTHED_PATH_DISCRETIZATION])
  have hrev : (smooth (⟨Real.sqrt, Real.exp, fun _ _ => ⟨1, 0, 0, 0⟩⟩ : Numerics ℝ) ⟨true⟩
        [⟨0, 0, 0⟩, ⟨-1 / 100, 0, 0⟩, ⟨-2 / 100, 0, 0⟩] ⟨1, 0, 0, 0⟩ ⟨1, 0, 0, 0⟩ false).reverse = false := by
    have h := hS
    simp only [smooth] at h ⊢
    simp [reverseDecision, h]
  rw [hS, hdist]
  exact ⟨by simp, hrev, by norm_num,
    dot_normalized_along_x _ _ _ _ (by norm_num), dot_normalized_along_x _ _ _ _ (by norm_num)⟩

/-! ## Theorems: drive controller, continued -/

theorem clamp_eq_self {b x : α} (h : |x| ≤ b) : max (-b) (min b x) = x := by
  rw [abs_le] at h
  rw [min_eq_right h.2, max_eq_right h.1]

theorem clamp_of_lt_neg {b x : α} (hb : 0 ≤ b) (h : x < -b) : max (-b) (min b x) = -b := by
  rw [min_eq_right (by linarith), max_eq_left h.le]

theorem clamp_of_gt {b x : α} (hb : 0 ≤ b) (h : b < x) : max (-b) (min b x) = b := by
  rw [min_eq_left h.le, max_eq_right (by linarith)]

theorem speedAbsUL_eq_specEnvelope (c : DifferentialDriveController α) (maxSpeed a : α) :
    speedAbsUL c a maxSpeed = specEnvelope c maxSpeed a := by
  have h : -c.mp_.max_controller_speed_ / c.mp_.max_controller_angular_rate_ * |a|
        * c.SPEED_REDUCTION_GAIN_ + c.mp_.max_controller_speed_
      = c.mp_.max_controller_speed_
        - c.mp_.max_controller_speed_ / c.mp_.max_controller_angular_rate_ * |a|
          * c.SPEED_REDUCTION_GAIN_ := by
    rw [neg_div]
    ring
  simp only [speedAbsUL, specEnvelope, h]

/-- C15: with non-negative unlimited bounds, `executeUnlimitedTwist` emits the input angular
rate clamped to `[-max_unlimited_angular_rate, max_unlimited_angular_rate]` and the input
linear speed clamped to `[-max_unlimited_speed, max_unlimited_speed]`: a value inside the
bounds is emitted unchanged, a value outside is replaced by the nearer bound, and the
linear output is a function of the linear input and its bound alone (no envelope). -/
theorem executeUnlimitedTwist_clamps (c : DifferentialDriveController α) (inc_twist : Twist α)
    (hA : 0 ≤ c.mp_.max_unlimited_angular_rate_) (hS : 0 ≤ c.mp_.max_unlimited_speed_) :
    (executeUnlimitedTwist c inc_twist).angular_z
        = (if inc_twist.angular_z < -c.mp_.max_unlimited_angular_rate_
            then -c.mp_.max_unlimited_angular_rate_
           else if c.mp_.max_unlimited_angular_rate_ < inc_twist.angular_z
            then c.mp_.max_unlimited_angular_rate_
           else inc_twist.angular_z)
    ∧ (executeUnlimitedTwist c inc_twist).linear_x
        = (if inc_twist.linear_x < -c.mp_.max_unlimited_speed_
            then -c.mp_.max_unlimited_speed_
           else if c.mp_.max_unlimited_speed_ < inc_twist.linear_x
            then c.mp_.max_unlimited_speed_
           else inc_twist.linear_x)
    ∧ |(executeUnlimitedTwist c inc_twist).angular_z| ≤ c.mp_.max_unlimited_angular_rate_
    ∧ |(executeUnlimitedTwist c inc_twist).linear_x| ≤ c.mp_.max_unlimited_speed_ := by
  have key : ∀ b x : α, 0 ≤ b →
      max (-b) (min b x) = (if x < -b then -b else if b < x then b else x) := by
    intro b x hb
    by_cases h1 : x < -b
    · rw [if_pos h1, clamp_of_lt_neg hb h1]
    · rw [if_neg h1]
      by_cases h2 : b < x
      · rw [if_pos h2, clamp_of_gt hb h2]
      · rw [if_neg h2]
        exact clamp_eq_self (abs_le.mpr ⟨not_lt.mp h1, not_lt.mp h2⟩)
  exact ⟨key _ _ hA, key _ _ hS, abs_clamp_le hA _, abs_clamp_le hS _⟩

/-- C15 (witness): bounds `1` and `2`, input twist with linear speed `5` and angular
rate `-1/2`. -/
theorem executeUnlimitedTwist_clamps_witness :
    (executeUnlimitedTwist (configured ⟨1, 2, 1, 1, 1, false⟩) ⟨5, -1 / 2⟩).angular_z = -1 / 2
    ∧ (executeUnlimitedTwist (configured ⟨1, 2, 1, 1, 1, false⟩) ⟨5, -1 / 2⟩).linear_x = 2 := by
  have h := executeUnlimitedTwist_clamps (configured ⟨1, 2, 1, 1, 1, false⟩) ⟨5, -1 / 2⟩
    (by norm_num [configured]) (by norm_num [configured])
  constructor
  · rw [h.1]
    norm_num [configured]
  · rw [h.2.1]
    norm_num [configured]

/-- C18: the angular rate output by `limitTwist` is the input angular rate clamped to
`± max_unlimited_angular_rate` and then to `± maxAngularRate`; two calls on the same
controller with the same input angular rate and `maxAngularRate` give the same output
angular rate, whatever the input linear speeds and the values of `maxSpeed`. -/
theorem limitTwist_angular_independent (c : DifferentialDriveController α)
    (angular linear1 linear2 maxSpeed1 maxSpeed2 maxAngularRate : α) :
    (limitTwist c ⟨linear1, angular⟩ maxSpeed1 maxAngularRate).angular_z
        = max (-maxAngularRate) (min maxAngularRate
            (max (-c.mp_.max_unlimited_angular_rate_)
              (min c.mp_.max_unlimited_angular_rate_ angular)))
    ∧ (limitTwist c ⟨linear1, angular⟩ maxSpeed1 maxAngularRate).angular_z
        = (limitTwist c ⟨linear2, angular⟩ maxSpeed2 maxAngularRate).angular_z :=
  ⟨rfl, rfl⟩

/-- C19: when the four motion-parameter bounds, `SPEED_REDUCTION_GAIN`, `maxSpeed` and
`maxAngularRate` are non-negative and `max_controller_angular_rate > 0`, applying
`limitTwist` with the same `maxSpeed` and `maxAngularRate` to its own output returns that
output unchanged. -/
theorem limitTwist_idempotent (c : DifferentialDriveController α) (twist : Twist α)
    (maxSpeed maxAngularRate : α) (hS : 0 ≤ maxSpeed) (hA : 0 ≤ maxAngularRate)
    (hmcs : 0 ≤ c.mp_.max_controller_speed_) (hmcar : 0 < c.mp_.max_controller_angular_rate_)
    (hG : 0 ≤ c.SPEED_REDUCTION_GAIN_) (hmus : 0 ≤ c.mp_.max_unlimited_speed_)
    (hmuar : 0 ≤ c.mp_.max_unlimited_angular_rate_) :
    limitTwist c (limitTwist c twist maxSpeed maxAngularRate) maxSpeed maxAngularRate
      = limitTwist c twist maxSpeed maxAngularRate := by
  have hU : ∀ a : α, 0 ≤ speedAbsUL c a maxSpeed := fun a => le_min (le_max_left _ _) hS
  -- the angular rate after the clamp to the unlimited bound, and the output angular rate
  set a1 := max (-c.mp_.max_unlimited_angular_rate_)
    (min c.mp_.max_unlimited_angular_rate_ twist.angular_z) with ha1
  set a2 := max (-maxAngularRate) (min maxAngularRate a1) with ha2
  have h21 : |a2| ≤ |a1| := abs_clamp_le_abs hA a1
  have h1 : |a1| ≤ c.mp_.max_unlimited_angular_rate_ := abs_clamp_le hmuar _
  have ha2' : max (-c.mp_.max_unlimited_angular_rate_)
      (min c.mp_.max_unlimited_angular_rate_ a2) = a2 := clamp_eq_self (le_trans h21 h1)
  have hidem : max (-maxAngularRate) (min maxAngularRate a2) = a2 :=
    clamp_eq_self (abs_clamp_le hA a1)
  -- the linear speed after the clamp to the unlimited bound, and the output linear speed
  set l1 := max (-c.mp_.max_unlimited_speed_)
    (min c.mp_.max_unlimited_speed_ twist.linear_x) with hl1
  set l2 := max (-speedAbsUL c a1 maxSpeed) (min l1 (speedAbsUL c a1 maxSpeed)) with hl2
  have hl2a : |l2| ≤ speedAbsUL c a1 maxSpeed := by
    rw [hl2, min_comm]
    exact abs_clamp_le (hU _) _
  have hl2b : |l2| ≤ c.mp_.max_unlimited_speed_ := by
    rw [hl2, min_comm]
    exact le_trans (abs_clamp_le_abs (hU _) _) (abs_clamp_le hmus _)
  have hmono : speedAbsUL c a1 maxSpeed ≤ speedAbsUL c a2 maxSpeed := by
    rw [speedAbsUL_eq_specEnvelope c maxSpeed a2]
    exact speedAbsUL_le_specEnvelope c maxSpeed a1 a2 hmcs hmcar hG h21
  have hl2' : max (-c.mp_.max_unlimited_speed_) (min c.mp_.max_unlimited_speed_ l2) = l2 :=
    clamp_eq_self hl2b
  have hlin : max (-speedAbsUL c a2 maxSpeed) (min l2 (speedAbsUL c a2 maxSpeed)) = l2 := by
    rw [min_comm]
    exact clamp_eq_self (le_trans hl2a hmono)
  show limitTwist c ⟨l2, a2⟩ maxSpeed maxAngularRate = ⟨l2, a2⟩
  simp only [limitTwist, ha2', hl2', hlin, hidem]

/-- C19 (witness): the gains of `configure`, all bounds `1`, input twist `(3, 2)`. -/
theorem limitTwist_idempotent_witness :
    limitTwist (configured ⟨1, 1, 1, 1, 1, false⟩)
        (limitTwist (configured ⟨1, 1, 1, 1, 1, false⟩) ⟨3, 2⟩ 1 1) 1 1
      = limitTwist (configured ⟨1, 1, 1, 1, 1, false⟩) ⟨3, 2⟩ 1 1 :=
  limitTwist_idempotent (configured ⟨1, 1, 1, 1, 1, false⟩) ⟨3, 2⟩ 1 1 (by norm_num)
    (by norm_num) (by norm_num [configured]) (by norm_num [configured])
    (by norm_num [configured]) (by norm_num [configured]) (by norm_num [configured])

/-- C20 (amended): on the first call of `executePDControlledMotionCommand` (statics not yet
initialised), for `M_PI > 0` and `dt ≠ 0`: `de_position_dt = 0`; `de_angle_dt` is
`(fold(angleError) - angleError) / dt`; it is `0` exactly when no folding is applied (chassis
not y-symmetric, or `|angleError| ≤ M_PI/2`), it is `-M_PI/dt` when the chassis is
y-symmetric and `angleError > M_PI/2`, and `+M_PI/dt` when the chassis is y-symmetric and
`angleError < -M_PI/2`. -/
theorem executePD_first_call_derivatives (M_PI : α) (c : DifferentialDriveController α)
    (angleError positionError dt speed : α) (hpi : 0 < M_PI) (hdt : dt ≠ 0) :
    (executePDControlledMotionCommand M_PI c none angleError positionError dt
        speed).pdout.de_position_dt = 0
    ∧ (executePDControlledMotionCommand M_PI c none angleError positionError dt
        speed).pdout.de_angle_dt
        = (foldAngle M_PI c.mp_.isYSymmetric angleError - angleError) / dt
    ∧ ((executePDControlledMotionCommand M_PI c none angleError positionError dt
        speed).pdout.de_angle_dt = 0
        ↔ (c.mp_.isYSymmetric = false ∨ |angleError| ≤ M_PI / 2))
    ∧ (c.mp_.isYSymmetric = true → M_PI / 2 < angleError →
        (executePDControlledMotionCommand M_PI c none angleError positionError dt
          speed).pdout.de_angle_dt = -M_PI / dt)
    ∧ (c.mp_.isYSymmetric = true → angleError < -(M_PI / 2) →
        (executePDControlledMotionCommand M_PI c none angleError positionError dt
          speed).pdout.de_angle_dt = M_PI / dt) := by
  have hhi : M_PI / 2 < angleError → foldAngle M_PI true angleError = angleError - M_PI := by
    intro h
    have h2 : ¬ angleError - M_PI < -(M_PI / 2) := by
      rw [not_lt]
      linarith
    simp only [foldAngle, if_true, gt_iff_lt, if_pos h, if_neg h2]
  have hlo : angleError < -(M_PI / 2) → foldAngle M_PI true angleError = M_PI + angleError := by
    intro h
    have h1 : ¬ M_PI / 2 < angleError := by
      rw [not_lt]
      linarith
    simp only [foldAngle, if_true, gt_iff_lt, if_neg h1, if_pos h]
  have hmid : |angleError| ≤ M_PI / 2 → foldAngle M_PI true angleError = angleError := by
    intro h
    rw [abs_le] at h
    simp only [foldAngle, if_true, gt_iff_lt, if_neg (not_lt.mpr h.2), if_neg (not_lt.mpr h.1)]
  have hde : (executePDControlledMotionCommand M_PI c none angleError positionError dt
      speed).pdout.de_angle_dt = (foldAngle M_PI c.mp_.isYSymmetric angleError - angleError) / dt :=
    rfl
  refine ⟨by simp [executePDControlledMotionCommand], hde, ?_, ?_, ?_⟩
  · rw [hde, div_eq_zero_iff]
    cases hy : c.mp_.isYSymmetric
    · simp [foldAngle]
    · simp only [Bool.true_eq_false, false_or, hdt, or_false]
      constructor
      · intro h
        by_contra hbig
        rw [not_le, lt_abs] at hbig
        rcases hbig with hbig | hbig
        · rw [hhi hbig] at h
          linarith
        · rw [hlo (by linarith)] at h
          linarith
      · intro h
        rw [hmid h, sub_self]
  · intro hy h
    rw [hde, hy, hhi h]
    congr 1
    ring
  · intro hy h
    rw [hde, hy, hlo h]
    congr 1
    ring

/-- C20 (witness): first call on a y-symmetric chassis with `angleError = 3`, the `double`
value of `M_PI` and `dt = 1/10`: `de_position_dt = 0` and `de_angle_dt = -M_PI / dt`. -/
theorem executePD_first_call_derivatives_witness :
    (executePDControlledMotionCommand M_PI_double (configured ⟨1, 1, 1, 1, 1, true⟩) none
        3 7 (1 / 10) 1).pdout.de_position_dt = 0
    ∧ (executePDControlledMotionCommand M_PI_double (configured ⟨1, 1, 1, 1, 1, true⟩) none
        3 7 (1 / 10) 1).pdout.de_angle_dt = -M_PI_double / (1 / 10) :=
  ⟨(executePD_first_call_derivatives M_PI_double (configured ⟨1, 1, 1, 1, 1, true⟩) 3 7 (1 / 10) 1
      (by norm_num [M_PI_double]) (by norm_num)).1,
    (executePD_first_call_derivatives M_PI_double (configured ⟨1, 1, 1, 1, 1, true⟩) 3 7 (1 / 10) 1
      (by norm_num [M_PI_double]) (by norm_num)).2.2.2.1 rfl (by norm_num [M_PI_double])⟩

/-! ## Theorems: path smoother, continued -/

theorem discretization_pos : (0 : α) < SMOOTHED_PATH_DISCRETIZATION := by
  norm_num [SMOOTHED_PATH_DISCRETIZATION]

/-- Induction along the resampling loop: a property of (virtual time, cursor) that holds when
the loop condition fails and is inherited from the next iteration holds everywhere. -/
theorem resample_induction [FloorRing α] (L : α) (next : α → Nat → Nat) (P : α → Nat → Prop)
    (hstop : ∀ d k, ¬ d < L → P d k)
    (hstep : ∀ d k, d < L → P (d + SMOOTHED_PATH_DISCRETIZATION) (next d k) → P d k) :
    ∀ d k, P d k := by
  have hS : (0 : α) < SMOOTHED_PATH_DISCRETIZATION := discretization_pos
  have key : ∀ n : Nat, ∀ d k, ⌈(L - d) / SMOOTHED_PATH_DISCRETIZATION⌉.toNat = n → P d k := by
    intro n
    induction n with
    | zero =>
      intro d k hn
      apply hstop
      intro hlt
      have h2 : 0 < ⌈(L - d) / SMOOTHED_PATH_DISCRETIZATION⌉ :=
        Int.ceil_pos.mpr (div_pos (sub_pos.mpr hlt) hS)
      omega
    | succ n ih =>
      intro d k hn
      by_cases hlt : d < L
      · apply hstep d k hlt
        apply ih
        have h1 : (L - (d + SMOOTHED_PATH_DISCRETIZATION)) / SMOOTHED_PATH_DISCRETIZATION
            = (L - d) / SMOOTHED_PATH_DISCRETIZATION - 1 := by
          field_simp
          ring
        rw [h1, Int.ceil_sub_one]
        omega
      · exact hstop d k hlt
  exact fun d k => key _ d k rfl

theorem resampleCursor_of_not_lt [FloorRing α] (distances : List α) (d : α) (k : Nat)
    (h : ¬ d < distances.getLastD 0) : resampleCursor distances d k = [] := by
  rw [resampleCursor, dif_neg h]

theorem resampleCursor_of_lt [FloorRing α] (distances : List α) (d : α) (k : Nat)
    (h : d < distances.getLastD 0) :
    resampleCursor distances d k
      = (d, if d > distances.getD (k + 1) 0 then k + 1 else k)
        :: resampleCursor distances (d + SMOOTHED_PATH_DISCRETIZATION)
            (if d > distances.getD (k + 1) 0 then k + 1 else k) := by
  rw [resampleCursor, dif_pos h]

theorem resampleLoop_of_lt [FloorRing α] (distances : List α) (positions : List (Vec3 α))
    (d : α) (k : Nat) (h : d < distances.getLastD 0) :
    resampleLoop distances positions d k
      = (d, interpolate distances positions
            (if d > distances.getD (k + 1) 0 then k + 1 else k) d)
        :: resampleLoop distances positions (d + SMOOTHED_PATH_DISCRETIZATION)
            (if d > distances.getD (k + 1) 0 then k + 1 else k) := by
  rw [resampleLoop, dif_pos h]
  rfl

/-- The loop that fills `samples` and `samplesX` is the cursor trace with line 122 applied. -/
theorem resampleLoop_eq_map_cursor [FloorRing α] (distances : List α)
    (positions : List (Vec3 α)) (d : α) (k : Nat) :
    resampleLoop distances positions d k
      = (resampleCursor distances d k).map
          (fun s => (s.1, interpolate distances positions s.2 s.1)) := by
  revert d k
  apply resample_induction (distances.getLastD 0)
    (fun d k => if d > distances.getD (k + 1) 0 then k + 1 else k)
  · intro d k h
    rw [resampleLoop_of_not_lt _ _ _ _ h, resampleCursor_of_not_lt _ _ _ h]
    rfl
  · intro d k h ih
    rw [resampleLoop_of_lt _ _ _ _ h, resampleCursor_of_lt _ _ _ h, ih]
    rfl

theorem accumulateDistances_length (N : Numerics α) (acc : α) (prev : Vec3 α)
    (ps : List (Vec3 α)) : (accumulateDistances N acc prev ps).length = ps.length := by
  induction ps generalizing acc prev with
  | nil => rfl
  | cons p ps ih => simp [accumulateDistances, ih]

theorem computeAccumulatedDistances_length (N : Numerics α) (path : List (Vec3 α)) :
    (computeAccumulatedDistances N path).length = path.length := by
  cases path with
  | nil => rfl
  | cons p ps => simp [computeAccumulatedDistances, accumulateDistances_length]

theorem accumulateDistances_step (N : Numerics α) (acc : α) (prev : Vec3 α)
    (ps : List (Vec3 α)) (i : Nat) (hi : i + 1 < (prev :: ps).length) :
    (acc :: accumulateDistances N acc prev ps).getD (i + 1) 0
      = (acc :: accumulateDistances N acc prev ps).getD i 0
        + Vec3.norm N (Vec3.sub ((prev :: ps).getD (i + 1) Vec3.zero)
            ((prev :: ps).getD i Vec3.zero)) := by
  induction ps generalizing acc prev i with
  | nil => simp at hi
  | cons p ps ih =>
    cases i with
    | zero => simp [accumulateDistances]
    | succ i =>
      have hi2 : i + 1 < (p :: ps).length := by
        simp only [List.length_cons] at hi ⊢
        omega
      have h := ih (acc + Vec3.norm N (Vec3.sub p prev)) p i hi2
      simpa [accumulateDistances] using h

theorem accumulateDistances_chain (N : Numerics α) (hsqrt : ∀ x : α, 0 ≤ N.sqrt x) (acc : α)
    (prev : Vec3 α) (ps : List (Vec3 α)) :
    List.Chain (fun a b => a ≤ b) acc (accumulateDistances N acc prev ps) := by
  induction ps generalizing acc prev with
  | nil => exact List.Chain.nil
  | cons p ps ih =>
    exact List.Chain.cons (le_add_of_nonneg_right (hsqrt _)) (ih _ _)

theorem accumulateDistances_getLast (N : Numerics α) (acc : α) (prev : Vec3 α)
    (ps : List (Vec3 α)) :
    (acc :: accumulateDistances N acc prev ps).getLastD 0
      = acc + specTotalDistance N (prev :: ps) := by
  induction ps generalizing acc prev with
  | nil => simp [accumulateDistances, specTotalDistance]
  | cons p ps ih =>
    have h := ih (acc + Vec3.norm N (Vec3.sub p prev)) p
    simp only [List.getLastD_eq_getLast?, accumulateDistances, specTotalDistance] at h ⊢
    rw [List.getLast?_cons_cons, h]
    ring

/-- C11: for every path, `computeAccumulatedDistances` returns a table of the same length
as the path, with `table[0] = 0` when the path is non-empty and
`table[i] = table[i-1] + |p[i] - p[i-1]|` for every `i ≥ 1`; the table is non-decreasing
(the square root being non-negative) and its last element is the sum of the segment
lengths. -/
theorem computeAccumulatedDistances_table (N : Numerics α) (hsqrt : ∀ x : α, 0 ≤ N.sqrt x)
    (path : List (Vec3 α)) :
    (computeAccumulatedDistances N path).length = path.length
    ∧ (path ≠ [] → (computeAccumulatedDistances N path)[0]? = some 0)
    ∧ (∀ i : Nat, 1 ≤ i → i < path.length →
        (computeAccumulatedDistances N path).getD i 0
          = (computeAccumulatedDistances N path).getD (i - 1) 0
            + Vec3.norm N (Vec3.sub (path.getD i Vec3.zero) (path.getD (i - 1) Vec3.zero)))
    ∧ List.Pairwise (fun a b => a ≤ b) (computeAccumulatedDistances N path)
    ∧ (computeAccumulatedDistances N path).getLastD 0 = specTotalDistance N path := by
  refine ⟨computeAccumulatedDistances_length N path, ?_, ?_, ?_, ?_⟩
  · intro hne
    cases path with
    | nil => exact absurd rfl hne
    | cons p ps => simp [computeAccumulatedDistances]
  · intro i h1 hi
    cases path with
    | nil => simp at hi
    | cons p ps =>
      obtain ⟨j, rfl⟩ : ∃ j, i = j + 1 := ⟨i - 1, by omega⟩
      exact accumulateDistances_step N 0 p ps j hi
  · cases path with
    | nil => exact List.Pairwise.nil
    | cons p ps =>
      have h : List.Chain' (fun a b : α => a ≤ b) (0 :: accumulateDistances N 0 p ps) :=
        accumulateDistances_chain N hsqrt 0 p ps
      exact List.chain'_iff_pairwise.mp h
  · cases path with
    | nil => rfl
    | cons p ps =>
      have h := accumulateDistances_getLast N 0 p ps
      rw [zero_add] at h
      exact h

/-- C11 (witness): the table of the path `(0,0,0), (1,0,0), (1,2,0)` over the reals. -/
theorem computeAccumulatedDistances_table_witness :
    (computeAccumulatedDistances (⟨Real.sqrt, Real.exp, fun _ _ => ⟨1, 0, 0, 0⟩⟩ : Numerics ℝ)
        [⟨0, 0, 0⟩, ⟨1, 0, 0⟩, ⟨1, 2, 0⟩]).length = 3
    ∧ List.Pairwise (fun a b => a ≤ b)
        (computeAccumulatedDistances (⟨Real.sqrt, Real.exp, fun _ _ => ⟨1, 0, 0, 0⟩⟩ : Numerics ℝ)
          [⟨0, 0, 0⟩, ⟨1, 0, 0⟩, ⟨1, 2, 0⟩]) :=
  ⟨(computeAccumulatedDistances_table
      (⟨Real.sqrt, Real.exp, fun _ _ => ⟨1, 0, 0, 0⟩⟩ : Numerics ℝ)
      (fun x => Real.sqrt_nonneg x) [⟨0, 0, 0⟩, ⟨1, 0, 0⟩, ⟨1, 2, 0⟩]).1,
    (computeAccumulatedDistances_table
      (⟨Real.sqrt, Real.exp, fun _ _ => ⟨1, 0, 0, 0⟩⟩ : Numerics ℝ)
      (fun x => Real.sqrt_nonneg x) [⟨0, 0, 0⟩, ⟨1, 0, 0⟩, ⟨1, 2, 0⟩]).2.2.2.1⟩

theorem foldl_add_map {β : Type} (f : β → α) (l : List β) (a : α) :
    l.foldl (fun acc x => acc + f x) a = a + (l.map f).sum := by
  induction l generalizing a with
  | nil => simp
  | cons b l ih => simp [ih, add_assoc]

theorem straight_path_interpolate (k : Nat) (hk : k ≤ 1) (d : ℝ) :
    interpolate ([0, 1, 2] : List ℝ) [⟨0, 0, 0⟩, ⟨1, 0, 0⟩, ⟨2, 0, 0⟩] k d = ⟨d, 0, 0⟩ := by
  interval_cases k
  · simp [interpolate, Vec3.add, Vec3.sub, Vec3.smul, Vec3.sdiv, Vec3.zero]
  · simp [interpolate, Vec3.add, Vec3.sub, Vec3.smul, Vec3.sdiv, Vec3.zero]
    norm_num

theorem norm_along_y (e : ℝ → ℝ) (f : Vec3 ℝ → Vec3 ℝ → Quat ℝ) (a b c : ℝ) :
    Vec3.norm ⟨Real.sqrt, e, f⟩ (Vec3.sub ⟨a, b, 0⟩ ⟨a, c, 0⟩) = |b - c| := by
  simp [Vec3.norm, Vec3.sub, Vec3.squaredNorm, Vec3.dot, Real.sqrt_mul_self_eq_abs]

theorem bent_path_distances (e : ℝ → ℝ) (f : Vec3 ℝ → Vec3 ℝ → Quat ℝ) :
    computeAccumulatedDistances ⟨Real.sqrt, e, f⟩ [⟨0, 0, 0⟩, ⟨1 / 100, 0, 0⟩, ⟨2 / 100, 0, 0⟩, ⟨2 / 100, 1, 0⟩]
      = [0, 1 / 100, 2 / 100, 102 / 100] := by
  simp only [computeAccumulatedDistances, accumulateDistances, norm_along_x, norm_along_y]
  norm_num [abs_of_pos]

/-- C16 (code at the failing input): for the path
`(0,0,0), (1/100,0,0), (2/100,0,0), (2/100,1,0)` over the reals, of total length `102/100`,
the second iteration of the resampling loop has `t = 1/20` and, after a single advance,
the cursor at offset `1`: `table[2] = 2/100 < t`, so the pair `p[1], p[2]` does not bracket
`t`, and the raw sample is `(1/20, 0, 0)`, beyond `p[2] = (2/100, 0, 0)` on the line through
`p[1]` and `p[2]`. -/
theorem resample_cursor_lags :
    2 ≤ ([⟨0, 0, 0⟩, ⟨1 / 100, 0, 0⟩, ⟨2 / 100, 0, 0⟩, ⟨2 / 100, 1, 0⟩] : List (Vec3 ℝ)).length
    ∧ 0 < (computeAccumulatedDistances (⟨Real.sqrt, Real.exp, fun _ _ => ⟨1, 0, 0, 0⟩⟩ : Numerics ℝ) [⟨0, 0, 0⟩, ⟨1 / 100, 0, 0⟩, ⟨2 / 100, 0, 0⟩, ⟨2 / 100, 1, 0⟩]).getLastD 0
    ∧ (resampleCursor (computeAccumulatedDistances (⟨Real.sqrt, Real.exp, fun _ _ => ⟨1, 0, 0, 0⟩⟩ : Numerics ℝ) [⟨0, 0, 0⟩, ⟨1 / 100, 0, 0⟩, ⟨2 / 100, 0, 0⟩, ⟨2 / 100, 1, 0⟩]) 0 0)[1]? = some (1 / 20, 1)
    ∧ (computeAccumulatedDistances (⟨Real.sqrt, Real.exp, fun _ _ => ⟨1, 0, 0, 0⟩⟩ : Numerics ℝ) [⟨0, 0, 0⟩, ⟨1 / 100, 0, 0⟩, ⟨2 / 100, 0, 0⟩, ⟨2 / 100, 1, 0⟩]).getD (1 + 1) 0 < 1 / 20
    ∧ (resampleLoop (computeAccumulatedDistances (⟨Real.sqrt, Real.exp, fun _ _ => ⟨1, 0, 0, 0⟩⟩ : Numerics ℝ) [⟨0, 0, 0⟩, ⟨1 / 100, 0, 0⟩, ⟨2 / 100, 0, 0⟩, ⟨2 / 100, 1, 0⟩]) [⟨0, 0, 0⟩, ⟨1 / 100, 0, 0⟩, ⟨2 / 100, 0, 0⟩, ⟨2 / 100, 1, 0⟩] 0 0)[1]?
        = some (1 / 20, ⟨1 / 20, 0, 0⟩) := by
  have hD := bent_path_distances Real.exp (fun _ _ => ⟨1, 0, 0, 0⟩)
  rw [hD]
  have hL : List.getLastD ([0, 1 / 100, 2 / 100, 102 / 100] : List ℝ) 0 = 102 / 100 := rfl
  have h0 : (0 : ℝ) < List.getLastD ([0, 1 / 100, 2 / 100, 102 / 100] : List ℝ) 0 := by
    rw [hL]
    norm_num
  have h1 : (0 : ℝ) + SMOOTHED_PATH_DISCRETIZATION
      < List.getLastD ([0, 1 / 100, 2 / 100, 102 / 100] : List ℝ) 0 := by
    rw [hL]
    norm_num [SMOOTHED_PATH_DISCRETIZATION]
  have hk0 : (if (0 : ℝ) > List.getD ([0, 1 / 100, 2 / 100, 102 / 100] : List ℝ) (0 + 1) 0
      then 0 + 1 else 0) = 0 := by
    norm_num
  have hk1 : (if (0 : ℝ) + SMOOTHED_PATH_DISCRETIZATION
        > List.getD ([0, 1 / 100, 2 / 100, 102 / 100] : List ℝ) (0 + 1) 0
      then 0 + 1 else 0) = 1 := by
    norm_num [SMOOTHED_PATH_DISCRETIZATION]
  have hcur : (resampleCursor ([0, 1 / 100, 2 / 100, 102 / 100] : List ℝ) 0 0)[1]?
      = some (1 / 20, 1) := by
    rw [resampleCursor_of_lt _ _ _ h0, hk0, List.getElem?_cons_succ,
      resampleCursor_of_lt _ _ _ h1, hk1, List.getElem?_cons_zero]
    norm_num [SMOOTHED_PATH_DISCRETIZATION]
  refine ⟨by simp, h0, hcur, by norm_num, ?_⟩
  rw [resampleLoop_eq_map_cursor, List.getElem?_map, hcur]
  simp only [Option.map_some', interpolate, Vec3.add, Vec3.sub, Vec3.smul, Vec3.sdiv]
  norm_num

theorem getLastD_eq_getD_pred (l : List α) :
    l.getLastD 0 = l.getD (l.length - 1) 0 := by
  simp [List.getLast?_eq_getElem?]

/-- C17 (counterexample): the path `(0,0,0), (0,0,0), (1,0,0)` over the reals has 3 points
and total arc length `1`, yet at the first resampling step (`t = 0`, cursor at offset `0`)
the interpolation denominator `table[1] - table[0]` is `0`. -/
theorem zero_denominator_counterexample :
    2 ≤ ([⟨0, 0, 0⟩, ⟨0, 0, 0⟩, ⟨1, 0, 0⟩] : List (Vec3 ℝ)).length
    ∧ 0 < (computeAccumulatedDistances (⟨Real.sqrt, Real.exp, fun _ _ => ⟨1, 0, 0, 0⟩⟩ : Numerics ℝ) [⟨0, 0, 0⟩, ⟨0, 0, 0⟩, ⟨1, 0, 0⟩]).getLastD 0
    ∧ (resampleCursor (computeAccumulatedDistances (⟨Real.sqrt, Real.exp, fun _ _ => ⟨1, 0, 0, 0⟩⟩ : Numerics ℝ) [⟨0, 0, 0⟩, ⟨0, 0, 0⟩, ⟨1, 0, 0⟩]) 0 0).head? = some (0, 0)
    ∧ (computeAccumulatedDistances (⟨Real.sqrt, Real.exp, fun _ _ => ⟨1, 0, 0, 0⟩⟩ : Numerics ℝ) [⟨0, 0, 0⟩, ⟨0, 0, 0⟩, ⟨1, 0, 0⟩]).getD (0 + 1) 0
        - (computeAccumulatedDistances (⟨Real.sqrt, Real.exp, fun _ _ => ⟨1, 0, 0, 0⟩⟩ : Numerics ℝ) [⟨0, 0, 0⟩, ⟨0, 0, 0⟩, ⟨1, 0, 0⟩]).getD 0 0 = 0 := by
  have hD : computeAccumulatedDistances (⟨Real.sqrt, Real.exp, fun _ _ => ⟨1, 0, 0, 0⟩⟩ : Numerics ℝ) [⟨0, 0, 0⟩, ⟨0, 0, 0⟩, ⟨1, 0, 0⟩] = [0, 0, 1] := by
    simp only [computeAccumulatedDistances, accumulateDistances, norm_along_x]
    norm_num
  rw [hD]
  have h0 : (0 : ℝ) < List.getLastD ([0, 0, 1] : List ℝ) 0 := by
    norm_num [List.getLastD]
  refine ⟨by simp, h0, ?_, by norm_num⟩
  rw [resampleCursor_of_lt _ _ _ h0]
  norm_num

/-! ## Theorems: division by zero in the control law -/

theorem derivativeTerms_of_ne_zero (M_PI : α) (c : DifferentialDriveController α)
    (statics : Option (PDStatics α)) (e_angle e_position dt speed : α) (hdt : dt ≠ 0) :
    derivativeTerms M_PI c statics e_angle e_position dt
      = (some (executePDControlledMotionCommand M_PI c statics e_angle e_position dt
            speed).pdout.de_angle_dt,
         some (executePDControlledMotionCommand M_PI c statics e_angle e_position dt
            speed).pdout.de_position_dt) := by
  simp [derivativeTerms, ieeeDiv, hdt, executePDControlledMotionCommand]

/-- C20 (counterexample): on the first call with `dt = 0` (here `angleError = 0`,
`positionError = 7`) the quotient of line 83 has a zero divisor: `de_position_dt` is not a
finite number, in particular it is not `0`; likewise `de_angle_dt`. -/
theorem first_call_zero_dt_counterexample :
    (derivativeTerms M_PI_double (configured ⟨1, 1, 1, 1, 1, false⟩) none 0 7 0).2 = none
    ∧ (derivativeTerms M_PI_double (configured ⟨1, 1, 1, 1, 1, false⟩) none 0 7 0).2 ≠ some 0
    ∧ (derivativeTerms M_PI_double (configured ⟨1, 1, 1, 1, 1, false⟩) none 0 7 0).1 = none := by
  simp [derivativeTerms, ieeeDiv]

/-! ## Theorems: conversion to `float` -/

theorem roundHalfEven_eq [FloorRing α] (y : α) (n : ℤ) (h1 : (n : α) - 1 / 2 < y)
    (h2 : y < (n : α) + 1 / 2) : roundHalfEven y = n := by
  unfold roundHalfEven
  by_cases hn : (n : α) ≤ y
  · have hf : ⌊y⌋ = n := by
      rw [Int.floor_eq_iff]
      exact ⟨hn, by linarith⟩
    have hfr : Int.fract y < 1 / 2 := by
      rw [Int.fract, hf]
      linarith
    rw [if_pos hfr, hf]
  · have hf : ⌊y⌋ = n - 1 := by
      rw [Int.floor_eq_iff]
      push_cast
      exact ⟨by linarith, by linarith [not_le.mp hn]⟩
    have hfr : 1 / 2 < Int.fract y := by
      rw [Int.fract, hf]
      push_cast
      linarith
    rw [if_neg (not_lt.mpr hfr.le), if_pos hfr, hf]
    ring

theorem roundHalfEven_floor_le [FloorRing α] (y : α) : ⌊y⌋ ≤ roundHalfEven y := by
  unfold roundHalfEven
  split_ifs <;> omega

theorem roundHalfEven_nonneg [FloorRing α] (y : α) (hy : 0 ≤ y) : 0 ≤ roundHalfEven y :=
  le_trans (Int.floor_nonneg.mpr hy) (roundHalfEven_floor_le y)

theorem sub_half_le_roundHalfEven [FloorRing α] (y : α) :
    y - 1 / 2 ≤ (roundHalfEven y : α) := by
  have hfl : (⌊y⌋ : α) = y - Int.fract y := by
    rw [Int.fract]
    ring
  have hf1 : Int.fract y < 1 := Int.fract_lt_one y
  unfold roundHalfEven
  split_ifs with h1 h2 h3
  · rw [hfl]
    linarith
  · push_cast
    rw [hfl]
    linarith
  · rw [hfl]
    linarith [not_lt.mp h2]
  · push_cast
    rw [hfl]
    linarith

theorem float32Quantum_pos [FloorRing α] (x : α) : 0 < float32Quantum x :=
  zpow_pos (by norm_num) _

theorem float32Quantum_eq [FloorRing α] (x : α) (e : ℤ) (he : -126 ≤ e) (h1 : (2 : α) ^ e ≤ x)
    (h2 : x < (2 : α) ^ (e + 1)) : float32Quantum x = (2 : α) ^ (e - 23) := by
  have hx : 0 < x := lt_of_lt_of_le (zpow_pos (by norm_num) e) h1
  have hlog : Int.log 2 |x| = e := by
    rw [abs_of_pos hx]
    apply le_antisymm
    · have h := (Int.lt_zpow_iff_log_lt (b := 2) (by norm_num) (x := e + 1) hx).mp
        (by exact_mod_cast h2)
      omega
    · exact (Int.zpow_le_iff_le_log (b := 2) (by norm_num) hx).mp (by exact_mod_cast h1)
  rw [float32Quantum, hlog, max_eq_left he]

/-- Evaluation of `roundFloat32` at a positive normal `x`, from its binade `e` and the
integer `n` nearest to `x / 2 ^ (e - 23)`. -/
theorem roundFloat32_eq [FloorRing α] (x : α) (e n : ℤ) (he : -126 ≤ e)
    (h1 : (2 : α) ^ e ≤ x) (h2 : x < (2 : α) ^ (e + 1))
    (h3 : ((n : α) - 1 / 2) * (2 : α) ^ (e - 23) < x)
    (h4 : x < ((n : α) + 1 / 2) * (2 : α) ^ (e - 23)) :
    roundFloat32 x = (n : α) * (2 : α) ^ (e - 23) := by
  have hq : (0 : α) < (2 : α) ^ (e - 23) := zpow_pos (by norm_num) _
  rw [roundFloat32, float32Quantum_eq x e he h1 h2,
    roundHalfEven_eq (x / (2 : α) ^ (e - 23)) n ((lt_div_iff₀ hq).mpr h3)
      ((div_lt_iff₀ hq).mpr h4)]

theorem roundFloat32_nonneg [FloorRing α] (x : α) (hx : 0 ≤ x) : 0 ≤ roundFloat32 x := by
  unfold roundFloat32
  exact mul_nonneg
    (by exact_mod_cast roundHalfEven_nonneg _ (div_nonneg hx (float32Quantum_pos x).le))
    (float32Quantum_pos x).le

/-- Relative accuracy of the conversion for a normal positive number. -/
theorem roundFloat32_lower [FloorRing α] (x : α) (hx : (2 : α) ^ (-126 : ℤ) ≤ x) :
    x - x * (2 : α) ^ (-24 : ℤ) ≤ roundFloat32 x := by
  have hx0 : 0 < x := lt_of_lt_of_le (zpow_pos (by norm_num) _) hx
  have hlog : -126 ≤ Int.log 2 |x| := by
    rw [abs_of_pos hx0]
    exact (Int.zpow_le_iff_le_log (b := 2) (by norm_num) hx0).mp (by exact_mod_cast hx)
  have hle : (2 : α) ^ (Int.log 2 |x|) ≤ x := by
    have h := Int.zpow_log_le_self (b := 2) (r := x) (by norm_num) hx0
    rw [abs_of_pos hx0]
    exact_mod_cast h
  have hq : float32Quantum x = (2 : α) ^ (Int.log 2 |x|) * (2 : α) ^ (-23 : ℤ) := by
    rw [float32Quantum, max_eq_left hlog, sub_eq_add_neg, zpow_add₀ (by norm_num)]
  have hq0 := float32Quantum_pos x
  have h24 : (2 : α) ^ (-23 : ℤ) * (1 / 2) = (2 : α) ^ (-24 : ℤ) := by
    rw [show (-23 : ℤ) = -24 + 1 by norm_num, zpow_add_one₀ (by norm_num)]
    ring
  have hr := sub_half_le_roundHalfEven (x / float32Quantum x)
  have h1 : x - 1 / 2 * float32Quantum x ≤ roundFloat32 x := by
    have h2 := mul_le_mul_of_nonneg_right hr hq0.le
    rw [sub_mul, div_mul_cancel₀ _ hq0.ne'] at h2
    exact h2
  have h3 : 1 / 2 * float32Quantum x ≤ x * (2 : α) ^ (-24 : ℤ) := by
    rw [hq, ← h24]
    have h5 : (0 : α) < (2 : α) ^ (-23 : ℤ) := zpow_pos (by norm_num) _
    have h6 := mul_le_mul_of_nonneg_right hle h5.le
    calc 1 / 2 * ((2 : α) ^ (Int.log 2 |x|) * (2 : α) ^ (-23 : ℤ))
        = (2 : α) ^ (Int.log 2 |x|) * (2 : α) ^ (-23 : ℤ) * (1 / 2) := by ring
      _ ≤ x * (2 : α) ^ (-23 : ℤ) * (1 / 2) := mul_le_mul_of_nonneg_right h6 (by norm_num)
      _ = x * ((2 : α) ^ (-23 : ℤ) * (1 / 2)) := by ring
  exact le_trans (sub_le_sub_left h3 x) h1

/-- Progress of the loop variable: for `0 ≤ d ≤ 65536` the conversion of
`d + SMOOTHED_PATH_DISCRETIZATION` to `float` exceeds `d` by at least half the step. -/
theorem roundFloat32_progress [FloorRing α] (d : α) (hd : 0 ≤ d) (hd2 : d ≤ 65536) :
    d + SMOOTHED_PATH_DISCRETIZATION / 2
      ≤ roundFloat32 (d + SMOOTHED_PATH_DISCRETIZATION) := by
  have hS : (SMOOTHED_PATH_DISCRETIZATION : α) = 1 / 20 := by
    norm_num [SMOOTHED_PATH_DISCRETIZATION]
  have hx : (2 : α) ^ (-126 : ℤ) ≤ d + SMOOTHED_PATH_DISCRETIZATION := by
    have h1 : (2 : α) ^ (-126 : ℤ) ≤ (2 : α) ^ (-5 : ℤ) :=
      zpow_le_zpow_right₀ (by norm_num) (by norm_num)
    have h2 : (2 : α) ^ (-5 : ℤ) = 1 / 32 := by norm_num
    rw [hS]
    linarith
  have h := roundFloat32_lower (d + SMOOTHED_PATH_DISCRETIZATION) hx
  have h24 : (2 : α) ^ (-24 : ℤ) = 1 / 16777216 := by norm_num
  rw [h24, hS] at h
  rw [hS]
  linarith

/-! ## Theorems: the resampling loop with a `float` loop variable -/

theorem resampleStepsF_of_lt (toFloat : α → α) (distances : List α) (fuel : Nat) (d : α)
    (k : Nat) (h : d < distances.getLastD 0) :
    resampleStepsF toFloat distances (fuel + 1) d k
      = (d, if d > distances.getD (k + 1) 0 then k + 1 else k)
        :: resampleStepsF toFloat distances fuel (toFloat (d + SMOOTHED_PATH_DISCRETIZATION))
            (if d > distances.getD (k + 1) 0 then k + 1 else k) := by
  rw [resampleStepsF, if_pos h]

theorem resampleStepsF_of_not_lt (toFloat : α → α) (distances : List α) (fuel : Nat) (d : α)
    (k : Nat) (h : ¬ d < distances.getLastD 0) :
    resampleStepsF toFloat distances fuel d k = [] := by
  cases fuel with
  | zero => rfl
  | succ fuel => rw [resampleStepsF, if_neg h]

theorem resampleStepsF_length_le (toFloat : α → α) (distances : List α) (fuel : Nat) (d : α)
    (k : Nat) : (resampleStepsF toFloat distances fuel d k).length ≤ fuel := by
  induction fuel generalizing d k with
  | zero => exact Nat.le_refl 0
  | succ fuel ih =>
    by_cases h : d < distances.getLastD 0
    · rw [resampleStepsF_of_lt _ _ _ _ _ h, List.length_cons]
      exact Nat.succ_le_succ (ih _ _)
    · rw [resampleStepsF_of_not_lt _ _ _ _ _ h]
      exact Nat.zero_le _

theorem resampleStepsF_in_range (toFloat : α → α) (distances : List α) (fuel : Nat) (d : α)
    (k : Nat) (hk : k + 1 < distances.length) :
    ∀ s ∈ resampleStepsF toFloat distances fuel d k, s.2 + 1 < distances.length := by
  induction fuel generalizing d k with
  | zero =>
    intro s hs
    exact absurd hs (List.not_mem_nil s)
  | succ fuel ih =>
    intro s hs
    by_cases h : d < distances.getLastD 0
    · rw [resampleStepsF_of_lt _ _ _ _ _ h] at hs
      have hk1 : (if d > distances.getD (k + 1) 0 then k + 1 else k) + 1 < distances.length := by
        split_ifs with hadv
        · by_contra hlast
          have hidx : distances.length - 1 = k + 1 := by omega
          rw [getLastD_eq_getD_pred, hidx] at h
          exact lt_asymm h hadv
        · exact hk
      rw [List.mem_cons] at hs
      rcases hs with hs | hs
      · rw [hs]
        exact hk1
      · exact ih _ _ hk1 s hs
    · rw [resampleStepsF_of_not_lt _ _ _ _ _ h] at hs
      exact absurd hs (List.not_mem_nil s)

/-- The times of the loop are the iterates of `d ↦ toFloat (d + S)`. -/
theorem resampleStepsF_times (toFloat : α → α) (distances : List α) (fuel : Nat) (d : α)
    (k : Nat) :
    (resampleStepsF toFloat distances fuel d k).map Prod.fst
      = (List.range (resampleStepsF toFloat distances fuel d k).length).map
          (fun j => (fun t => toFloat (t + SMOOTHED_PATH_DISCRETIZATION))^[j] d) := by
  induction fuel generalizing d k with
  | zero => rfl
  | succ fuel ih =>
    by_cases h : d < distances.getLastD 0
    · rw [resampleStepsF_of_lt _ _ _ _ _ h, List.map_cons, List.length_cons,
        List.range_succ_eq_map, List.map_cons, List.map_map, ih]
      rfl
    · rw [resampleStepsF_of_not_lt _ _ _ _ _ h]
      rfl

/-- Every time of the loop is below the total distance, and when the loop has ended within
`fuel` iterations the next iterate is not. -/
theorem resampleStepsF_bound (toFloat : α → α) (distances : List α) (fuel : Nat) (d : α)
    (k : Nat) :
    (∀ j : Nat, j < (resampleStepsF toFloat distances fuel d k).length →
        (fun t => toFloat (t + SMOOTHED_PATH_DISCRETIZATION))^[j] d < distances.getLastD 0)
    ∧ ((resampleStepsF toFloat distances fuel d k).length < fuel →
        ¬ (fun t => toFloat (t + SMOOTHED_PATH_DISCRETIZATION))^[
            (resampleStepsF toFloat distances fuel d k).length] d < distances.getLastD 0) := by
  induction fuel generalizing d k with
  | zero =>
    exact ⟨fun j hj => absurd hj (Nat.not_lt_zero j), fun hlt => absurd hlt (Nat.not_lt_zero _)⟩
  | succ fuel ih =>
    by_cases h : d < distances.getLastD 0
    · rw [resampleStepsF_of_lt _ _ _ _ _ h, List.length_cons]
      obtain ⟨ih1, ih2⟩ := ih (toFloat (d + SMOOTHED_PATH_DISCRETIZATION))
        (if d > distances.getD (k + 1) 0 then k + 1 else k)
      constructor
      · intro j hj
        cases j with
        | zero => exact h
        | succ j =>
          rw [Function.iterate_succ_apply]
          exact ih1 j (by omega)
      · intro hlen
        rw [Function.iterate_succ_apply]
        exact ih2 (by omega)
    · rw [resampleStepsF_of_not_lt _ _ _ _ _ h]
      exact ⟨fun j hj => absurd hj (Nat.not_lt_zero j), fun _ => h⟩

/-- When every addition advances the loop variable by at least `δ > 0`, the loop ends after
at most `n` iterations as soon as `n * δ` covers the remaining distance. -/
theorem resampleStepsF_terminates (toFloat : α → α) (distances : List α) (δ : α)
    (hprog : ∀ d : α, 0 ≤ d → d < distances.getLastD 0 →
      d + δ ≤ toFloat (d + SMOOTHED_PATH_DISCRETIZATION)) :
    ∀ (n fuel : Nat) (d : α) (k : Nat), 0 ≤ d → 0 ≤ δ →
      distances.getLastD 0 - d ≤ (n : α) * δ →
      (resampleStepsF toFloat distances fuel d k).length ≤ n := by
  intro n
  induction n with
  | zero =>
    intro fuel d k _ _ hn
    have h : ¬ d < distances.getLastD 0 := by
      rw [not_lt]
      simp only [Nat.cast_zero, zero_mul] at hn
      linarith
    rw [resampleStepsF_of_not_lt _ _ _ _ _ h]
    exact Nat.le_refl 0
  | succ n ih =>
    intro fuel d k hd hδ hn
    cases fuel with
    | zero => exact Nat.zero_le _
    | succ fuel =>
      by_cases h : d < distances.getLastD 0
      · rw [resampleStepsF_of_lt _ _ _ _ _ h, List.length_cons]
        have hp := hprog d hd h
        apply Nat.succ_le_succ
        apply ih _ _ _ (by linarith) hδ
        push_cast at hn
        linarith
      · rw [resampleStepsF_of_not_lt _ _ _ _ _ h]
        exact Nat.zero_le _

/-- When every addition advances the loop variable, the times of the loop are strictly
increasing and stay below the total distance. -/
theorem resampleStepsF_increasing (toFloat : α → α) (distances : List α)
    (hprog : ∀ d : α, 0 ≤ d → d < distances.getLastD 0 →
      d < toFloat (d + SMOOTHED_PATH_DISCRETIZATION)) :
    ∀ (fuel : Nat) (d : α) (k : Nat), 0 ≤ d →
      List.Pairwise (fun a b => a < b) ((resampleStepsF toFloat distances fuel d k).map Prod.fst)
      ∧ ∀ s ∈ resampleStepsF toFloat distances fuel d k,
          d ≤ s.1 ∧ s.1 < distances.getLastD 0 := by
  intro fuel
  induction fuel with
  | zero =>
    intro d k _
    exact ⟨List.Pairwise.nil, fun s hs => absurd hs (List.not_mem_nil s)⟩
  | succ fuel ih =>
    intro d k hd
    by_cases h : d < distances.getLastD 0
    · rw [resampleStepsF_of_lt _ _ _ _ _ h]
      simp only [List.map_cons, List.pairwise_cons, List.mem_cons]
      have hp := hprog d hd h
      obtain ⟨ih1, ih2⟩ := ih (toFloat (d + SMOOTHED_PATH_DISCRETIZATION))
        (if d > distances.getD (k + 1) 0 then k + 1 else k) (le_trans hd hp.le)
      refine ⟨⟨?_, ih1⟩, ?_⟩
      · intro a ha
        rw [List.mem_map] at ha
        obtain ⟨s, hs, rfl⟩ := ha
        exact lt_of_lt_of_le hp (ih2 s hs).1
      · intro s hs
        rcases hs with hs | hs
        · rw [hs]
          exact ⟨le_rfl, h⟩
        · exact ⟨le_trans hp.le (ih2 s hs).1, (ih2 s hs).2⟩
    · rw [resampleStepsF_of_not_lt _ _ _ _ _ h]
      exact ⟨List.Pairwise.nil, fun s hs => absurd hs (List.not_mem_nil s)⟩

/-! ## Theorems: the `float` table and the `float` weights -/

theorem accumulateDistancesF_length (toFloat : α → α) (N : Numerics α) (acc : α)
    (prev : Vec3 α) (ps : List (Vec3 α)) :
    (accumulateDistancesF toFloat N acc prev ps).length = ps.length := by
  induction ps generalizing acc prev with
  | nil => rfl
  | cons p ps ih => simp [accumulateDistancesF, ih]

theorem computeAccumulatedDistancesF_length (toFloat : α → α) (N : Numerics α)
    (path : List (Vec3 α)) :
    (computeAccumulatedDistancesF toFloat N path).length = path.length := by
  cases path with
  | nil => rfl
  | cons p ps => simp [computeAccumulatedDistancesF, accumulateDistancesF_length]

theorem roundFloat32_one : roundFloat32 (1 : ℝ) = 1 := by
  rw [roundFloat32_eq _ 0 8388608 (by norm_num) (by norm_num) (by norm_num) (by norm_num)
    (by norm_num)]
  norm_num

theorem roundFloat32_two : roundFloat32 (2 : ℝ) = 2 := by
  rw [roundFloat32_eq _ 1 8388608 (by norm_num) (by norm_num) (by norm_num) (by norm_num)
    (by norm_num)]
  norm_num

theorem roundFloat32_three : roundFloat32 (3 : ℝ) = 3 := by
  rw [roundFloat32_eq _ 1 12582912 (by norm_num) (by norm_num) (by norm_num) (by norm_num)
    (by norm_num)]
  norm_num

theorem roundFloat32_three_halves : roundFloat32 (3 / 2 : ℝ) = 3 / 2 := by
  rw [roundFloat32_eq _ 0 12582912 (by norm_num) (by norm_num) (by norm_num) (by norm_num)
    (by norm_num)]
  norm_num

theorem gaussianWeightF_self (toFloat : α → α) (N : Numerics α) (t : α) :
    gaussianWeightF toFloat N t t = toFloat (N.exp 0) := by
  simp [gaussianWeightF]

theorem gaussianWeightF_nonneg (toFloat : α → α) (N : Numerics α)
    (hfl : ∀ x : α, 0 ≤ x → 0 ≤ toFloat x) (hexp : ∀ x : α, 0 ≤ N.exp x) (t0 t1 : α) :
    0 ≤ gaussianWeightF toFloat N t0 t1 :=
  hfl _ (hexp _)

theorem sum_map_pos_of_mem {β : Type} (f : β → α) (l : List β) (a : β) (ha : a ∈ l)
    (hnn : ∀ b ∈ l, 0 ≤ f b) (hpos : 0 < f a) : 0 < (l.map f).sum := by
  induction l with
  | nil => exact absurd ha (List.not_mem_nil a)
  | cons b l ih =>
    simp only [List.map_cons, List.sum_cons]
    have hl : 0 ≤ (l.map f).sum :=
      List.sum_nonneg (fun x hx => by
        rw [List.mem_map] at hx
        obtain ⟨y, hy, rfl⟩ := hx
        exact hnn y (List.mem_cons_of_mem _ hy))
    rcases List.mem_cons.mp ha with h | h
    · rw [← h]
      linarith
    · have := ih h (fun x hx => hnn x (List.mem_cons_of_mem _ hx))
      linarith [hnn b (List.mem_cons_self _ _)]

theorem gaussianDenominatorF_eq_sum (toFloat : α → α) (N : Numerics α) (samples : List α)
    (i : Nat) :
    gaussianDenominatorF toFloat N samples i
      = (samples.map (gaussianWeightF toFloat N (samples.getD i 0))).sum := by
  rw [gaussianDenominatorF, foldl_add_map, zero_add]

theorem gaussianDenominatorF_pos (toFloat : α → α) (N : Numerics α)
    (hfl : ∀ x : α, 0 ≤ x → 0 ≤ toFloat x) (hexp : ∀ x : α, 0 ≤ N.exp x)
    (hone : 0 < toFloat (N.exp 0)) (samples : List α) (i : Nat) (hi : i < samples.length) :
    0 < gaussianDenominatorF toFloat N samples i := by
  rw [gaussianDenominatorF_eq_sum]
  apply sum_map_pos_of_mem _ samples (samples.getD i 0)
  · rw [List.getD_eq_getElem _ _ hi]
    exact List.getElem_mem hi
  · exact fun b _ => gaussianWeightF_nonneg toFloat N hfl hexp _ _
  · rw [gaussianWeightF_self]
    exact hone

/-- C17 (amended): for every path with at least 2 points whose stored arc-length table is
strictly increasing (which excludes coinciding consecutive waypoints and segments too short
to change the `float` sum), whatever the conversion to `float`, the total arc length is
positive and no division by zero occurs in `computeSmoothedPositions`: at every iteration of
the resampling loop the interpolation denominator `table[k+1] - table[k]` at the cursor is
non-zero, and the Gaussian normalization denominator of every sample is non-zero (the
weights being non-negative and the weight of a sample with itself positive). -/
theorem no_zero_denominator_of_increasing_table (toFloat : α → α) (N : Numerics α)
    (hfl : ∀ x : α, 0 ≤ x → 0 ≤ toFloat x) (hexp : ∀ x : α, 0 ≤ N.exp x)
    (hone : 0 < toFloat (N.exp 0)) (path : List (Vec3 α)) (h2 : 2 ≤ path.length)
    (hinc : ∀ k : Nat, k + 1 < path.length →
      (computeAccumulatedDistancesF toFloat N path).getD k 0
        < (computeAccumulatedDistancesF toFloat N path).getD (k + 1) 0) :
    0 < (computeAccumulatedDistancesF toFloat N path).getLastD 0
    ∧ (∀ fuel : Nat, ∀ s ∈ resampleStepsF toFloat (computeAccumulatedDistancesF toFloat N path)
          fuel 0 0,
        (computeAccumulatedDistancesF toFloat N path).getD (s.2 + 1) 0
          - (computeAccumulatedDistancesF toFloat N path).getD s.2 0 ≠ 0)
    ∧ (∀ (samples : List α) (i : Nat), i < samples.length →
        gaussianDenominatorF toFloat N samples i ≠ 0) := by
  have hlen := computeAccumulatedDistancesF_length toFloat N path
  refine ⟨?_, ?_, ?_⟩
  · have hmono : ∀ n : Nat, n + 1 ≤ path.length →
        0 ≤ (computeAccumulatedDistancesF toFloat N path).getD n 0 := by
      intro n
      induction n with
      | zero =>
        intro _
        cases path with
        | nil => simp at h2
        | cons p ps => simp [computeAccumulatedDistancesF]
      | succ n ih =>
        intro hn
        exact le_trans (ih (by omega)) (hinc n hn).le
    rw [getLastD_eq_getD_pred, hlen]
    obtain ⟨m, hm⟩ : ∃ m, path.length = m + 2 := ⟨_, (Nat.sub_add_cancel h2).symm⟩
    have h1 : path.length - 1 = m + 1 := by omega
    rw [h1]
    exact lt_of_le_of_lt (hmono m (by omega)) (hinc m (by omega))
  · intro fuel s hs
    have hr := resampleStepsF_in_range toFloat (computeAccumulatedDistancesF toFloat N path)
      fuel 0 0 (by rw [hlen]; omega) s hs
    rw [hlen] at hr
    exact (sub_pos.mpr (hinc s.2 hr)).ne'
  · intro samples i hi
    exact (gaussianDenominatorF_pos toFloat N hfl hexp hone samples i hi).ne'

theorem three_point_table :
    computeAccumulatedDistancesF roundFloat32 (⟨Real.sqrt, Real.exp, fun _ _ => ⟨1, 0, 0, 0⟩⟩ : Numerics ℝ) [⟨0, 0, 0⟩, ⟨1, 0, 0⟩, ⟨1, 2, 0⟩]
      = [0, 1, 3] := by
  simp only [computeAccumulatedDistancesF, accumulateDistancesF, norm_along_x, norm_along_y]
  norm_num [roundFloat32_one, roundFloat32_three]

/-- C17 (witness): the path `(0,0,0), (1,0,0), (1,2,0)` over the reals with the binary32
conversion; its stored table is `0, 1, 3`. -/
theorem no_zero_denominator_of_increasing_table_witness :
    0 < (computeAccumulatedDistancesF roundFloat32 (⟨Real.sqrt, Real.exp, fun _ _ => ⟨1, 0, 0, 0⟩⟩ : Numerics ℝ)
        [⟨0, 0, 0⟩, ⟨1, 0, 0⟩, ⟨1, 2, 0⟩]).getLastD 0
    ∧ (∀ (samples : List ℝ) (i : Nat), i < samples.length →
        gaussianDenominatorF roundFloat32 (⟨Real.sqrt, Real.exp, fun _ _ => ⟨1, 0, 0, 0⟩⟩ : Numerics ℝ) samples i ≠ 0) :=
  ⟨(no_zero_denominator_of_increasing_table roundFloat32 (⟨Real.sqrt, Real.exp, fun _ _ => ⟨1, 0, 0, 0⟩⟩ : Numerics ℝ)
      (fun x hx => roundFloat32_nonneg x hx) (fun x => (Real.exp_pos x).le)
      (by
        show 0 < roundFloat32 (Real.exp 0)
        rw [Real.exp_zero, roundFloat32_one]
        norm_num)
      [⟨0, 0, 0⟩, ⟨1, 0, 0⟩, ⟨1, 2, 0⟩] (by simp)
      (by
        intro k hk
        rw [three_point_table]
        have hk2 : k < 2 := by
          simp only [List.length_cons, List.length_nil] at hk
          omega
        interval_cases k <;> norm_num)).1,
    (no_zero_denominator_of_increasing_table roundFloat32 (⟨Real.sqrt, Real.exp, fun _ _ => ⟨1, 0, 0, 0⟩⟩ : Numerics ℝ)
      (fun x hx => roundFloat32_nonneg x hx) (fun x => (Real.exp_pos x).le)
      (by
        show 0 < roundFloat32 (Real.exp 0)
        rw [Real.exp_zero, roundFloat32_one]
        norm_num)
      [⟨0, 0, 0⟩, ⟨1, 0, 0⟩, ⟨1, 2, 0⟩] (by simp)
      (by
        intro k hk
        rw [three_point_table]
        have hk2 : k < 2 := by
          simp only [List.length_cons, List.length_nil] at hk
          omega
        interval_cases k <;> norm_num)).2.2⟩

/-! ## Theorems: resampled times with a `float` loop variable -/

/-- The number of iterations of the loop is the first `n` whose iterate is not below the
total distance, whenever `fuel` exceeds it. -/
theorem resampleStepsF_length_eq (toFloat : α → α) (distances : List α) :
    ∀ (n fuel : Nat) (d : α) (k : Nat), n < fuel →
      (∀ j : Nat, j < n →
        (fun t => toFloat (t + SMOOTHED_PATH_DISCRETIZATION))^[j] d < distances.getLastD 0) →
      ¬ (fun t => toFloat (t + SMOOTHED_PATH_DISCRETIZATION))^[n] d < distances.getLastD 0 →
      (resampleStepsF toFloat distances fuel d k).length = n := by
  intro n
  induction n with
  | zero =>
    intro fuel d k _ _ hn
    have hn2 : ¬ d < distances.getLastD 0 := hn
    rw [resampleStepsF_of_not_lt _ _ _ _ _ hn2]
    rfl
  | succ n ih =>
    intro fuel d k hfuel hlt hn
    obtain ⟨fuel, rfl⟩ : ∃ f, fuel = f + 1 := ⟨fuel - 1, by omega⟩
    have h0 : d < distances.getLastD 0 := hlt 0 (Nat.succ_pos n)
    rw [resampleStepsF_of_lt _ _ _ _ _ h0, List.length_cons]
    congr 1
    apply ih _ _ _ (by omega)
    · intro j hj
      have h := hlt (j + 1) (by omega)
      rwa [Function.iterate_succ_apply] at h
    · rwa [Function.iterate_succ_apply] at hn

theorem resampledSamplesF_eq (toFloat : α → α) (distances : List α) (positions : List (Vec3 α))
    (n fuel : Nat) (hfuel : n < fuel)
    (hlt : ∀ j : Nat, j < n →
      (fun t => toFloat (t + SMOOTHED_PATH_DISCRETIZATION))^[j] 0 < distances.getLastD 0)
    (hn : ¬ (fun t => toFloat (t + SMOOTHED_PATH_DISCRETIZATION))^[n] 0
      < distances.getLastD 0) :
    resampledSamplesF toFloat distances positions fuel
      = some ((List.range n).map
            (fun j => (fun t => toFloat (t + SMOOTHED_PATH_DISCRETIZATION))^[j] 0)
          ++ [distances.getLastD 0]) := by
  have hlen := resampleStepsF_length_eq toFloat distances n fuel 0 0 hfuel hlt hn
  have htimes := resampleStepsF_times toFloat distances fuel 0 0
  rw [hlen] at htimes
  rw [resampledSamplesF, resampleLoopF, hlen, if_pos hfuel, Option.map_some', List.map_map]
  have hcomp : (Prod.fst ∘ fun s : α × Nat => (s.1, interpolate distances positions s.2 s.1))
      = Prod.fst := rfl
  rw [hcomp, htimes]

theorem computeSmoothedPositionsF_eq (toFloat : α → α) (N : Numerics α) (distances : List α)
    (positions : List (Vec3 α)) (n fuel : Nat) (hfuel : n < fuel)
    (hlt : ∀ j : Nat, j < n →
      (fun t => toFloat (t + SMOOTHED_PATH_DISCRETIZATION))^[j] 0 < distances.getLastD 0)
    (hn : ¬ (fun t => toFloat (t + SMOOTHED_PATH_DISCRETIZATION))^[n] 0
      < distances.getLastD 0) :
    computeSmoothedPositionsF toFloat N fuel distances positions
      = some ([positions.headD Vec3.zero]
          ++ (List.range' 1 (n - 1)).map (smoothedPointF toFloat N
              ((List.range n).map
                  (fun j => (fun t => toFloat (t + SMOOTHED_PATH_DISCRETIZATION))^[j] 0)
                ++ [distances.getLastD 0])
              ((resampleStepsF toFloat distances fuel 0 0).map
                  (fun s => interpolate distances positions s.2 s.1)
                ++ [positions.getLastD Vec3.zero]))
          ++ [positions.getLastD Vec3.zero]) := by
  have hlen := resampleStepsF_length_eq toFloat distances n fuel 0 0 hfuel hlt hn
  have htimes := resampleStepsF_times toFloat distances fuel 0 0
  rw [hlen] at htimes
  have hcomp : (Prod.fst ∘ fun s : α × Nat => (s.1, interpolate distances positions s.2 s.1))
      = Prod.fst := rfl
  have hcomp2 : (Prod.snd ∘ fun s : α × Nat => (s.1, interpolate distances positions s.2 s.1))
      = fun s : α × Nat => interpolate distances positions s.2 s.1 := rfl
  rw [computeSmoothedPositionsF, resampleLoopF, hlen, if_pos hfuel, Option.map_some']
  simp only [List.map_map, hcomp, hcomp2, htimes, List.length_append, List.length_map,
    List.length_range, List.length_singleton, Nat.add_sub_cancel]

theorem smoothF_lengths (toFloat : α → α) (N : Numerics α) (ps : Pathsmoother3D)
    (in_path : List (Vec3 α)) (in_start_orientation in_end_orientation : Quat α)
    (forbid_reverse_path : Bool) (n fuel : Nat) (hfuel : n < fuel)
    (hlt : ∀ j : Nat, j < n →
      (fun t => toFloat (t + SMOOTHED_PATH_DISCRETIZATION))^[j] 0
        < (computeAccumulatedDistancesF toFloat N in_path).getLastD 0)
    (hn : ¬ (fun t => toFloat (t + SMOOTHED_PATH_DISCRETIZATION))^[n] 0
      < (computeAccumulatedDistancesF toFloat N in_path).getLastD 0) :
    (smoothF toFloat N ps fuel in_path in_start_orientation in_end_orientation
        forbid_reverse_path).map (fun r => r.out_smooth_positions.length) = some (n - 1 + 2)
    ∧ (smoothF toFloat N ps fuel in_path in_start_orientation in_end_orientation
        forbid_reverse_path).map (fun r => r.out_smooth_orientations.length)
        = some (n - 1 + 2)
    ∧ (smoothF toFloat N ps fuel in_path in_start_orientation in_end_orientation
        forbid_reverse_path).map (fun r => r.out_smooth_positions.head?)
        = some (some (in_path.headD Vec3.zero))
    ∧ (smoothF toFloat N ps fuel in_path in_start_orientation in_end_orientation
        forbid_reverse_path).map (fun r => r.out_smooth_positions.getLast?)
        = some (some (in_path.getLastD Vec3.zero)) := by
  have hpos := computeSmoothedPositionsF_eq toFloat N
    (computeAccumulatedDistancesF toFloat N in_path) in_path n fuel hfuel hlt hn
  simp only [smoothF, hpos, Option.map_some', computeSmoothedOrientations_length]
  refine ⟨?_, ?_, ?_, ?_⟩
  · simp
  · simp
  · simp
  · simp only [List.getLast?_concat]

/-- C13 (amended): for every path with at least 2 points and positive stored total arc
length `L`, when every addition `d += S` of the `float` loop variable advances it by at least
`S / 2`: the resampled times are the successive values `0, toFloat (0 + S),
toFloat (toFloat (0 + S) + S), ...` of the loop variable, all those strictly below `L`
(`n ≥ 1` of them), followed by `L`; the first time is `0`, the last is `L`, the times are
strictly increasing; and with enough fuel `smooth` returns as many positions and as many
orientations as there are resampled times, `n + 1`. -/
theorem float_resampled_times_and_cardinality [FloorRing α] (toFloat : α → α)
    (N : Numerics α) (ps : Pathsmoother3D) (in_path : List (Vec3 α))
    (in_start_orientation in_end_orientation : Quat α) (forbid_reverse_path : Bool)
    (_h2 : 2 ≤ in_path.length)
    (hL : 0 < (computeAccumulatedDistancesF toFloat N in_path).getLastD 0)
    (hprog : ∀ d : α, 0 ≤ d → d < (computeAccumulatedDistancesF toFloat N in_path).getLastD 0 →
      d + SMOOTHED_PATH_DISCRETIZATION / 2 ≤ toFloat (d + SMOOTHED_PATH_DISCRETIZATION)) :
    ∃ n fuel0 : Nat, 0 < n
      ∧ (∀ j : Nat, j < n → (fun t => toFloat (t + SMOOTHED_PATH_DISCRETIZATION))^[j] 0
          < (computeAccumulatedDistancesF toFloat N in_path).getLastD 0)
      ∧ ¬ (fun t => toFloat (t + SMOOTHED_PATH_DISCRETIZATION))^[n] 0
          < (computeAccumulatedDistancesF toFloat N in_path).getLastD 0
      ∧ ((List.range n).map (fun j => (fun t => toFloat (t + SMOOTHED_PATH_DISCRETIZATION))^[j] 0)
          ++ [(computeAccumulatedDistancesF toFloat N in_path).getLastD 0]).head? = some 0
      ∧ ((List.range n).map (fun j => (fun t => toFloat (t + SMOOTHED_PATH_DISCRETIZATION))^[j] 0)
          ++ [(computeAccumulatedDistancesF toFloat N in_path).getLastD 0]).getLast?
          = some ((computeAccumulatedDistancesF toFloat N in_path).getLastD 0)
      ∧ List.Pairwise (fun a b => a < b)
          ((List.range n).map (fun j => (fun t => toFloat (t + SMOOTHED_PATH_DISCRETIZATION))^[j] 0)
            ++ [(computeAccumulatedDistancesF toFloat N in_path).getLastD 0])
      ∧ ∀ fuel : Nat, fuel0 ≤ fuel →
          resampledSamplesF toFloat (computeAccumulatedDistancesF toFloat N in_path) in_path fuel
            = some ((List.range n).map
                  (fun j => (fun t => toFloat (t + SMOOTHED_PATH_DISCRETIZATION))^[j] 0)
                ++ [(computeAccumulatedDistancesF toFloat N in_path).getLastD 0])
          ∧ (smoothF toFloat N ps fuel in_path in_start_orientation in_end_orientation
              forbid_reverse_path).map (fun r => r.out_smooth_positions.length) = some (n + 1)
          ∧ (smoothF toFloat N ps fuel in_path in_start_orientation in_end_orientation
              forbid_reverse_path).map (fun r => r.out_smooth_orientations.length)
              = some (n + 1) := by
  have hS : (0 : α) < SMOOTHED_PATH_DISCRETIZATION := discretization_pos
  have hδ : (0 : α) < SMOOTHED_PATH_DISCRETIZATION / 2 := half_pos hS
  generalize hdist : computeAccumulatedDistancesF toFloat N in_path = distances at hL hprog ⊢
  -- a bound on the number of iterations
  have hcover : distances.getLastD 0 - 0
      ≤ (⌈distances.getLastD 0 / (SMOOTHED_PATH_DISCRETIZATION / 2)⌉₊ : α)
        * (SMOOTHED_PATH_DISCRETIZATION / 2) := by
    rw [sub_zero, ← div_le_iff₀ hδ]
    exact Nat.le_ceil _
  have hterm := resampleStepsF_terminates toFloat distances (SMOOTHED_PATH_DISCRETIZATION / 2)
    hprog ⌈distances.getLastD 0 / (SMOOTHED_PATH_DISCRETIZATION / 2)⌉₊
    (⌈distances.getLastD 0 / (SMOOTHED_PATH_DISCRETIZATION / 2)⌉₊ + 1) 0 0 le_rfl hδ.le hcover
  obtain ⟨hlt, hstop⟩ := resampleStepsF_bound toFloat distances
    (⌈distances.getLastD 0 / (SMOOTHED_PATH_DISCRETIZATION / 2)⌉₊ + 1) 0 0
  have hinc := resampleStepsF_increasing toFloat distances
    (fun d hd hdl => lt_of_lt_of_le (by linarith) (hprog d hd hdl))
    (⌈distances.getLastD 0 / (SMOOTHED_PATH_DISCRETIZATION / 2)⌉₊ + 1) 0 0 le_rfl
  have htimes := resampleStepsF_times toFloat distances
    (⌈distances.getLastD 0 / (SMOOTHED_PATH_DISCRETIZATION / 2)⌉₊ + 1) 0 0
  generalize hn : (resampleStepsF toFloat distances
    (⌈distances.getLastD 0 / (SMOOTHED_PATH_DISCRETIZATION / 2)⌉₊ + 1) 0 0).length = n
    at hterm hlt hstop htimes
  have hstop2 := hstop (by omega)
  have hnpos : 0 < n := by
    rcases Nat.eq_zero_or_pos n with h0 | h0
    · rw [h0] at hstop2
      exact absurd hL hstop2
    · exact h0
  refine ⟨n, ⌈distances.getLastD 0 / (SMOOTHED_PATH_DISCRETIZATION / 2)⌉₊ + 1, hnpos, hlt,
    hstop2, ?_, ?_, ?_, ?_⟩
  · obtain ⟨m, rfl⟩ : ∃ m, n = m + 1 := ⟨n - 1, by omega⟩
    rw [List.range_succ_eq_map]
    rfl
  · rw [List.getLast?_concat]
  · rw [List.pairwise_append]
    refine ⟨?_, List.pairwise_singleton _ _, ?_⟩
    · rw [← htimes]
      exact hinc.1
    · intro a ha b hb
      rw [List.mem_singleton] at hb
      rw [List.mem_map] at ha
      obtain ⟨j, hj, rfl⟩ := ha
      rw [hb]
      exact hlt j (List.mem_range.mp hj)
  · intro fuel hfuel
    have hnf : n < fuel := by omega
    have hlen := smoothF_lengths toFloat N ps in_path in_start_orientation in_end_orientation
      forbid_reverse_path n fuel hnf (by rw [hdist]; exact hlt) (by rw [hdist]; exact hstop2)
    have hn1 : n - 1 + 2 = n + 1 := by omega
    rw [hn1] at hlen
    exact ⟨resampledSamplesF_eq toFloat distances in_path n fuel hnf hlt hstop2,
      hlen.1, hlen.2.1⟩

/-! ## Theorems: the binary32 loop variable on concrete paths -/

/-- The first 41 values after `0` of the `float` loop variable of the resampling loop: each is
the binary32 conversion of its predecessor plus `SMOOTHED_PATH_DISCRETIZATION`. -/
theorem float_accumulation_iterates :
    (fun t : ℝ => roundFloat32 (t + SMOOTHED_PATH_DISCRETIZATION))^[1] 0 = 13421773 / 268435456
    ∧ (fun t : ℝ => roundFloat32 (t + SMOOTHED_PATH_DISCRETIZATION))^[2] 0 = 13421773 / 134217728
    ∧ (fun t : ℝ => roundFloat32 (t + SMOOTHED_PATH_DISCRETIZATION))^[3] 0 = 5033165 / 33554432
    ∧ (fun t : ℝ => roundFloat32 (t + SMOOTHED_PATH_DISCRETIZATION))^[4] 0 = 13421773 / 67108864
    ∧ (fun t : ℝ => roundFloat32 (t + SMOOTHED_PATH_DISCRETIZATION))^[5] 0 = 1 / 4
    ∧ (fun t : ℝ => roundFloat32 (t + SMOOTHED_PATH_DISCRETIZATION))^[6] 0 = 5033165 / 16777216
    ∧ (fun t : ℝ => roundFloat32 (t + SMOOTHED_PATH_DISCRETIZATION))^[7] 0 = 2936013 / 8388608
    ∧ (fun t : ℝ => roundFloat32 (t + SMOOTHED_PATH_DISCRETIZATION))^[8] 0 = 6710887 / 16777216
    ∧ (fun t : ℝ => roundFloat32 (t + SMOOTHED_PATH_DISCRETIZATION))^[9] 0 = 1887437 / 4194304
    ∧ (fun t : ℝ => roundFloat32 (t + SMOOTHED_PATH_DISCRETIZATION))^[10] 0 = 8388609 / 16777216
    ∧ (fun t : ℝ => roundFloat32 (t + SMOOTHED_PATH_DISCRETIZATION))^[11] 0 = 4613735 / 8388608
    ∧ (fun t : ℝ => roundFloat32 (t + SMOOTHED_PATH_DISCRETIZATION))^[12] 0 = 10066331 / 16777216
    ∧ (fun t : ℝ => roundFloat32 (t + SMOOTHED_PATH_DISCRETIZATION))^[13] 0 = 1363149 / 2097152
    ∧ (fun t : ℝ => roundFloat32 (t + SMOOTHED_PATH_DISCRETIZATION))^[14] 0 = 11744053 / 16777216
    ∧ (fun t : ℝ => roundFloat32 (t + SMOOTHED_PATH_DISCRETIZATION))^[15] 0 = 6291457 / 8388608
    ∧ (fun t : ℝ => roundFloat32 (t + SMOOTHED_PATH_DISCRETIZATION))^[16] 0 = 13421775 / 16777216
    ∧ (fun t : ℝ => roundFloat32 (t + SMOOTHED_PATH_DISCRETIZATION))^[17] 0 = 3565159 / 4194304
    ∧ (fun t : ℝ => roundFloat32 (t + SMOOTHED_PATH_DISCRETIZATION))^[18] 0 = 15099497 / 16777216
    ∧ (fun t : ℝ => roundFloat32 (t + SMOOTHED_PATH_DISCRETIZATION))^[19] 0 = 7969179 / 8388608
    ∧ (fun t : ℝ => roundFloat32 (t + SMOOTHED_PATH_DISCRETIZATION))^[20] 0 = 8388609 / 8388608
    ∧ (fun t : ℝ => roundFloat32 (t + SMOOTHED_PATH_DISCRETIZATION))^[21] 0 = 8808039 / 8388608
    ∧ (fun t : ℝ => roundFloat32 (t + SMOOTHED_PATH_DISCRETIZATION))^[22] 0 = 9227469 / 8388608
    ∧ (fun t : ℝ => roundFloat32 (t + SMOOTHED_PATH_DISCRETIZATION))^[23] 0 = 9646899 / 8388608
    ∧ (fun t : ℝ => roundFloat32 (t + SMOOTHED_PATH_DISCRETIZATION))^[24] 0 = 10066329 / 8388608
    ∧ (fun t : ℝ => roundFloat32 (t + SMOOTHED_PATH_DISCRETIZATION))^[25] 0 = 10485759 / 8388608
    ∧ (fun t : ℝ => roundFloat32 (t + SMOOTHED_PATH_DISCRETIZATION))^[26] 0 = 10905189 / 8388608
    ∧ (fun t : ℝ => roundFloat32 (t + SMOOTHED_PATH_DISCRETIZATION))^[27] 0 = 11324619 / 8388608
    ∧ (fun t : ℝ => roundFloat32 (t + SMOOTHED_PATH_DISCRETIZATION))^[28] 0 = 11744049 / 8388608
    ∧ (fun t : ℝ => roundFloat32 (t + SMOOTHED_PATH_DISCRETIZATION))^[29] 0 = 12163479 / 8388608
    ∧ (fun t : ℝ => roundFloat32 (t + SMOOTHED_PATH_DISCRETIZATION))^[30] 0 = 12582909 / 8388608
    ∧ (fun t : ℝ => roundFloat32 (t + SMOOTHED_PATH_DISCRETIZATION))^[31] 0 = 13002339 / 8388608
    ∧ (fun t : ℝ => roundFloat32 (t + SMOOTHED_PATH_DISCRETIZATION))^[32] 0 = 13421769 / 8388608
    ∧ (fun t : ℝ => roundFloat32 (t + SMOOTHED_PATH_DISCRETIZATION))^[33] 0 = 13841199 / 8388608
    ∧ (fun t : ℝ => roundFloat32 (t + SMOOTHED_PATH_DISCRETIZATION))^[34] 0 = 14260629 / 8388608
    ∧ (fun t : ℝ => roundFloat32 (t + SMOOTHED_PATH_DISCRETIZATION))^[35] 0 = 14680059 / 8388608
    ∧ (fun t : ℝ => roundFloat32 (t + SMOOTHED_PATH_DISCRETIZATION))^[36] 0 = 15099489 / 8388608
    ∧ (fun t : ℝ => roundFloat32 (t + SMOOTHED_PATH_DISCRETIZATION))^[37] 0 = 15518919 / 8388608
    ∧ (fun t : ℝ => roundFloat32 (t + SMOOTHED_PATH_DISCRETIZATION))^[38] 0 = 15938349 / 8388608
    ∧ (fun t : ℝ => roundFloat32 (t + SMOOTHED_PATH_DISCRETIZATION))^[39] 0 = 16357779 / 8388608
    ∧ (fun t : ℝ => roundFloat32 (t + SMOOTHED_PATH_DISCRETIZATION))^[40] 0 = 16777209 / 8388608
    ∧ (fun t : ℝ => roundFloat32 (t + SMOOTHED_PATH_DISCRETIZATION))^[41] 0 = 537395 / 262144 := by
  have h0 : (fun t : ℝ => roundFloat32 (t + SMOOTHED_PATH_DISCRETIZATION))^[0] 0 = 0 := rfl
  have h1 : (fun t : ℝ => roundFloat32 (t + SMOOTHED_PATH_DISCRETIZATION))^[1] 0 = 13421773 / 268435456 := by
    rw [Function.iterate_succ_apply', h0]
    show roundFloat32 (0 + SMOOTHED_PATH_DISCRETIZATION) = 13421773 / 268435456
    rw [roundFloat32_eq _ (-5) 13421773 (by norm_num) (by norm_num [SMOOTHED_PATH_DISCRETIZATION])
      (by norm_num [SMOOTHED_PATH_DISCRETIZATION]) (by norm_num [SMOOTHED_PATH_DISCRETIZATION])
      (by norm_num [SMOOTHED_PATH_DISCRETIZATION])]
    norm_num
  have h2 : (fun t : ℝ => roundFloat32 (t + SMOOTHED_PATH_DISCRETIZATION))^[2] 0 = 13421773 / 134217728 := by
    rw [Function.iterate_succ_apply', h1]
    show roundFloat32 (13421773 / 268435456 + SMOOTHED_PATH_DISCRETIZATION) = 13421773 / 134217728
    rw [roundFloat32_eq _ (-4) 13421773 (by norm_num) (by norm_num [SMOOTHED_PATH_DISCRETIZATION])
      (by norm_num [SMOOTHED_PATH_DISCRETIZATION]) (by norm_num [SMOOTHED_PATH_DISCRETIZATION])
      (by norm_num [SMOOTHED_PATH_DISCRETIZATION])]
    norm_num
  have h3 : (fun t : ℝ => roundFloat32 (t + SMOOTHED_PATH_DISCRETIZATION))^[3] 0 = 5033165 / 33554432 := by
    rw [Function.iterate_succ_apply', h2]
    show roundFloat32 (13421773 / 134217728 + SMOOTHED_PATH_DISCRETIZATION) = 5033165 / 33554432
    rw [roundFloat32_eq _ (-3) 10066330 (by norm_num) (by norm_num [SMOOTHED_PATH_DISCRETIZATION])
      (by norm_num [SMOOTHED_PATH_DISCRETIZATION]) (by norm_num [SMOOTHED_PATH_DISCRETIZATION])
      (by norm_num [SMOOTHED_PATH_DISCRETIZATION])]
    norm_num
  have h4 : (fun t : ℝ => roundFloat32 (t + SMOOTHED_PATH_DISCRETIZATION))^[4] 0 = 13421773 / 67108864 := by
    rw [Function.iterate_succ_apply', h3]
    show roundFloat32 (5033165 / 33554432 + SMOOTHED_PATH_DISCRETIZATION) = 13421773 / 67108864
    rw [roundFloat32_eq _ (-3) 13421773 (by norm_num) (by norm_num [SMOOTHED_PATH_DISCRETIZATION])
      (by norm_num [SMOOTHED_PATH_DISCRETIZATION]) (by norm_num [SMOOTHED_PATH_DISCRETIZATION])
      (by norm_num [SMOOTHED_PATH_DISCRETIZATION])]
    norm_num
  have h5 : (fun t : ℝ => roundFloat32 (t + SMOOTHED_PATH_DISCRETIZATION))^[5] 0 = 1 / 4 := by
    rw [Function.iterate_succ_apply', h4]
    show roundFloat32 (13421773 / 67108864 + SMOOTHED_PATH_DISCRETIZATION) = 1 / 4
    rw [roundFloat32_eq _ (-2) 8388608 (by norm_num) (by norm_num [SMOOTHED_PATH_DISCRETIZATION])
      (by norm_num [SMOOTHED_PATH_DISCRETIZATION]) (by norm_num [SMOOTHED_PATH_DISCRETIZATION])
      (by norm_num [SMOOTHED_PATH_DISCRETIZATION])]
    norm_num
  have h6 : (fun t : ℝ => roundFloat32 (t + SMOOTHED_PATH_DISCRETIZATION))^[6] 0 = 5033165 / 16777216 := by
    rw [Function.iterate_succ_apply', h5]
    show roundFloat32 (1 / 4 + SMOOTHED_PATH_DISCRETIZATION) = 5033165 / 16777216
    rw [roundFloat32_eq _ (-2) 10066330 (by norm_num) (by norm_num [SMOOTHED_PATH_DISCRETIZATION])
      (by norm_num [SMOOTHED_PATH_DISCRETIZATION]) (by norm_num [SMOOTHED_PATH_DISCRETIZATION])
      (by norm_num [SMOOTHED_PATH_DISCRETIZATION])]
    norm_num
  have h7 : (fun t : ℝ => roundFloat32 (t + SMOOTHED_PATH_DISCRETIZATION))^[7] 0 = 2936013 / 8388608 := by
    rw [Function.iterate_succ_apply', h6]
    show roundFloat32 (5033165 / 16777216 + SMOOTHED_PATH_DISCRETIZATION) = 2936013 / 8388608
    rw [roundFloat32_eq _ (-2) 11744052 (by norm_num) (by norm_num [SMOOTHED_PATH_DISCRETIZATION])
      (by norm_num [SMOOTHED_PATH_DISCRETIZATION]) (by norm_num [SMOOTHED_PATH_DISCRETIZATION])
      (by norm_num [SMOOTHED_PATH_DISCRETIZATION])]
    norm_num
  have h8 : (fun t : ℝ => roundFloat32 (t + SMOOTHED_PATH_DISCRETIZATION))^[8] 0 = 6710887 / 16777216 := by
    rw [Function.iterate_succ_apply', h7]
    show roundFloat32 (2936013 / 8388608 + SMOOTHED_PATH_DISCRETIZATION) = 6710887 / 16777216
    rw [roundFloat32_eq _ (-2) 13421774 (by norm_num) (by norm_num [SMOOTHED_PATH_DISCRETIZATION])
      (by norm_num [SMOOTHED_PATH_DISCRETIZATION]) (by norm_num [SMOOTHED_PATH_DISCRETIZATION])
      (by norm_num [SMOOTHED_PATH_DISCRETIZATION])]
    norm_num
  have h9 : (fun t : ℝ => roundFloat32 (t + SMOOTHED_PATH_DISCRETIZATION))^[9] 0 = 1887437 / 4194304 := by
    rw [Function.iterate_succ_apply', h8]
    show roundFloat32 (6710887 / 16777216 + SMOOTHED_PATH_DISCRETIZATION) = 1887437 / 4194304
    rw [roundFloat32_eq _ (-2) 15099496 (by norm_num) (by norm_num [SMOOTHED_PATH_DISCRETIZATION])
      (by norm_num [SMOOTHED_PATH_DISCRETIZATION]) (by norm_num [SMOOTHED_PATH_DISCRETIZATION])
      (by norm_num [SMOOTHED_PATH_DISCRETIZATION])]
    norm_num
  have h10 : (fun t : ℝ => roundFloat32 (t + SMOOTHED_PATH_DISCRETIZATION))^[10] 0 = 8388609 / 16777216 := by
    rw [Function.iterate_succ_apply', h9]
    show roundFloat32 (1887437 / 4194304 + SMOOTHED_PATH_DISCRETIZATION) = 8388609 / 16777216
    rw [roundFloat32_eq _ (-1) 8388609 (by norm_num) (by norm_num [SMOOTHED_PATH_DISCRETIZATION])
      (by norm_num [SMOOTHED_PATH_DISCRETIZATION]) (by norm_num [SMOOTHED_PATH_DISCRETIZATION])
      (by norm_num [SMOOTHED_PATH_DISCRETIZATION])]
    norm_num
  have h11 : (fun t : ℝ => roundFloat32 (t + SMOOTHED_PATH_DISCRETIZATION))^[11] 0 = 4613735 / 8388608 := by
    rw [Function.iterate_succ_apply', h10]
    show roundFloat32 (8388609 / 16777216 + SMOOTHED_PATH_DISCRETIZATION) = 4613735 / 8388608
    rw [roundFloat32_eq _ (-1) 9227470 (by norm_num) (by norm_num [SMOOTHED_PATH_DISCRETIZATION])
      (by norm_num [SMOOTHED_PATH_DISCRETIZATION]) (by norm_num [SMOOTHED_PATH_DISCRETIZATION])
      (by norm_num [SMOOTHED_PATH_DISCRETIZATION])]
    norm_num
  have h12 : (fun t : ℝ => roundFloat32 (t + SMOOTHED_PATH_DISCRETIZATION))^[12] 0 = 10066331 / 16777216 := by
    rw [Function.iterate_succ_apply', h11]
    show roundFloat32 (4613735 / 8388608 + SMOOTHED_PATH_DISCRETIZATION) = 10066331 / 16777216
    rw [roundFloat32_eq _ (-1) 10066331 (by norm_num) (by norm_num [SMOOTHED_PATH_DISCRETIZATION])
      (by norm_num [SMOOTHED_PATH_DISCRETIZATION]) (by norm_num [SMOOTHED_PATH_DISCRETIZATION])
      (by norm_num [SMOOTHED_PATH_DISCRETIZATION])]
    norm_num
  have h13 : (fun t : ℝ => roundFloat32 (t + SMOOTHED_PATH_DISCRETIZATION))^[13] 0 = 1363149 / 2097152 := by
    rw [Function.iterate_succ_apply', h12]
    show roundFloat32 (10066331 / 16777216 + SMOOTHED_PATH_DISCRETIZATION) = 1363149 / 2097152
    rw [roundFloat32_eq _ (-1) 10905192 (by norm_num) (by norm_num [SMOOTHED_PATH_DISCRETIZATION])
      (by norm_num [SMOOTHED_PATH_DISCRETIZATION]) (by norm_num [SMOOTHED_PATH_DISCRETIZATION])
      (by norm_num [SMOOTHED_PATH_DISCRETIZATION])]
    norm_num
  have h14 : (fun t : ℝ => roundFloat32 (t + SMOOTHED_PATH_DISCRETIZATION))^[14] 0 = 11744053 / 16777216 := by
    rw [Function.iterate_succ_apply', h13]
    show roundFloat32 (1363149 / 2097152 + SMOOTHED_PATH_DISCRETIZATION) = 11744053 / 16777216
    rw [roundFloat32_eq _ (-1) 11744053 (by norm_num) (by norm_num [SMOOTHED_PATH_DISCRETIZATION])
      (by norm_num [SMOOTHED_PATH_DISCRETIZATION]) (by norm_num [SMOOTHED_PATH_DISCRETIZATION])
      (by norm_num [SMOOTHED_PATH_DISCRETIZATION])]
    norm_num
  have h15 : (fun t : ℝ => roundFloat32 (t + SMOOTHED_PATH_DISCRETIZATION))^[15] 0 = 6291457 / 8388608 := by
    rw [Function.iterate_succ_apply', h14]
    show roundFloat32 (11744053 / 16777216 + SMOOTHED_PATH_DISCRETIZATION) = 6291457 / 8388608
    rw [roundFloat32_eq _ (-1) 12582914 (by norm_num) (by norm_num [SMOOTHED_PATH_DISCRETIZATION])
      (by norm_num [SMOOTHED_PATH_DISCRETIZATION]) (by norm_num [SMOOTHED_PATH_DISCRETIZATION])
      (by norm_num [SMOOTHED_PATH_DISCRETIZATION])]
    norm_num
  have h16 : (fun t : ℝ => roundFloat32 (t + SMOOTHED_PATH_DISCRETIZATION))^[16] 0 = 13421775 / 16777216 := by
    rw [Function.iterate_succ_apply', h15]
    show roundFloat32 (6291457 / 8388608 + SMOOTHED_PATH_DISCRETIZATION) = 13421775 / 16777216
    rw [roundFloat32_eq _ (-1) 13421775 (by norm_num) (by norm_num [SMOOTHED_PATH_DISCRETIZATION])
      (by norm_num [SMOOTHED_PATH_DISCRETIZATION]) (by norm_num [SMOOTHED_PATH_DISCRETIZATION])
      (by norm_num [SMOOTHED_PATH_DISCRETIZATION])]
    norm_num
  have h17 : (fun t : ℝ => roundFloat32 (t + SMOOTHED_PATH_DISCRETIZATION))^[17] 0 = 3565159 / 4194304 := by
    rw [Function.iterate_succ_apply', h16]
    show roundFloat32 (13421775 / 16777216 + SMOOTHED_PATH_DISCRETIZATION) = 3565159 / 4194304
    rw [roundFloat32_eq _ (-1) 14260636 (by norm_num) (by norm_num [SMOOTHED_PATH_DISCRETIZATION])
      (by norm_num [SMOOTHED_PATH_DISCRETIZATION]) (by norm_num [SMOOTHED_PATH_DISCRETIZATION])
      (by norm_num [SMOOTHED_PATH_DISCRETIZATION])]
    norm_num
  have h18 : (fun t : ℝ => roundFloat32 (t + SMOOTHED_PATH_DISCRETIZATION))^[18] 0 = 15099497 / 16777216 := by
    rw [Function.iterate_succ_apply', h17]
    show roundFloat32 (3565159 / 4194304 + SMOOTHED_PATH_DISCRETIZATION) = 15099497 / 16777216
    rw [roundFloat32_eq _ (-1) 15099497 (by norm_num) (by norm_num [SMOOTHED_PATH_DISCRETIZATION])
      (by norm_num [SMOOTHED_PATH_DISCRETIZATION]) (by norm_num [SMOOTHED_PATH_DISCRETIZATION])
      (by norm_num [SMOOTHED_PATH_DISCRETIZATION])]
    norm_num
  have h19 : (fun t : ℝ => roundFloat32 (t + SMOOTHED_PATH_DISCRETIZATION))^[19] 0 = 7969179 / 8388608 := by
    rw [Function.iterate_succ_apply', h18]
    show roundFloat32 (15099497 / 16777216 + SMOOTHED_PATH_DISCRETIZATION) = 7969179 / 8388608
    rw [roundFloat32_eq _ (-1) 15938358 (by norm_num) (by norm_num [SMOOTHED_PATH_DISCRETIZATION])
      (by norm_num [SMOOTHED_PATH_DISCRETIZATION]) (by norm_num [SMOOTHED_PATH_DISCRETIZATION])
      (by norm_num [SMOOTHED_PATH_DISCRETIZATION])]
    norm_num
  have h20 : (fun t : ℝ => roundFloat32 (t + SMOOTHED_PATH_DISCRETIZATION))^[20] 0 = 8388609 / 8388608 := by
    rw [Function.iterate_succ_apply', h19]
    show roundFloat32 (7969179 / 8388608 + SMOOTHED_PATH_DISCRETIZATION) = 8388609 / 8388608
    rw [roundFloat32_eq _ (0) 8388609 (by norm_num) (by norm_num [SMOOTHED_PATH_DISCRETIZATION])
      (by norm_num [SMOOTHED_PATH_DISCRETIZATION]) (by norm_num [SMOOTHED_PATH_DISCRETIZATION])
      (by norm_num [SMOOTHED_PATH_DISCRETIZATION])]
    norm_num
  have h21 : (fun t : ℝ => roundFloat32 (t + SMOOTHED_PATH_DISCRETIZATION))^[21] 0 = 8808039 / 8388608 := by
    rw [Function.iterate_succ_apply', h20]
    show roundFloat32 (8388609 / 8388608 + SMOOTHED_PATH_DISCRETIZATION) = 8808039 / 8388608
    rw [roundFloat32_eq _ (0) 8808039 (by norm_num) (by norm_num [SMOOTHED_PATH_DISCRETIZATION])
      (by norm_num [SMOOTHED_PATH_DISCRETIZATION]) (by norm_num [SMOOTHED_PATH_DISCRETIZATION])
      (by norm_num [SMOOTHED_PATH_DISCRETIZATION])]
    norm_num
  have h22 : (fun t : ℝ => roundFloat32 (t + SMOOTHED_PATH_DISCRETIZATION))^[22] 0 = 9227469 / 8388608 := by
    rw [Function.iterate_succ_apply', h21]
    show roundFloat32 (8808039 / 8388608 + SMOOTHED_PATH_DISCRETIZATION) = 9227469 / 8388608
    rw [roundFloat32_eq _ (0) 9227469 (by norm_num) (by norm_num [SMOOTHED_PATH_DISCRETIZATION])
      (by norm_num [SMOOTHED_PATH_DISCRETIZATION]) (by norm_num [SMOOTHED_PATH_DISCRETIZATION])
      (by norm_num [SMOOTHED_PATH_DISCRETIZATION])]
    norm_num
  have h23 : (fun t : ℝ => roundFloat32 (t + SMOOTHED_PATH_DISCRETIZATION))^[23] 0 = 9646899 / 8388608 := by
    rw [Function.iterate_succ_apply', h22]
    show roundFloat32 (9227469 / 8388608 + SMOOTHED_PATH_DISCRETIZATION) = 9646899 / 8388608
    rw [roundFloat32_eq _ (0) 9646899 (by norm_num) (by norm_num [SMOOTHED_PATH_DISCRETIZATION])
      (by norm_num [SMOOTHED_PATH_DISCRETIZATION]) (by norm_num [SMOOTHED_PATH_DISCRETIZATION])
      (by norm_num [SMOOTHED_PATH_DISCRETIZATION])]
    norm_num
  have h24 : (fun t : ℝ => roundFloat32 (t + SMOOTHED_PATH_DISCRETIZATION))^[24] 0 = 10066329 / 8388608 := by
    rw [Function.iterate_succ_apply', h23]
    show roundFloat32 (9646899 / 8388608 + SMOOTHED_PATH_DISCRETIZATION) = 10066329 / 8388608
    rw [roundFloat32_eq _ (0) 10066329 (by norm_num) (by norm_num [SMOOTHED_PATH_DISCRETIZATION])
      (by norm_num [SMOOTHED_PATH_DISCRETIZATION]) (by norm_num [SMOOTHED_PATH_DISCRETIZATION])
      (by norm_num [SMOOTHED_PATH_DISCRETIZATION])]
    norm_num
  have h25 : (fun t : ℝ => roundFloat32 (t + SMOOTHED_PATH_DISCRETIZATION))^[25] 0 = 10485759 / 8388608 := by
    rw [Function.iterate_succ_apply', h24]
    show roundFloat32 (10066329 / 8388608 + SMOOTHED_PATH_DISCRETIZATION) = 10485759 / 8388608
    rw [roundFloat32_eq _ (0) 10485759 (by norm_num) (by norm_num [SMOOTHED_PATH_DISCRETIZATION])
      (by norm_num [SMOOTHED_PATH_DISCRETIZATION]) (by norm_num [SMOOTHED_PATH_DISCRETIZATION])
      (by norm_num [SMOOTHED_PATH_DISCRETIZATION])]
    norm_num
  have h26 : (fun t : ℝ => roundFloat32 (t + SMOOTHED_PATH_DISCRETIZATION))^[26] 0 = 10905189 / 8388608 := by
    rw [Function.iterate_succ_apply', h25]
    show roundFloat32 (10485759 / 8388608 + SMOOTHED_PATH_DISCRETIZATION) = 10905189 / 8388608
    rw [roundFloat32_eq _ (0) 10905189 (by norm_num) (by norm_num [SMOOTHED_PATH_DISCRETIZATION])
      (by norm_num [SMOOTHED_PATH_DISCRETIZATION]) (by norm_num [SMOOTHED_PATH_DISCRETIZATION])
      (by norm_num [SMOOTHED_PATH_DISCRETIZATION])]
    norm_num
  have h27 : (fun t : ℝ => roundFloat32 (t + SMOOTHED_PATH_DISCRETIZATION))^[27] 0 = 11324619 / 8388608 := by
    rw [Function.iterate_succ_apply', h26]
    show roundFloat32 (10905189 / 8388608 + SMOOTHED_PATH_DISCRETIZATION) = 11324619 / 8388608
    rw [roundFloat32_eq _ (0) 11324619 (by norm_num) (by norm_num [SMOOTHED_PATH_DISCRETIZATION])
      (by norm_num [SMOOTHED_PATH_DISCRETIZATION]) (by norm_num [SMOOTHED_PATH_DISCRETIZATION])
      (by norm_num [SMOOTHED_PATH_DISCRETIZATION])]
    norm_num
  have h28 : (fun t : ℝ => roundFloat32 (t + SMOOTHED_PATH_DISCRETIZATION))^[28] 0 = 11744049 / 8388608 := by
    rw [Function.iterate_succ_apply', h27]
    show roundFloat32 (11324619 / 8388608 + SMOOTHED_PATH_DISCRETIZATION) = 11744049 / 8388608
    rw [roundFloat32_eq _ (0) 11744049 (by norm_num) (by norm_num [SMOOTHED_PATH_DISCRETIZATION])
      (by norm_num [SMOOTHED_PATH_DISCRETIZATION]) (by norm_num [SMOOTHED_PATH_DISCRETIZATION])
      (by norm_num [SMOOTHED_PATH_DISCRETIZATION])]
    norm_num
  have h29 : (fun t : ℝ => roundFloat32 (t + SMOOTHED_PATH_DISCRETIZATION))^[29] 0 = 12163479 / 8388608 := by
    rw [Function.iterate_succ_apply', h28]
    show roundFloat32 (11744049 / 8388608 + SMOOTHED_PATH_DISCRETIZATION) = 12163479 / 8388608
    rw [roundFloat32_eq _ (0) 12163479 (by norm_num) (by norm_num [SMOOTHED_PATH_DISCRETIZATION])
      (by norm_num [SMOOTHED_PATH_DISCRETIZATION]) (by norm_num [SMOOTHED_PATH_DISCRETIZATION])
      (by norm_num [SMOOTHED_PATH_DISCRETIZATION])]
    norm_num
  have h30 : (fun t : ℝ => roundFloat32 (t + SMOOTHED_PATH_DISCRETIZATION))^[30] 0 = 12582909 / 8388608 := by
    rw [Function.iterate_succ_apply', h29]
    show roundFloat32 (12163479 / 8388608 + SMOOTHED_PATH_DISCRETIZATION) = 12582909 / 8388608
    rw [roundFloat32_eq _ (0) 12582909 (by norm_num) (by norm_num [SMOOTHED_PATH_DISCRETIZATION])
      (by norm_num [SMOOTHED_PATH_DISCRETIZATION]) (by norm_num [SMOOTHED_PATH_DISCRETIZATION])
      (by norm_num [SMOOTHED_PATH_DISCRETIZATION])]
    norm_num
  have h31 : (fun t : ℝ => roundFloat32 (t + SMOOTHED_PATH_DISCRETIZATION))^[31] 0 = 13002339 / 8388608 := by
    rw [Function.iterate_succ_apply', h30]
    show roundFloat32 (12582909 / 8388608 + SMOOTHED_PATH_DISCRETIZATION) = 13002339 / 8388608
    rw [roundFloat32_eq _ (0) 13002339 (by norm_num) (by norm_num [SMOOTHED_PATH_DISCRETIZATION])
      (by norm_num [SMOOTHED_PATH_DISCRETIZATION]) (by norm_num [SMOOTHED_PATH_DISCRETIZATION])
      (by norm_num [SMOOTHED_PATH_DISCRETIZATION])]
    norm_num
  have h32 : (fun t : ℝ => roundFloat32 (t + SMOOTHED_PATH_DISCRETIZATION))^[32] 0 = 13421769 / 8388608 := by
    rw [Function.iterate_succ_apply', h31]
    show roundFloat32 (13002339 / 8388608 + SMOOTHED_PATH_DISCRETIZATION) = 13421769 / 8388608
    rw [roundFloat32_eq _ (0) 13421769 (by norm_num) (by norm_num [SMOOTHED_PATH_DISCRETIZATION])
      (by norm_num [SMOOTHED_PATH_DISCRETIZATION]) (by norm_num [SMOOTHED_PATH_DISCRETIZATION])
      (by norm_num [SMOOTHED_PATH_DISCRETIZATION])]
    norm_num
  have h33 : (fun t : ℝ => roundFloat32 (t + SMOOTHED_PATH_DISCRETIZATION))^[33] 0 = 13841199 / 8388608 := by
    rw [Function.iterate_succ_apply', h32]
    show roundFloat32 (13421769 / 8388608 + SMOOTHED_PATH_DISCRETIZATION) = 13841199 / 8388608
    rw [roundFloat32_eq _ (0) 13841199 (by norm_num) (by norm_num [SMOOTHED_PATH_DISCRETIZATION])
      (by norm_num [SMOOTHED_PATH_DISCRETIZATION]) (by norm_num [SMOOTHED_PATH_DISCRETIZATION])
      (by norm_num [SMOOTHED_PATH_DISCRETIZATION])]
    norm_num
  have h34 : (fun t : ℝ => roundFloat32 (t + SMOOTHED_PATH_DISCRETIZATION))^[34] 0 = 14260629 / 8388608 := by
    rw [Function.iterate_succ_apply', h33]
    show roundFloat32 (13841199 / 8388608 + SMOOTHED_PATH_DISCRETIZATION) = 14260629 / 8388608
    rw [roundFloat32_eq _ (0) 14260629 (by norm_num) (by norm_num [SMOOTHED_PATH_DISCRETIZATION])
      (by norm_num [SMOOTHED_PATH_DISCRETIZATION]) (by norm_num [SMOOTHED_PATH_DISCRETIZATION])
      (by norm_num [SMOOTHED_PATH_DISCRETIZATION])]
    norm_num
  have h35 : (fun t : ℝ => roundFloat32 (t + SMOOTHED_PATH_DISCRETIZATION))^[35] 0 = 14680059 / 8388608 := by
    rw [Function.iterate_succ_apply', h34]
    show roundFloat32 (14260629 / 8388608 + SMOOTHED_PATH_DISCRETIZATION) = 14680059 / 8388608
    rw [roundFloat32_eq _ (0) 14680059 (by norm_num) (by norm_num [SMOOTHED_PATH_DISCRETIZATION])
      (by norm_num [SMOOTHED_PATH_DISCRETIZATION]) (by norm_num [SMOOTHED_PATH_DISCRETIZATION])
      (by norm_num [SMOOTHED_PATH_DISCRETIZATION])]
    norm_num
  have h36 : (fun t : ℝ => roundFloat32 (t + SMOOTHED_PATH_DISCRETIZATION))^[36] 0 = 15099489 / 8388608 := by
    rw [Function.iterate_succ_apply', h35]
    show roundFloat32 (14680059 / 8388608 + SMOOTHED_PATH_DISCRETIZATION) = 15099489 / 8388608
    rw [roundFloat32_eq _ (0) 15099489 (by norm_num) (by norm_num [SMOOTHED_PATH_DISCRETIZATION])
      (by norm_num [SMOOTHED_PATH_DISCRETIZATION]) (by norm_num [SMOOTHED_PATH_DISCRETIZATION])
      (by norm_num [SMOOTHED_PATH_DISCRETIZATION])]
    norm_num
  have h37 : (fun t : ℝ => roundFloat32 (t + SMOOTHED_PATH_DISCRETIZATION))^[37] 0 = 15518919 / 8388608 := by
    rw [Function.iterate_succ_apply', h36]
    show roundFloat32 (15099489 / 8388608 + SMOOTHED_PATH_DISCRETIZATION) = 15518919 / 8388608
    rw [roundFloat32_eq _ (0) 15518919 (by norm_num) (by norm_num [SMOOTHED_PATH_DISCRETIZATION])
      (by norm_num [SMOOTHED_PATH_DISCRETIZATION]) (by norm_num [SMOOTHED_PATH_DISCRETIZATION])
      (by norm_num [SMOOTHED_PATH_DISCRETIZATION])]
    norm_num
  have h38 : (fun t : ℝ => roundFloat32 (t + SMOOTHED_PATH_DISCRETIZATION))^[38] 0 = 15938349 / 8388608 := by
    rw [Function.iterate_succ_apply', h37]
    show roundFloat32 (15518919 / 8388608 + SMOOTHED_PATH_DISCRETIZATION) = 15938349 / 8388608
    rw [roundFloat32_eq _ (0) 15938349 (by norm_num) (by norm_num [SMOOTHED_PATH_DISCRETIZATION])
      (by norm_num [SMOOTHED_PATH_DISCRETIZATION]) (by norm_num [SMOOTHED_PATH_DISCRETIZATION])
      (by norm_num [SMOOTHED_PATH_DISCRETIZATION])]
    norm_num
  have h39 : (fun t : ℝ => roundFloat32 (t + SMOOTHED_PATH_DISCRETIZATION))^[39] 0 = 16357779 / 8388608 := by
    rw [Function.iterate_succ_apply', h38]
    show roundFloat32 (15938349 / 8388608 + SMOOTHED_PATH_DISCRETIZATION) = 16357779 / 8388608
    rw [roundFloat32_eq _ (0) 16357779 (by norm_num) (by norm_num [SMOOTHED_PATH_DISCRETIZATION])
      (by norm_num [SMOOTHED_PATH_DISCRETIZATION]) (by norm_num [SMOOTHED_PATH_DISCRETIZATION])
      (by norm_num [SMOOTHED_PATH_DISCRETIZATION])]
    norm_num
  have h40 : (fun t : ℝ => roundFloat32 (t + SMOOTHED_PATH_DISCRETIZATION))^[40] 0 = 16777209 / 8388608 := by
    rw [Function.iterate_succ_apply', h39]
    show roundFloat32 (16357779 / 8388608 + SMOOTHED_PATH_DISCRETIZATION) = 16777209 / 8388608
    rw [roundFloat32_eq _ (0) 16777209 (by norm_num) (by norm_num [SMOOTHED_PATH_DISCRETIZATION])
      (by norm_num [SMOOTHED_PATH_DISCRETIZATION]) (by norm_num [SMOOTHED_PATH_DISCRETIZATION])
      (by norm_num [SMOOTHED_PATH_DISCRETIZATION])]
    norm_num
  have h41 : (fun t : ℝ => roundFloat32 (t + SMOOTHED_PATH_DISCRETIZATION))^[41] 0 = 537395 / 262144 := by
    rw [Function.iterate_succ_apply', h40]
    show roundFloat32 (16777209 / 8388608 + SMOOTHED_PATH_DISCRETIZATION) = 537395 / 262144
    rw [roundFloat32_eq _ (1) 8598320 (by norm_num) (by norm_num [SMOOTHED_PATH_DISCRETIZATION])
      (by norm_num [SMOOTHED_PATH_DISCRETIZATION]) (by norm_num [SMOOTHED_PATH_DISCRETIZATION])
      (by norm_num [SMOOTHED_PATH_DISCRETIZATION])]
    norm_num
  exact ⟨h1, h2, h3, h4, h5, h6, h7, h8, h9, h10, h11, h12, h13, h14, h15, h16, h17, h18, h19,
    h20, h21, h22, h23, h24, h25, h26, h27, h28, h29, h30, h31, h32, h33, h34, h35, h36, h37,
    h38, h39, h40, h41⟩

theorem float_iterates_below_three_halves (j : Nat) (hj : j < 31) :
    (fun t : ℝ => roundFloat32 (t + SMOOTHED_PATH_DISCRETIZATION))^[j] 0 < 3 / 2 := by
  obtain ⟨h1, h2, h3, h4, h5, h6, h7, h8, h9, h10, h11, h12, h13, h14, h15, h16, h17, h18, h19,
    h20, h21, h22, h23, h24, h25, h26, h27, h28, h29, h30, h31, h32, h33, h34, h35, h36, h37,
    h38, h39, h40, h41⟩ := float_accumulation_iterates
  interval_cases j
  · exact (by norm_num : (0 : ℝ) < 3 / 2)
  · rw [h1]
    norm_num
  · rw [h2]
    norm_num
  · rw [h3]
    norm_num
  · rw [h4]
    norm_num
  · rw [h5]
    norm_num
  · rw [h6]
    norm_num
  · rw [h7]
    norm_num
  · rw [h8]
    norm_num
  · rw [h9]
    norm_num
  · rw [h10]
    norm_num
  · rw [h11]
    norm_num
  · rw [h12]
    norm_num
  · rw [h13]
    norm_num
  · rw [h14]
    norm_num
  · rw [h15]
    norm_num
  · rw [h16]
    norm_num
  · rw [h17]
    norm_num
  · rw [h18]
    norm_num
  · rw [h19]
    norm_num
  · rw [h20]
    norm_num
  · rw [h21]
    norm_num
  · rw [h22]
    norm_num
  · rw [h23]
    norm_num
  · rw [h24]
    norm_num
  · rw [h25]
    norm_num
  · rw [h26]
    norm_num
  · rw [h27]
    norm_num
  · rw [h28]
    norm_num
  · rw [h29]
    norm_num
  · rw [h30]
    norm_num

theorem float_iterate_31 :
    ¬ (fun t : ℝ => roundFloat32 (t + SMOOTHED_PATH_DISCRETIZATION))^[31] 0 < 3 / 2 := by
  obtain ⟨h1, h2, h3, h4, h5, h6, h7, h8, h9, h10, h11, h12, h13, h14, h15, h16, h17, h18, h19,
    h20, h21, h22, h23, h24, h25, h26, h27, h28, h29, h30, h31, h32, h33, h34, h35, h36, h37,
    h38, h39, h40, h41⟩ := float_accumulation_iterates
  rw [h31]
  norm_num

theorem float_iterates_below_two (j : Nat) (hj : j < 41) :
    (fun t : ℝ => roundFloat32 (t + SMOOTHED_PATH_DISCRETIZATION))^[j] 0 < 2 := by
  obtain ⟨h1, h2, h3, h4, h5, h6, h7, h8, h9, h10, h11, h12, h13, h14, h15, h16, h17, h18, h19,
    h20, h21, h22, h23, h24, h25, h26, h27, h28, h29, h30, h31, h32, h33, h34, h35, h36, h37,
    h38, h39, h40, h41⟩ := float_accumulation_iterates
  interval_cases j
  · exact (by norm_num : (0 : ℝ) < 2)
  · rw [h1]
    norm_num
  · rw [h2]
    norm_num
  · rw [h3]
    norm_num
  · rw [h4]
    norm_num
  · rw [h5]
    norm_num
  · rw [h6]
    norm_num
  · rw [h7]
    norm_num
  · rw [h8]
    norm_num
  · rw [h9]
    norm_num
  · rw [h10]
    norm_num
  · rw [h11]
    norm_num
  · rw [h12]
    norm_num
  · rw [h13]
    norm_num
  · rw [h14]
    norm_num
  · rw [h15]
    norm_num
  · rw [h16]
    norm_num
  · rw [h17]
    norm_num
  · rw [h18]
    norm_num
  · rw [h19]
    norm_num
  · rw [h20]
    norm_num
  · rw [h21]
    norm_num
  · rw [h22]
    norm_num
  · rw [h23]
    norm_num
  · rw [h24]
    norm_num
  · rw [h25]
    norm_num
  · rw [h26]
    norm_num
  · rw [h27]
    norm_num
  · rw [h28]
    norm_num
  · rw [h29]
    norm_num
  · rw [h30]
    norm_num
  · rw [h31]
    norm_num
  · rw [h32]
    norm_num
  · rw [h33]
    norm_num
  · rw [h34]
    norm_num
  · rw [h35]
    norm_num
  · rw [h36]
    norm_num
  · rw [h37]
    norm_num
  · rw [h38]
    norm_num
  · rw [h39]
    norm_num
  · rw [h40]
    norm_num

theorem float_iterate_41 :
    ¬ (fun t : ℝ => roundFloat32 (t + SMOOTHED_PATH_DISCRETIZATION))^[41] 0 < 2 := by
  obtain ⟨h1, h2, h3, h4, h5, h6, h7, h8, h9, h10, h11, h12, h13, h14, h15, h16, h17, h18, h19,
    h20, h21, h22, h23, h24, h25, h26, h27, h28, h29, h30, h31, h32, h33, h34, h35, h36, h37,
    h38, h39, h40, h41⟩ := float_accumulation_iterates
  rw [h41]
  norm_num


theorem float_iterates_near_multiples (j : Nat) (hj : j < 41) :
    |(fun t : ℝ => roundFloat32 (t + SMOOTHED_PATH_DISCRETIZATION))^[j] 0 - (j : ℝ) * 0.05| < 1 / 1000000 := by
  obtain ⟨h1, h2, h3, h4, h5, h6, h7, h8, h9, h10, h11, h12, h13, h14, h15, h16, h17, h18, h19,
    h20, h21, h22, h23, h24, h25, h26, h27, h28, h29, h30, h31, h32, h33, h34, h35, h36, h37,
    h38, h39, h40, h41⟩ := float_accumulation_iterates
  interval_cases j
  · norm_num
  · rw [h1, abs_lt]
    norm_num
  · rw [h2, abs_lt]
    norm_num
  · rw [h3, abs_lt]
    norm_num
  · rw [h4, abs_lt]
    norm_num
  · rw [h5, abs_lt]
    norm_num
  · rw [h6, abs_lt]
    norm_num
  · rw [h7, abs_lt]
    norm_num
  · rw [h8, abs_lt]
    norm_num
  · rw [h9, abs_lt]
    norm_num
  · rw [h10, abs_lt]
    norm_num
  · rw [h11, abs_lt]
    norm_num
  · rw [h12, abs_lt]
    norm_num
  · rw [h13, abs_lt]
    norm_num
  · rw [h14, abs_lt]
    norm_num
  · rw [h15, abs_lt]
    norm_num
  · rw [h16, abs_lt]
    norm_num
  · rw [h17, abs_lt]
    norm_num
  · rw [h18, abs_lt]
    norm_num
  · rw [h19, abs_lt]
    norm_num
  · rw [h20, abs_lt]
    norm_num
  · rw [h21, abs_lt]
    norm_num
  · rw [h22, abs_lt]
    norm_num
  · rw [h23, abs_lt]
    norm_num
  · rw [h24, abs_lt]
    norm_num
  · rw [h25, abs_lt]
    norm_num
  · rw [h26, abs_lt]
    norm_num
  · rw [h27, abs_lt]
    norm_num
  · rw [h28, abs_lt]
    norm_num
  · rw [h29, abs_lt]
    norm_num
  · rw [h30, abs_lt]
    norm_num
  · rw [h31, abs_lt]
    norm_num
  · rw [h32, abs_lt]
    norm_num
  · rw [h33, abs_lt]
    norm_num
  · rw [h34, abs_lt]
    norm_num
  · rw [h35, abs_lt]
    norm_num
  · rw [h36, abs_lt]
    norm_num
  · rw [h37, abs_lt]
    norm_num
  · rw [h38, abs_lt]
    norm_num
  · rw [h39, abs_lt]
    norm_num
  · rw [h40, abs_lt]
    norm_num


theorem unit_path_table (e : ℝ → ℝ) (f : Vec3 ℝ → Vec3 ℝ → Quat ℝ) :
    computeAccumulatedDistancesF roundFloat32 ⟨Real.sqrt, e, f⟩ [⟨0, 0, 0⟩, ⟨1, 0, 0⟩] = [0, 1] := by
  simp only [computeAccumulatedDistancesF, accumulateDistancesF, norm_along_x]
  norm_num [roundFloat32_one]

theorem three_halves_path_table (e : ℝ → ℝ) (f : Vec3 ℝ → Vec3 ℝ → Quat ℝ) :
    computeAccumulatedDistancesF roundFloat32 ⟨Real.sqrt, e, f⟩ [⟨0, 0, 0⟩, ⟨3 / 2, 0, 0⟩] = [0, 3 / 2] := by
  have h : |(3 / 2 : ℝ)| = 3 / 2 := abs_of_pos (by norm_num)
  simp only [computeAccumulatedDistancesF, accumulateDistancesF, norm_along_x]
  norm_num [h, roundFloat32_three_halves]

theorem straight_path_table (e : ℝ → ℝ) (f : Vec3 ℝ → Vec3 ℝ → Quat ℝ) :
    computeAccumulatedDistancesF roundFloat32 ⟨Real.sqrt, e, f⟩ [⟨0, 0, 0⟩, ⟨1, 0, 0⟩, ⟨2, 0, 0⟩] = [0, 1, 2] := by
  simp only [computeAccumulatedDistancesF, accumulateDistancesF, norm_along_x]
  norm_num [roundFloat32_one, roundFloat32_two]

/-- C13 (witness): the path `(0,0,0), (1,0,0)` over the reals with the binary32 conversion
(stored table `0, 1`). -/
theorem float_resampled_times_and_cardinality_witness :
    ∃ n fuel0 : Nat, 0 < n
      ∧ ∀ fuel : Nat, fuel0 ≤ fuel →
          (smoothF roundFloat32 (⟨Real.sqrt, Real.exp, fun _ _ => ⟨1, 0, 0, 0⟩⟩ : Numerics ℝ) ⟨true⟩ fuel [⟨0, 0, 0⟩, ⟨1, 0, 0⟩] ⟨1, 0, 0, 0⟩ ⟨1, 0, 0, 0⟩ false).map
              (fun r => r.out_smooth_positions.length) = some (n + 1)
          ∧ (smoothF roundFloat32 (⟨Real.sqrt, Real.exp, fun _ _ => ⟨1, 0, 0, 0⟩⟩ : Numerics ℝ) ⟨true⟩ fuel [⟨0, 0, 0⟩, ⟨1, 0, 0⟩] ⟨1, 0, 0, 0⟩ ⟨1, 0, 0, 0⟩ false).map
              (fun r => r.out_smooth_orientations.length) = some (n + 1) := by
  have hD := unit_path_table Real.exp (fun _ _ => ⟨1, 0, 0, 0⟩)
  obtain ⟨n, fuel0, hn, -, -, -, -, -, h⟩ := float_resampled_times_and_cardinality roundFloat32
    (⟨Real.sqrt, Real.exp, fun _ _ => ⟨1, 0, 0, 0⟩⟩ : Numerics ℝ) ⟨true⟩ [⟨0, 0, 0⟩, ⟨1, 0, 0⟩] ⟨1, 0, 0, 0⟩ ⟨1, 0, 0, 0⟩ false (by simp)
    (by rw [hD]; norm_num [List.getLastD])
    (by
      intro d hd hdL
      rw [hD] at hdL
      have hd1 : d < 1 := by simpa [List.getLastD] using hdL
      exact roundFloat32_progress d hd (by linarith))
  exact ⟨n, fuel0, hn, fun fuel hfuel => ⟨(h fuel hfuel).2.1, (h fuel hfuel).2.2⟩⟩

/-- C13 (counterexample): for the path `(0,0,0), (3/2,0,0)` over the reals with the binary32
conversion, of total length `L = 3/2`, `⌈L / S⌉ + 1 = 31`, yet the loop runs 31 times: there
are 32 resampled times and `smooth` returns 32 positions; the 31st time is
`12582909 / 8388608 ≈ 1.4999996`, which is not the multiple `30 * 0.05 = 3/2` (that
multiple is not below `L`). -/
theorem float_count_counterexample :
    2 ≤ ([⟨0, 0, 0⟩, ⟨3 / 2, 0, 0⟩] : List (Vec3 ℝ)).length
    ∧ (computeAccumulatedDistancesF roundFloat32 (⟨Real.sqrt, Real.exp, fun _ _ => ⟨1, 0, 0, 0⟩⟩ : Numerics ℝ) [⟨0, 0, 0⟩, ⟨3 / 2, 0, 0⟩]).getLastD 0 = 3 / 2
    ∧ ⌈(computeAccumulatedDistancesF roundFloat32 (⟨Real.sqrt, Real.exp, fun _ _ => ⟨1, 0, 0, 0⟩⟩ : Numerics ℝ) [⟨0, 0, 0⟩, ⟨3 / 2, 0, 0⟩]).getLastD 0
        / SMOOTHED_PATH_DISCRETIZATION⌉₊ + 1 = 31
    ∧ (resampledSamplesF roundFloat32 (computeAccumulatedDistancesF roundFloat32 (⟨Real.sqrt, Real.exp, fun _ _ => ⟨1, 0, 0, 0⟩⟩ : Numerics ℝ) [⟨0, 0, 0⟩, ⟨3 / 2, 0, 0⟩])
        [⟨0, 0, 0⟩, ⟨3 / 2, 0, 0⟩] 100).map List.length = some 32
    ∧ (resampledSamplesF roundFloat32 (computeAccumulatedDistancesF roundFloat32 (⟨Real.sqrt, Real.exp, fun _ _ => ⟨1, 0, 0, 0⟩⟩ : Numerics ℝ) [⟨0, 0, 0⟩, ⟨3 / 2, 0, 0⟩])
        [⟨0, 0, 0⟩, ⟨3 / 2, 0, 0⟩] 100).map (fun samples => samples.getD 30 0) = some (12582909 / 8388608)
    ∧ (12582909 / 8388608 : ℝ) ≠ 30 * SMOOTHED_PATH_DISCRETIZATION
    ∧ (smoothF roundFloat32 (⟨Real.sqrt, Real.exp, fun _ _ => ⟨1, 0, 0, 0⟩⟩ : Numerics ℝ) ⟨true⟩ 100 [⟨0, 0, 0⟩, ⟨3 / 2, 0, 0⟩] ⟨1, 0, 0, 0⟩ ⟨1, 0, 0, 0⟩ false).map
        (fun r => r.out_smooth_positions.length) = some 32 := by
  have hD := three_halves_path_table Real.exp (fun _ _ => ⟨1, 0, 0, 0⟩)
  have hL : List.getLastD ([0, 3 / 2] : List ℝ) 0 = 3 / 2 := rfl
  have hlt : ∀ j : Nat, j < 31 → (fun t : ℝ => roundFloat32 (t + SMOOTHED_PATH_DISCRETIZATION))^[j] 0 < List.getLastD ([0, 3 / 2] : List ℝ) 0 := by
    intro j hj
    rw [hL]
    exact float_iterates_below_three_halves j hj
  have hstop : ¬ (fun t : ℝ => roundFloat32 (t + SMOOTHED_PATH_DISCRETIZATION))^[31] 0 < List.getLastD ([0, 3 / 2] : List ℝ) 0 := by
    rw [hL]
    exact float_iterate_31
  have hsamples := resampledSamplesF_eq roundFloat32 ([0, 3 / 2] : List ℝ) [⟨0, 0, 0⟩, ⟨3 / 2, 0, 0⟩] 31 100
    (by norm_num) hlt hstop
  have hsmooth := smoothF_lengths roundFloat32 (⟨Real.sqrt, Real.exp, fun _ _ => ⟨1, 0, 0, 0⟩⟩ : Numerics ℝ) ⟨true⟩ [⟨0, 0, 0⟩, ⟨3 / 2, 0, 0⟩] ⟨1, 0, 0, 0⟩ ⟨1, 0, 0, 0⟩ false
    31 100 (by norm_num) (by rw [hD]; exact hlt) (by rw [hD]; exact hstop)
  have h30 := float_accumulation_iterates.2.2.2.2.2.2.2.2.2.2.2.2.2.2.2.2.2.2.2.2.2.2.2.2.2.2.2.2.2.1
  rw [hD]
  refine ⟨by simp, hL, ?_, ?_, ?_, ?_, hsmooth.1⟩
  · have h : List.getLastD ([0, 3 / 2] : List ℝ) 0 / SMOOTHED_PATH_DISCRETIZATION
        = ((30 : ℕ) : ℝ) := by
      norm_num [List.getLastD, SMOOTHED_PATH_DISCRETIZATION]
    rw [h, Nat.ceil_natCast]
  · rw [hsamples]
    simp
  · rw [hsamples, Option.map_some', List.getD_eq_getElem?_getD,
      List.getElem?_append_left (by simp), List.getElem?_map,
      List.getElem?_range (by norm_num)]
    simp only [Option.map_some', Option.getD_some]
    rw [h30]
  · norm_num [SMOOTHED_PATH_DISCRETIZATION]

theorem straight_path_loop_bounds :
    (∀ j : Nat, j < 41 → (fun t : ℝ => roundFloat32 (t + SMOOTHED_PATH_DISCRETIZATION))^[j] 0 < List.getLastD ([0, 1, 2] : List ℝ) 0)
    ∧ ¬ (fun t : ℝ => roundFloat32 (t + SMOOTHED_PATH_DISCRETIZATION))^[41] 0 < List.getLastD ([0, 1, 2] : List ℝ) 0 := by
  have hL : List.getLastD ([0, 1, 2] : List ℝ) 0 = 2 := rfl
  rw [hL]
  exact ⟨float_iterates_below_two, float_iterate_41⟩

theorem straight_path_samples :
    resampledSamplesF roundFloat32 ([0, 1, 2] : List ℝ) [⟨0, 0, 0⟩, ⟨1, 0, 0⟩, ⟨2, 0, 0⟩] 100
      = some ((List.range 41).map (fun j => (fun t : ℝ => roundFloat32 (t + SMOOTHED_PATH_DISCRETIZATION))^[j] 0) ++ [2]) :=
  resampledSamplesF_eq roundFloat32 ([0, 1, 2] : List ℝ) [⟨0, 0, 0⟩, ⟨1, 0, 0⟩, ⟨2, 0, 0⟩] 41 100 (by norm_num)
    straight_path_loop_bounds.1 straight_path_loop_bounds.2

theorem straight_path_samplesX :
    resampledSamplesXF roundFloat32 ([0, 1, 2] : List ℝ) [⟨0, 0, 0⟩, ⟨1, 0, 0⟩, ⟨2, 0, 0⟩] 100
      = (resampledSamplesF roundFloat32 ([0, 1, 2] : List ℝ) [⟨0, 0, 0⟩, ⟨1, 0, 0⟩, ⟨2, 0, 0⟩] 100).map
          (List.map (fun t => (⟨t, 0, 0⟩ : Vec3 ℝ))) := by
  have hlen := resampleStepsF_length_eq roundFloat32 ([0, 1, 2] : List ℝ) 41 100 0 0
    (by norm_num) straight_path_loop_bounds.1 straight_path_loop_bounds.2
  have hrange := resampleStepsF_in_range roundFloat32 ([0, 1, 2] : List ℝ) 100 0 0
    (by norm_num)
  rw [resampledSamplesXF, resampledSamplesF, resampleLoopF, hlen, if_pos (by norm_num)]
  simp only [Option.map_some', List.map_append, List.map_map, List.map_cons, List.map_nil]
  congr 2
  apply List.map_congr_left
  intro s hs
  have hk : s.2 ≤ 1 := by
    have := hrange s hs
    simp only [List.length_cons, List.length_nil] at this
    omega
  exact straight_path_interpolate s.2 hk s.1

/-- C14 (amended): for the path `(0,0,0), (1,0,0), (2,0,0)` over the reals with the binary32
conversion, discretization `0.05` and smoothness `0.125`: the stored table is `0, 1, 2`; the
resampled times are the 41 values of the `float` loop variable (each within `10⁻⁶` of the
multiple `j * 0.05`, the last one `16777209 / 8388608 ≈ 1.9999992`) followed by `2`, that is
42 samples; the raw sample at time `t` is `(t,0,0)`; the smoothed trajectory has 42
positions, the first `(0,0,0)` and the last `(2,0,0)`. The bound `100` on the iterations
can be replaced by any number above 41. -/
theorem straight_path_float_example :
    computeAccumulatedDistancesF roundFloat32 (⟨Real.sqrt, Real.exp, fun _ _ => ⟨1, 0, 0, 0⟩⟩ : Numerics ℝ) [⟨0, 0, 0⟩, ⟨1, 0, 0⟩, ⟨2, 0, 0⟩] = [0, 1, 2]
    ∧ resampledSamplesF roundFloat32 (computeAccumulatedDistancesF roundFloat32 (⟨Real.sqrt, Real.exp, fun _ _ => ⟨1, 0, 0, 0⟩⟩ : Numerics ℝ) [⟨0, 0, 0⟩, ⟨1, 0, 0⟩, ⟨2, 0, 0⟩])
        [⟨0, 0, 0⟩, ⟨1, 0, 0⟩, ⟨2, 0, 0⟩] 100
      = some ((List.range 41).map (fun j => (fun t : ℝ => roundFloat32 (t + SMOOTHED_PATH_DISCRETIZATION))^[j] 0) ++ [2])
    ∧ (∀ j : Nat, j < 41 → |(fun t : ℝ => roundFloat32 (t + SMOOTHED_PATH_DISCRETIZATION))^[j] 0 - (j : ℝ) * 0.05| < 1 / 1000000)
    ∧ (fun t : ℝ => roundFloat32 (t + SMOOTHED_PATH_DISCRETIZATION))^[40] 0 = 16777209 / 8388608
    ∧ (resampledSamplesF roundFloat32 (computeAccumulatedDistancesF roundFloat32 (⟨Real.sqrt, Real.exp, fun _ _ => ⟨1, 0, 0, 0⟩⟩ : Numerics ℝ) [⟨0, 0, 0⟩, ⟨1, 0, 0⟩, ⟨2, 0, 0⟩])
        [⟨0, 0, 0⟩, ⟨1, 0, 0⟩, ⟨2, 0, 0⟩] 100).map List.length = some 42
    ∧ resampledSamplesXF roundFloat32 (computeAccumulatedDistancesF roundFloat32 (⟨Real.sqrt, Real.exp, fun _ _ => ⟨1, 0, 0, 0⟩⟩ : Numerics ℝ) [⟨0, 0, 0⟩, ⟨1, 0, 0⟩, ⟨2, 0, 0⟩])
        [⟨0, 0, 0⟩, ⟨1, 0, 0⟩, ⟨2, 0, 0⟩] 100
      = (resampledSamplesF roundFloat32 (computeAccumulatedDistancesF roundFloat32 (⟨Real.sqrt, Real.exp, fun _ _ => ⟨1, 0, 0, 0⟩⟩ : Numerics ℝ) [⟨0, 0, 0⟩, ⟨1, 0, 0⟩, ⟨2, 0, 0⟩])
          [⟨0, 0, 0⟩, ⟨1, 0, 0⟩, ⟨2, 0, 0⟩] 100).map (List.map (fun t => (⟨t, 0, 0⟩ : Vec3 ℝ)))
    ∧ (smoothF roundFloat32 (⟨Real.sqrt, Real.exp, fun _ _ => ⟨1, 0, 0, 0⟩⟩ : Numerics ℝ) ⟨true⟩ 100 [⟨0, 0, 0⟩, ⟨1, 0, 0⟩, ⟨2, 0, 0⟩] ⟨1, 0, 0, 0⟩ ⟨1, 0, 0, 0⟩ false).map
        (fun r => r.out_smooth_positions.length) = some 42
    ∧ (smoothF roundFloat32 (⟨Real.sqrt, Real.exp, fun _ _ => ⟨1, 0, 0, 0⟩⟩ : Numerics ℝ) ⟨true⟩ 100 [⟨0, 0, 0⟩, ⟨1, 0, 0⟩, ⟨2, 0, 0⟩] ⟨1, 0, 0, 0⟩ ⟨1, 0, 0, 0⟩ false).map
        (fun r => r.out_smooth_positions.head?) = some (some ⟨0, 0, 0⟩)
    ∧ (smoothF roundFloat32 (⟨Real.sqrt, Real.exp, fun _ _ => ⟨1, 0, 0, 0⟩⟩ : Numerics ℝ) ⟨true⟩ 100 [⟨0, 0, 0⟩, ⟨1, 0, 0⟩, ⟨2, 0, 0⟩] ⟨1, 0, 0, 0⟩ ⟨1, 0, 0, 0⟩ false).map
        (fun r => r.out_smooth_positions.getLast?) = some (some ⟨2, 0, 0⟩) := by
  have hD := straight_path_table Real.exp (fun _ _ => ⟨1, 0, 0, 0⟩)
  have hsmooth := smoothF_lengths roundFloat32 (⟨Real.sqrt, Real.exp, fun _ _ => ⟨1, 0, 0, 0⟩⟩ : Numerics ℝ) ⟨true⟩ [⟨0, 0, 0⟩, ⟨1, 0, 0⟩, ⟨2, 0, 0⟩] ⟨1, 0, 0, 0⟩ ⟨1, 0, 0, 0⟩ false
    41 100 (by norm_num) (by rw [hD]; exact straight_path_loop_bounds.1)
    (by rw [hD]; exact straight_path_loop_bounds.2)
  rw [hD]
  refine ⟨rfl, straight_path_samples, float_iterates_near_multiples,
    float_accumulation_iterates.2.2.2.2.2.2.2.2.2.2.2.2.2.2.2.2.2.2.2.2.2.2.2.2.2.2.2.2.2.2.2.2.2.2.2.2.2.2.2.1,
    ?_, straight_path_samplesX, hsmooth.1, hsmooth.2.2.1, ?_⟩
  · rw [straight_path_samples]
    simp
  · rw [hsmooth.2.2.2]
    simp [List.getLastD]

/-- C14 (counterexample): for the path `(0,0,0), (1,0,0), (2,0,0)` over the reals with the
binary32 conversion there are 42 resampled times, not 41: the 41st, which the claim gives as
`2.0`, is the value `16777209 / 8388608 < 2` of the `float` loop variable, and `smooth`
returns 42 positions. -/
theorem straight_path_count_counterexample :
    (resampledSamplesF roundFloat32 (computeAccumulatedDistancesF roundFloat32 (⟨Real.sqrt, Real.exp, fun _ _ => ⟨1, 0, 0, 0⟩⟩ : Numerics ℝ) [⟨0, 0, 0⟩, ⟨1, 0, 0⟩, ⟨2, 0, 0⟩])
        [⟨0, 0, 0⟩, ⟨1, 0, 0⟩, ⟨2, 0, 0⟩] 100).map List.length = some 42
    ∧ (resampledSamplesF roundFloat32 (computeAccumulatedDistancesF roundFloat32 (⟨Real.sqrt, Real.exp, fun _ _ => ⟨1, 0, 0, 0⟩⟩ : Numerics ℝ) [⟨0, 0, 0⟩, ⟨1, 0, 0⟩, ⟨2, 0, 0⟩])
        [⟨0, 0, 0⟩, ⟨1, 0, 0⟩, ⟨2, 0, 0⟩] 100).map List.length ≠ some 41
    ∧ (resampledSamplesF roundFloat32 (computeAccumulatedDistancesF roundFloat32 (⟨Real.sqrt, Real.exp, fun _ _ => ⟨1, 0, 0, 0⟩⟩ : Numerics ℝ) [⟨0, 0, 0⟩, ⟨1, 0, 0⟩, ⟨2, 0, 0⟩])
        [⟨0, 0, 0⟩, ⟨1, 0, 0⟩, ⟨2, 0, 0⟩] 100).map (fun samples => samples.getD 40 0) = some (16777209 / 8388608)
    ∧ (16777209 / 8388608 : ℝ) < 2
    ∧ (smoothF roundFloat32 (⟨Real.sqrt, Real.exp, fun _ _ => ⟨1, 0, 0, 0⟩⟩ : Numerics ℝ) ⟨true⟩ 100 [⟨0, 0, 0⟩, ⟨1, 0, 0⟩, ⟨2, 0, 0⟩] ⟨1, 0, 0, 0⟩ ⟨1, 0, 0, 0⟩ false).map
        (fun r => r.out_smooth_positions.length) = some 42 := by
  have hD := straight_path_table Real.exp (fun _ _ => ⟨1, 0, 0, 0⟩)
  have hsmooth := smoothF_lengths roundFloat32 (⟨Real.sqrt, Real.exp, fun _ _ => ⟨1, 0, 0, 0⟩⟩ : Numerics ℝ) ⟨true⟩ [⟨0, 0, 0⟩, ⟨1, 0, 0⟩, ⟨2, 0, 0⟩] ⟨1, 0, 0, 0⟩ ⟨1, 0, 0, 0⟩ false
    41 100 (by norm_num) (by rw [hD]; exact straight_path_loop_bounds.1)
    (by rw [hD]; exact straight_path_loop_bounds.2)
  have h40 := float_accumulation_iterates.2.2.2.2.2.2.2.2.2.2.2.2.2.2.2.2.2.2.2.2.2.2.2.2.2.2.2.2.2.2.2.2.2.2.2.2.2.2.2.1
  have hlen : (resampledSamplesF roundFloat32 ([0, 1, 2] : List ℝ) [⟨0, 0, 0⟩, ⟨1, 0, 0⟩, ⟨2, 0, 0⟩] 100).map List.length
      = some 42 := by
    rw [straight_path_samples]
    simp
  rw [hD]
  refine ⟨hlen, ?_, ?_, by norm_num, hsmooth.1⟩
  · rw [hlen]
    simp
  · rw [straight_path_samples, Option.map_some', List.getD_eq_getElem?_getD,
      List.getElem?_append_left (by simp), List.getElem?_map,
      List.getElem?_range (by norm_num)]
    simp only [Option.map_some', Option.getD_some]
    rw [h40]

/-! ## Theorems: Gaussian smoothing with `float` weights -/

end VehicleController
